import Mathlib

/-!
# loggin.c : a shallow embedding of the logging dispatcher

The C library keeps one process-wide `logger_state` (configuration, a table of
`MAX_OUTPUTS` output handlers, an `initialized` flag).  Every public function of
`src/lib/logger/loggin.c` is rendered here as a function on a `Process`: the global
`logger_state` together with the observable effects the C code performs through
pointers it does not own (lock callback calls, clock reads, output procedure calls,
`fclose`).

Conventions of the embedding:

* `log_level_t` is a C enum without negative enumerator; gcc and clang give it the type
  `unsigned int`, and the levels are rendered as natural numbers compared as such; the
  six enumerators are `0..5`.  An `int` argument such as `-1` reaches the library as
  `level_of_int (-1)`.
* pointers are values of small inductive types with an explicit `null`;
  `memset (&logger_state, 0, ...)` yields the all-`null`/`0`/`false` state.
* `for (int i = 0; i < MAX_OUTPUTS; i++)` is a fold over `List.finRange MAX_OUTPUTS`;
  a `return` inside such a loop is `List.find?` of the first index taking the branch.
* caller-supplied callbacks (lock procedure, custom output procedures) are opaque:
  a call is recorded in `Process.trace` and is assumed to return, not to re-enter the
  logger API and not to write through the event pointer.
* a call whose behaviour C leaves undefined (a built-in output procedure reading its
  tables out of range or handed a NULL stream, a call through a NULL procedure pointer)
  does not return: the call is recorded, nothing after it happens, and the process is
  marked `aborted`; `Op.apply` runs nothing in an aborted process.
* the clock does not fail: `localtime` of the current time is not NULL.
-/

namespace Loggin

/-! ## Data model (`src/lib/loggin.h`, `src/lib/logger/loggin.c` lines 16-31) -/

/-- Capacity of the output table: `#define MAX_OUTPUTS 16`. -/
abbrev MAX_OUTPUTS : Nat := 16

/-- The enum `log_level_t` as the compiled code holds it: an unsigned integer, compared
as such.  The values a caller can pass are those below `2^32`. -/
abbrev log_level_t := Nat

/-- The level an `int` argument becomes on conversion to `log_level_t` (`unsigned int`,
32 bits): `-1` becomes `4294967295`. -/
def level_of_int (i : Int) : log_level_t := (i % 4294967296).toNat

def LOG_LEVEL_TRACE : log_level_t := 0
def LOG_LEVEL_DEBUG : log_level_t := 1
def LOG_LEVEL_INFO : log_level_t := 2
def LOG_LEVEL_WARN : log_level_t := 3
def LOG_LEVEL_ERROR : log_level_t := 4
def LOG_LEVEL_FATAL : log_level_t := 5

/-- Data pointers (`void *`, `FILE *`): null, the two standard streams the code
compares against, or any other address. -/
inductive Ptr where
  | null
  | stdout
  | stderr
  | addr (a : Nat)
  deriving DecidableEq, Repr

/-- Values of `log_output_fn_t`: null, the two built-in output procedures, or a
caller-supplied procedure identified by its address. -/
inductive log_output_fn_t where
  | null
  | logger_console_output
  | logger_file_output
  | custom (a : Nat)
  deriving DecidableEq, Repr

/-- Values of `log_lock_fn_t`: null or a caller-supplied procedure. -/
inductive log_lock_fn_t where
  | null
  | fn (a : Nat)
  deriving DecidableEq, Repr

/-- One variadic argument of a `logger_log` call. -/
inductive va_arg where
  | int (i : Int)
  | str (s : String)
  deriving DecidableEq, Repr

/-- The fields of `struct tm` that the built-in outputs format. -/
structure tm where
  tm_year : Int
  tm_mon : Int
  tm_mday : Int
  tm_hour : Int
  tm_min : Int
  tm_sec : Int
  deriving DecidableEq, Repr

/-- The struct `log_event_t`.  The `char *` fields and `time` may be NULL (`none`). -/
structure log_event_t where
  ap : List va_arg
  fmt : Option String
  file : Option String
  function : Option String
  time : Option tm
  user_data : Ptr
  line : Int
  level : log_level_t
  deriving DecidableEq, Repr

/-- The struct `log_config_t`. -/
structure log_config_t where
  level : log_level_t
  quiet : Bool
  use_colors : Bool
  show_file_line : Bool
  show_function : Bool
  lock_fn : log_lock_fn_t
  lock_data : Ptr
  deriving DecidableEq, Repr

/-- The struct `output_handler_t`. -/
structure output_handler_t where
  output_fn : log_output_fn_t
  user_data : Ptr
  min_level : log_level_t
  active : Bool
  deriving DecidableEq, Repr

/-- The static `logger_state`: configuration, `outputs[MAX_OUTPUTS]`, `initialized`. -/
structure logger_state_t where
  config : log_config_t
  outputs : Fin MAX_OUTPUTS → output_handler_t
  initialized : Bool

/-- An observable action of the library on its environment. -/
inductive Effect where
  /-- The call `lock_fn(lock, lock_data)` made by `lock_logger` / `unlock_logger`. -/
  | lock_call (fn : log_lock_fn_t) (lock : Bool) (user_data : Ptr)
  /-- The pair `time(NULL)`, `localtime(&t)` of `init_event`. -/
  | time_read
  /-- The call `logger_state.outputs[slot].output_fn(&event)` of `logger_log`. -/
  | output_call (slot : Fin MAX_OUTPUTS) (fn : log_output_fn_t) (event : log_event_t)
  /-- The call `fclose(file)` of `logger_cleanup`. -/
  | fclose (file : Ptr)
  deriving DecidableEq, Repr

/-- The process as the library sees it: its global state; the effects performed so
far (oldest first); the clock, `clock n` being what the `n`-th `localtime(time(NULL))`
of the process yields; for every call of the lock adapter made so far, its argument and
the `logger_state` in memory at the moment of the call (what a thread entering or
leaving the critical section finds); and whether the process has died in a call that
does not return. -/
structure Process where
  logger_state : logger_state_t
  trace : List Effect
  clock : Nat → tm
  ticks : Nat
  views : List (Bool × logger_state_t)
  aborted : Bool

/-- The all-zero `output_handler_t`. -/
def zero_handler : output_handler_t :=
  { output_fn := .null, user_data := .null, min_level := 0, active := false }

/-- The all-zero `log_config_t`. -/
def zero_config : log_config_t :=
  { level := 0, quiet := false, use_colors := false, show_file_line := false,
    show_function := false, lock_fn := .null, lock_data := .null }

/-- The state after `memset(&logger_state, 0, sizeof(logger_state))`, which is also the
static initialiser `{0}` of a fresh process. -/
def zero_state : logger_state_t :=
  { config := zero_config, outputs := fun _ => zero_handler, initialized := false }

/-- A process that has not yet called the library. -/
def fresh (clock : Nat → tm) : Process :=
  { logger_state := zero_state, trace := [], clock := clock, ticks := 0, views := [],
    aborted := false }

/-! ## Thread safety hooks (lines 58-68) -/

/-- The function `lock_logger`: calls `lock_fn(true, lock_data)` when a lock is installed. -/
def lock_logger (p : Process) : Process :=
  if p.logger_state.config.lock_fn ≠ .null then
    { p with
      trace := p.trace ++
        [Effect.lock_call p.logger_state.config.lock_fn true p.logger_state.config.lock_data]
      views := p.views ++ [(true, p.logger_state)] }
  else p

/-- The function `unlock_logger`: calls `lock_fn(false, lock_data)` when a lock is installed. -/
def unlock_logger (p : Process) : Process :=
  if p.logger_state.config.lock_fn ≠ .null then
    { p with
      trace := p.trace ++
        [Effect.lock_call p.logger_state.config.lock_fn false p.logger_state.config.lock_data]
      views := p.views ++ [(false, p.logger_state)] }
  else p

/-! ## Output management (lines 258-314) -/

/-- The assignments of lines 303-306: fill slot `i` and mark it active. -/
def set_output (s : logger_state_t) (i : Fin MAX_OUTPUTS) (output_fn : log_output_fn_t)
    (user_data : Ptr) (level : log_level_t) : logger_state_t :=
  let h : output_handler_t :=
    { output_fn := output_fn, user_data := user_data, min_level := level, active := true }
  { s with outputs := Function.update s.outputs i h }

/-- The slot at which the loop of `logger_add_custom_output` takes its branch: the first
index, in increasing order, whose handler is not active. -/
def first_inactive (s : logger_state_t) : Option (Fin MAX_OUTPUTS) :=
  (List.finRange MAX_OUTPUTS).find? (fun i => !(s.outputs i).active)

/-- The function `logger_add_custom_output` (lines 294-314); returns the C return value
and the process afterwards. -/
def logger_add_custom_output (output_fn : log_output_fn_t) (user_data : Ptr)
    (level : log_level_t) (p : Process) : Int × Process :=
  if output_fn = .null then (-1, p)
  else
    let p := lock_logger p
    match first_inactive p.logger_state with
    | some i =>
      let p := { p with logger_state := set_output p.logger_state i output_fn user_data level }
      (0, unlock_logger p)
    | none => (-1, unlock_logger p)

/-- The function `logger_add_console_output` (lines 258-260). -/
def logger_add_console_output (level : log_level_t) (p : Process) : Int × Process :=
  logger_add_custom_output .logger_console_output .stderr level p

/-- The function `logger_add_file_output` (lines 274-279). -/
def logger_add_file_output (file : Ptr) (level : log_level_t) (p : Process) : Int × Process :=
  if file = .null then (-1, p)
  else logger_add_custom_output .logger_file_output file level p

/-! ## Initialisation and cleanup (lines 82-129) -/

/-- The function `logger_init` (lines 82-102). -/
def logger_init (p : Process) : Process :=
  if p.logger_state.initialized then p
  else
    let p := { p with logger_state := zero_state }
    let p := { p with logger_state := { p.logger_state with config :=
      { level := LOG_LEVEL_INFO, quiet := false, use_colors := true, show_file_line := true,
        show_function := false, lock_fn := .null, lock_data := .null } } }
    let p := (logger_add_console_output LOG_LEVEL_TRACE p).2
    { p with logger_state := { p.logger_state with initialized := true } }

/-- One iteration of the loop of `logger_cleanup` (lines 119-125). -/
def cleanup_step (p : Process) (i : Fin MAX_OUTPUTS) : Process :=
  let h := p.logger_state.outputs i
  if h.active && h.output_fn = .logger_file_output then
    let file := h.user_data
    if file ≠ .null ∧ file ≠ .stdout ∧ file ≠ .stderr then
      { p with trace := p.trace ++ [Effect.fclose file] }
    else p
  else p

/-- The function `logger_cleanup` (lines 112-129). -/
def logger_cleanup (p : Process) : Process :=
  if !p.logger_state.initialized then p
  else
    let p := (List.finRange MAX_OUTPUTS).foldl cleanup_step p
    { p with logger_state := zero_state }

/-! ## Configuration setters (lines 146-241) -/

/-- The function `logger_set_level`. -/
def logger_set_level (level : log_level_t) (p : Process) : Process :=
  let p := lock_logger p
  let p := { p with logger_state := { p.logger_state with
    config := { p.logger_state.config with level := level } } }
  unlock_logger p

/-- The function `logger_set_quiet`. -/
def logger_set_quiet (quiet : Bool) (p : Process) : Process :=
  let p := lock_logger p
  let p := { p with logger_state := { p.logger_state with
    config := { p.logger_state.config with quiet := quiet } } }
  unlock_logger p

/-- The function `logger_set_colors`. -/
def logger_set_colors (use_colors : Bool) (p : Process) : Process :=
  let p := lock_logger p
  let p := { p with logger_state := { p.logger_state with
    config := { p.logger_state.config with use_colors := use_colors } } }
  unlock_logger p

/-- The function `logger_set_show_file_line`. -/
def logger_set_show_file_line (show_it : Bool) (p : Process) : Process :=
  let p := lock_logger p
  let p := { p with logger_state := { p.logger_state with
    config := { p.logger_state.config with show_file_line := show_it } } }
  unlock_logger p

/-- The function `logger_set_show_function`. -/
def logger_set_show_function (show_it : Bool) (p : Process) : Process :=
  let p := lock_logger p
  let p := { p with logger_state := { p.logger_state with
    config := { p.logger_state.config with show_function := show_it } } }
  unlock_logger p

/-- The function `logger_set_lock`. -/
def logger_set_lock (lock_fn : log_lock_fn_t) (user_data : Ptr) (p : Process) : Process :=
  let p := lock_logger p
  let p := { p with logger_state := { p.logger_state with
    config := { p.logger_state.config with lock_fn := lock_fn, lock_data := user_data } } }
  unlock_logger p

/-! ## Main logging (lines 365-426) -/

/-- The function `init_event` (lines 365-371): reads the clock only while `event->time`
is NULL, then injects the handler's `user_data`. -/
def init_event (event : log_event_t) (user_data : Ptr) (p : Process) : log_event_t × Process :=
  if event.time = none then
    let t := p.clock p.ticks
    ({ event with time := some t, user_data := user_data },
     { p with trace := p.trace ++ [Effect.time_read], ticks := p.ticks + 1 })
  else ({ event with user_data := user_data }, p)

/-- Whether the call `output_fn(&event)` returns.  A call through a NULL pointer does not.
The built-in procedures (lines 444-522) write to the stream `event->user_data`, hand
`event->time` to `strftime` and read `level_strings[event->level]` (the console one also
`level_colors[event->level]`) without a range check: they return when the stream and the
time are not NULL and the level is below 6.  A caller's procedure is assumed to return. -/
def call_returns (output_fn : log_output_fn_t) (event : log_event_t) : Bool :=
  match output_fn with
  | .null => false
  | .custom _ => true
  | .logger_console_output =>
    decide (event.user_data ≠ .null) && event.time.isSome && decide (event.level < 6)
  | .logger_file_output =>
    decide (event.user_data ≠ .null) && event.time.isSome && decide (event.level < 6)

/-- The variables of the dispatch loop of `logger_log`: the local `event`, the process,
and whether a call made by the loop did not return. -/
structure Dispatch where
  event : log_event_t
  proc : Process
  stopped : Bool

/-- One iteration of the dispatch loop of `logger_log` (lines 415-422); nothing is done
once a call has not returned. -/
def log_step (level : log_level_t) (args : List va_arg) (d : Dispatch)
    (i : Fin MAX_OUTPUTS) : Dispatch :=
  if d.stopped then d
  else
    let h := d.proc.logger_state.outputs i
    if h.active && decide (level ≥ h.min_level) then
      let r := init_event d.event h.user_data d.proc
      let event := { r.1 with ap := args }
      let p := r.2
      { event := event,
        proc := { p with trace := p.trace ++ [Effect.output_call i h.output_fn event] },
        stopped := !call_returns h.output_fn event }
    else d

/-- The function `logger_log` (lines 390-426); `args` are the variadic arguments.  When a
call of the loop does not return, neither does `logger_log`: `unlock_logger` is not
reached and the process is dead. -/
def logger_log (level : log_level_t) (file function : Option String) (line : Int)
    (fmt : Option String) (args : List va_arg) (p : Process) : Process :=
  let p := if !p.logger_state.initialized then logger_init p else p
  let event : log_event_t :=
    { ap := [], fmt := fmt, file := file, function := function, line := line, level := level,
      time := none, user_data := .null }
  let p := lock_logger p
  if level < p.logger_state.config.level then unlock_logger p
  else
    let d := (List.finRange MAX_OUTPUTS).foldl (log_step level args)
      { event := event, proc := p, stopped := false }
    if d.stopped then { d.proc with aborted := true } else unlock_logger d.proc

/-! ## Observations on traces -/

/-- The effects performed between two points of one execution. -/
def new_effects (before after : Process) : List Effect :=
  after.trace.drop before.trace.length

/-- The lock adapter calls made between two points of one execution, each with its
argument and the `logger_state` in memory at the moment of the call. -/
def new_views (before after : Process) : List (Bool × logger_state_t) :=
  after.views.drop before.views.length

/-- The slots whose output procedure was called, in call order. -/
def invoked_slots : List Effect → List (Fin MAX_OUTPUTS)
  | [] => []
  | Effect.output_call i _ _ :: es => i :: invoked_slots es
  | _ :: es => invoked_slots es

/-- Number of clock reads in a list of effects. -/
def time_reads : List Effect → Nat
  | [] => 0
  | Effect.time_read :: es => time_reads es + 1
  | _ :: es => time_reads es

/-- Number of active slots of the output table. -/
def active_count (s : logger_state_t) : Nat :=
  ((List.finRange MAX_OUTPUTS).filter (fun i => (s.outputs i).active)).length

/-- The effects of `lock_logger` / `unlock_logger` in configuration `c`. -/
def lock_effects (c : log_config_t) (lock : Bool) : List Effect :=
  if c.lock_fn ≠ .null then [Effect.lock_call c.lock_fn lock c.lock_data] else []

/-- The per-sink filter of `logger_log` (line 415-416) as a predicate on slots. -/
def passes (s : logger_state_t) (level : log_level_t) (i : Fin MAX_OUTPUTS) : Bool :=
  (s.outputs i).active && decide (level ≥ (s.outputs i).min_level)

/-- The table has exactly its first `k` slots active. -/
def prefix_active (s : logger_state_t) (k : Nat) : Prop :=
  ∀ i : Fin MAX_OUTPUTS, (s.outputs i).active = true ↔ i.val < k

/-! ## Sequences of public calls -/

/-- A call of one of the three registration functions, with its arguments. -/
inductive Registration where
  | console (level : log_level_t)
  | file (file : Ptr) (level : log_level_t)
  | custom (output_fn : log_output_fn_t) (user_data : Ptr) (level : log_level_t)
  deriving DecidableEq, Repr

/-- Run a registration call. -/
def register : Registration → Process → Int × Process
  | .console level, p => logger_add_console_output level p
  | .file file level, p => logger_add_file_output file level p
  | .custom output_fn user_data level, p => logger_add_custom_output output_fn user_data level p

/-- The registration call passes a non-null procedure to `logger_add_custom_output`:
the custom procedure, resp. the file handle, is not NULL. -/
def Registration.nonnull : Registration → Bool
  | .console _ => true
  | .file f _ => decide (f ≠ .null)
  | .custom g _ _ => decide (g ≠ .null)

/-- Run registration calls one after the other, collecting the return values. -/
def register_all : List Registration → Process → List Int × Process
  | [], p => ([], p)
  | r :: rs, p => ((register r p).1 :: (register_all rs (register r p).2).1,
                   (register_all rs (register r p).2).2)

/-- A call of a public function of `loggin.h` that acts on the logger. -/
inductive Op where
  | init
  | cleanup
  | set_level (level : log_level_t)
  | set_quiet (quiet : Bool)
  | set_colors (use_colors : Bool)
  | set_show_file_line (show_it : Bool)
  | set_show_function (show_it : Bool)
  | set_lock (lock_fn : log_lock_fn_t) (user_data : Ptr)
  | add (r : Registration)
  | log (level : log_level_t) (file function : Option String) (line : Int)
      (fmt : Option String) (args : List va_arg)

/-- The public function a call names, applied to a process (return values of
registrations are dropped). -/
def Op.call : Op → Process → Process
  | .init, p => logger_init p
  | .cleanup, p => logger_cleanup p
  | .set_level level, p => logger_set_level level p
  | .set_quiet quiet, p => logger_set_quiet quiet p
  | .set_colors use_colors, p => logger_set_colors use_colors p
  | .set_show_file_line show_it, p => logger_set_show_file_line show_it p
  | .set_show_function show_it, p => logger_set_show_function show_it p
  | .set_lock lock_fn user_data, p => logger_set_lock lock_fn user_data p
  | .add r, p => (register r p).2
  | .log level file function line fmt args, p => logger_log level file function line fmt args p

/-- Run one public call: a process that has died runs nothing further. -/
def Op.apply (op : Op) (p : Process) : Process :=
  if p.aborted then p else op.call p

/-- Run public calls one after the other. -/
def run (ops : List Op) (p : Process) : Process :=
  ops.foldl (fun q op => op.apply q) p

/-! ## Registration history

Which call registered the sink now held by a slot is not stored by the C code.  To speak
about registration order, an execution is run alongside a call counter `now` and a table
`born` that remembers, for every active slot, the number of the public call during which
the slot's current contents were written.  The table is maintained from the states
before and after each call: a slot is (re)written by a call exactly when it is active
afterwards and either was inactive before (a successful registration fills an inactive
slot) or the call ran the body of `logger_init` (`initialized` went from false to true:
the table was zeroed and the default console sink registered). -/

/-- An execution together with its registration history. -/
structure Stamped where
  proc : Process
  born : Fin MAX_OUTPUTS → Option Nat
  now : Nat

/-- The history after a call that took the logger from `before` to `after`. -/
def restamp (before after : logger_state_t) (now : Nat) (born : Fin MAX_OUTPUTS → Option Nat) :
    Fin MAX_OUTPUTS → Option Nat :=
  fun i =>
    if (after.outputs i).active then
      if (!before.initialized && after.initialized) || !(before.outputs i).active then some now
      else born i
    else none

/-- Run one public call, keeping the history. -/
def Stamped.step (g : Stamped) (op : Op) : Stamped :=
  { proc := op.apply g.proc,
    born := restamp g.proc.logger_state (op.apply g.proc).logger_state g.now g.born,
    now := g.now + 1 }

/-- Run public calls one after the other, keeping the history. -/
def Stamped.run (ops : List Op) (g : Stamped) : Stamped :=
  ops.foldl Stamped.step g

/-- A process that has not yet called the library, with an empty history. -/
def Stamped.fresh (clock : Nat → tm) : Stamped :=
  { proc := Loggin.fresh clock, born := fun _ => none, now := 0 }

/-- The configuration installed by `logger_init` (lines 90-96). -/
def default_config : log_config_t :=
  { level := LOG_LEVEL_INFO, quiet := false, use_colors := true, show_file_line := true,
    show_function := false, lock_fn := .null, lock_data := .null }

/-- The handler of the default console sink: `logger_console_output` on `stderr` at TRACE. -/
def default_console : output_handler_t :=
  { output_fn := .logger_console_output, user_data := .stderr, min_level := LOG_LEVEL_TRACE,
    active := true }

/-- The state `logger_init` builds on an uninitialised logger. -/
def default_state : logger_state_t :=
  { config := default_config,
    outputs := Function.update (fun _ => zero_handler) 0 default_console,
    initialized := true }

/-- The call is `logger_cleanup`. -/
def Op.is_cleanup : Op → Bool
  | .cleanup => true
  | _ => false

/-- The history is consistent with the table: the active slots are the first `k`, each
carries the number of an earlier call, inactive slots carry none, and the numbers
increase strictly with the slot index. -/
def Stamped.ordered (g : Stamped) : Prop :=
  ∃ k, k ≤ MAX_OUTPUTS ∧ prefix_active g.proc.logger_state k ∧
    (∀ i : Fin MAX_OUTPUTS, i.val < k → ∃ a, g.born i = some a ∧ a < g.now) ∧
    (∀ i : Fin MAX_OUTPUTS, k ≤ i.val → g.born i = none) ∧
    (∀ i j : Fin MAX_OUTPUTS, i < j → ∀ a b, g.born i = some a → g.born j = some b → a < b)

/-! ## Level names and conversions (lines 34-36, 331-358) -/

/-- The table `level_strings[]` (lines 34-36). -/
def level_strings : Fin 6 → String
  | 0 => "TRACE"
  | 1 => "DEBUG"
  | 2 => "INFO"
  | 3 => "WARN"
  | 4 => "ERROR"
  | 5 => "FATAL"

/-- The libc function `tolower` in the C locale: `A..Z` (65..90) go to `a..z`. -/
def tolower (c : Char) : Char :=
  if 65 ≤ c.toNat ∧ c.toNat ≤ 90 then Char.ofNat (c.toNat + 32) else c

/-- The libc function `toupper` in the C locale: `a..z` (97..122) go to `A..Z`. -/
def toupper (c : Char) : Char :=
  if 97 ≤ c.toNat ∧ c.toNat ≤ 122 then Char.ofNat (c.toNat - 32) else c

/-- The libc function `strcasecmp` on the characters before the terminating NUL: the
strings are compared character by character after `tolower`; POSIX fixes only the sign
of the result, rendered as -1, 0, 1. -/
def strcasecmp_chars : List Char → List Char → Int
  | [], [] => 0
  | [], _ :: _ => -1
  | _ :: _, [] => 1
  | c :: cs, d :: ds =>
    if tolower c = tolower d then strcasecmp_chars cs ds
    else if (tolower c).toNat < (tolower d).toNat then -1 else 1

/-- The libc function `strcasecmp` on strings. -/
def strcasecmp (a b : String) : Int := strcasecmp_chars a.toList b.toList

/-- The function `logger_level_to_string` (lines 331-336). -/
def logger_level_to_string (level : log_level_t) : String :=
  if h : level ≥ 0 ∧ level < 6 then level_strings ⟨level, h.2⟩ else "UNKNOWN"

/-- The function `logger_string_to_level` (lines 349-358); `none` is a NULL `str`. -/
def logger_string_to_level (str : Option String) : log_level_t :=
  match str with
  | none => LOG_LEVEL_INFO
  | some s =>
    match (List.finRange 6).find? (fun i => strcasecmp s (level_strings i) == 0) with
    | some i => i.val
    | none => LOG_LEVEL_INFO

/-- Changing the case of one letter; other characters are left alone. -/
def swap_case (c : Char) : Char :=
  if 65 ≤ c.toNat ∧ c.toNat ≤ 90 then tolower c else toupper c

/-- The string obtained by changing the case of the letters selected by `mask`
(position by position; positions beyond the mask are kept). -/
def change_case : List Bool → List Char → List Char
  | _, [] => []
  | [], c :: cs => c :: cs
  | true :: m, c :: cs => swap_case c :: change_case m cs
  | false :: m, c :: cs => c :: change_case m cs

/-- Two strings are equal up to the case of their letters. -/
def caseless_eq (a b : String) : Prop :=
  a.toList.map tolower = b.toList.map tolower

/-! ## Further observations on traces -/

/-- The handles passed to `fclose`, in call order. -/
def closed_files : List Effect → List Ptr
  | [] => []
  | Effect.fclose f :: es => f :: closed_files es
  | _ :: es => closed_files es

/-- The `event->time` each called output procedure is given, in call order. -/
def call_times : List Effect → List (Option tm)
  | [] => []
  | Effect.output_call _ _ e :: es => e.time :: call_times es
  | _ :: es => call_times es

/-- The call is a configuration setter or a registration. -/
def Op.is_setter_or_registration : Op → Bool
  | .set_level _ => true
  | .set_quiet _ => true
  | .set_colors _ => true
  | .set_show_file_line _ => true
  | .set_show_function _ => true
  | .set_lock _ _ => true
  | .add _ => true
  | _ => false

/-- The output procedures called, in call order. -/
def invoked_fns : List Effect → List log_output_fn_t
  | [] => []
  | Effect.output_call _ f _ :: es => f :: invoked_fns es
  | _ :: es => invoked_fns es

/-! ## Built-in outputs (lines 38-49, 444-522)

The two built-in output procedures format one line and write it to the stream held in
`event->user_data`.  They are rendered as functions giving the text written, `none` when
the C code has no defined behaviour: a NULL stream, a NULL `event->time` handed to
`strftime`, or a read of `level_strings` / `level_colors` outside the six entries.  The
libc functions `strftime` and `vfprintf` are parameters; the conversions of the
`fprintf` calls themselves (`%s`, `%-5s`, `%d`) are rendered here. -/

/-- The table `level_colors[]` (lines 39-46). -/
def level_colors : Fin 6 → String
  | 0 => "\x1b[94m"
  | 1 => "\x1b[36m"
  | 2 => "\x1b[32m"
  | 3 => "\x1b[33m"
  | 4 => "\x1b[31m"
  | 5 => "\x1b[35m"

/-- The string `color_reset` (line 49). -/
def color_reset : String := "\x1b[0m"

/-- The escape character that starts every ANSI escape sequence. -/
def ESC : Char := Char.ofNat 27

/-- The read `table[level]` of a six-entry table as the built-in outputs do it, without
a range check: defined for `0 <= level < 6` only. -/
def table_at (table : Fin 6 → String) (level : log_level_t) : Option String :=
  if h : level < 6 then some (table ⟨level, h⟩) else none

/-- The libc functions the built-in outputs call: `strftime format tm` gives the text
put in `time_buf`, `vformat fmt ap` the text `vfprintf` writes for `fmt` and `ap`. -/
structure Libc where
  strftime : String → tm → String
  vformat : Option String → List va_arg → String

/-- The conversion `%s`; a NULL argument is printed as glibc does. -/
def cstr : Option String → String
  | some s => s
  | none => "(null)"

/-- The decimal digit `d % 10` as a character. -/
def digit_char (d : Nat) : Char := Char.ofNat (48 + d % 10)

/-- Decimal digits of `n`, most significant first, in front of `acc`. -/
def nat_dec_aux : Nat → Nat → List Char → List Char
  | 0, _, acc => acc
  | fuel + 1, n, acc =>
    if n < 10 then digit_char n :: acc
    else nat_dec_aux fuel (n / 10) (digit_char n :: acc)

/-- Decimal digits of `n`. -/
def nat_dec (n : Nat) : List Char := nat_dec_aux (n + 1) n []

/-- The conversion `%d`. -/
def fmt_d (i : Int) : String :=
  String.mk (if i < 0 then '-' :: nat_dec i.natAbs else nat_dec i.toNat)

/-- The conversion `%-5s`: left-justified in a field of five characters. -/
def pad5 (s : String) : String := s ++ String.mk (List.replicate (5 - s.length) ' ')

/-- The function `logger_console_output` (lines 444-486): the text written to
`event->user_data`. -/
def logger_console_output (libc : Libc) (config : log_config_t) (event : log_event_t) :
    Option String :=
  if event.user_data = .null then none
  else
    match event.time with
    | none => none
    | some t =>
      let time_buf := libc.strftime "%H:%M:%S" t
      let head : Option String :=
        if config.use_colors then
          match table_at level_colors event.level, table_at level_strings event.level with
          | some color, some name =>
            some (time_buf ++ " " ++ color ++ pad5 name ++ color_reset ++ " ")
          | _, _ => none
        else
          match table_at level_strings event.level with
          | some name => some (time_buf ++ " " ++ pad5 name ++ " ")
          | none => none
      let file_line : String :=
        if config.show_file_line then
          if config.use_colors then
            color_reset ++ cstr event.file ++ ":" ++ fmt_d event.line ++ ":" ++ color_reset ++ " "
          else cstr event.file ++ ":" ++ fmt_d event.line ++ ": "
        else ""
      let func : String :=
        if config.show_function then
          if config.use_colors then color_reset ++ "[" ++ cstr event.function ++ "]" ++
            color_reset ++ " "
          else "[" ++ cstr event.function ++ "] "
        else ""
      match head with
      | some h => some (h ++ file_line ++ func ++ libc.vformat event.fmt event.ap ++ "\n")
      | none => none

/-- The function `logger_file_output` (lines 500-522): the text written to
`event->user_data`. -/
def logger_file_output (libc : Libc) (config : log_config_t) (event : log_event_t) :
    Option String :=
  if event.user_data = .null then none
  else
    match event.time with
    | none => none
    | some t =>
      let time_buf := libc.strftime "%Y-%m-%d %H:%M:%S" t
      match table_at level_strings event.level with
      | none => none
      | some name =>
        let head := time_buf ++ " " ++ pad5 name ++ " " ++ cstr event.file ++ ":" ++
          fmt_d event.line
        let func : String :=
          if config.show_function then " [" ++ cstr event.function ++ "]" else ""
        some (head ++ func ++ ": " ++ libc.vformat event.fmt event.ap ++ "\n")

/-- The calls of output procedures with all their data, in call order. -/
def calls : List Effect → List (Fin MAX_OUTPUTS × log_output_fn_t × log_event_t)
  | [] => []
  | Effect.output_call i f e :: es => (i, f, e) :: calls es
  | _ :: es => calls es

/-- What the built-in output procedures called in a list of effects write under
configuration `config`: the stream and the text of each call, in call order. -/
def builtin_writes (libc : Libc) (config : log_config_t) :
    List (Fin MAX_OUTPUTS × log_output_fn_t × log_event_t) → List (Ptr × Option String)
  | [] => []
  | (_, .logger_console_output, e) :: cs =>
    (e.user_data, logger_console_output libc config e) :: builtin_writes libc config cs
  | (_, .logger_file_output, e) :: cs =>
    (e.user_data, logger_file_output libc config e) :: builtin_writes libc config cs
  | _ :: cs => builtin_writes libc config cs

/-- Two decimal digits, as `strftime` prints hours, minutes, seconds, months and days. -/
def pad2 (i : Int) : String := if i < 10 then "0" ++ fmt_d i else fmt_d i

/-- A libc for concrete evaluations: `strftime` for the two formats the library uses,
and `vformat` for format strings without conversions. -/
def sample_libc : Libc :=
  { strftime := fun format t =>
      let clock := pad2 t.tm_hour ++ ":" ++ pad2 t.tm_min ++ ":" ++ pad2 t.tm_sec
      if format = "%H:%M:%S" then clock
      else fmt_d (t.tm_year + 1900) ++ "-" ++ pad2 (t.tm_mon + 1) ++ "-" ++ pad2 t.tm_mday ++
        " " ++ clock
    vformat := fun fmt _ => cstr fmt }

/-- Noon of 2024-01-01. -/
def sample_tm : tm :=
  { tm_year := 124, tm_mon := 0, tm_mday := 1, tm_hour := 12, tm_min := 0, tm_sec := 0 }

/-- An event with every field set, on stream `stderr`. -/
def sample_event (level : log_level_t) : log_event_t :=
  { ap := [], fmt := some "hello", file := some "main.c", function := some "main",
    time := some sample_tm, user_data := .stderr, line := 10, level := level }

/-! ## The dispatch of one `logger_log` call, in closed form

The loop of `logger_log` calls the passing slots in table order up to and including the
first whose call does not return.  These definitions spell that out; `log_fold_eq` and
`logger_log_of_initialized` below prove that the loop computes them. -/

/-- The elements of a list up to and including the first that fails `ok`. -/
def upto_stop {α : Type} (ok : α → Bool) : List α → List α
  | [] => []
  | x :: xs => if ok x then x :: upto_stop ok xs else [x]

/-- The event handed to slot `i` by a loop whose local event is `ev` and whose next clock
read yields `t`: the time is read once, the slot's context and the arguments are put in. -/
def sent_event (s : logger_state_t) (ev : log_event_t) (t : tm) (args : List va_arg)
    (i : Fin MAX_OUTPUTS) : log_event_t :=
  { ev with time := (if ev.time = none then some t else ev.time),
            user_data := (s.outputs i).user_data, ap := args }

/-- The call of slot `i` returns. -/
def slot_returns (s : logger_state_t) (ev : log_event_t) (t : tm) (args : List va_arg)
    (i : Fin MAX_OUTPUTS) : Bool :=
  call_returns (s.outputs i).output_fn (sent_event s ev t args i)

/-- The slots of `l` the loop calls. -/
def dispatched (s : logger_state_t) (level : log_level_t) (ev : log_event_t) (t : tm)
    (args : List va_arg) (l : List (Fin MAX_OUTPUTS)) : List (Fin MAX_OUTPUTS) :=
  upto_stop (slot_returns s ev t args) (l.filter (passes s level))

/-- The effects of the loop over `l`: a clock read if some slot passes and the event has
no time yet, then the calls. -/
def dispatch_effects (s : logger_state_t) (level : log_level_t) (ev : log_event_t) (t : tm)
    (args : List va_arg) (l : List (Fin MAX_OUTPUTS)) : List Effect :=
  (if ev.time = none ∧ l.filter (passes s level) ≠ [] then [Effect.time_read] else []) ++
    (dispatched s level ev t args l).map
      (fun i => Effect.output_call i (s.outputs i).output_fn (sent_event s ev t args i))

/-- The event `logger_log` builds at lines 395-403. -/
def call_event (level : log_level_t) (file function : Option String) (line : Int)
    (fmt : Option String) : log_event_t :=
  { ap := [], fmt := fmt, file := file, function := function, line := line, level := level,
    time := none, user_data := .null }

/-- Every call of the loop of `logger_log` over the whole table returns. -/
def all_return (s : logger_state_t) (level : log_level_t) (ev : log_event_t) (t : tm)
    (args : List va_arg) : Bool :=
  ((List.finRange MAX_OUTPUTS).filter (passes s level)).all (slot_returns s ev t args)

/-- The effects of `logger_log` on an initialised logger in state `s` whose next clock
read yields `t`. -/
def log_effects (s : logger_state_t) (t : tm) (level : log_level_t)
    (file function : Option String) (line : Int) (fmt : Option String)
    (args : List va_arg) : List Effect :=
  lock_effects s.config true ++
    (if level < s.config.level then lock_effects s.config false
     else
       dispatch_effects s level (call_event level file function line fmt) t args
           (List.finRange MAX_OUTPUTS) ++
         (if all_return s level (call_event level file function line fmt) t args
          then lock_effects s.config false else []))

/-! # Theorems -/

/-! ## Basic facts about the lock hooks and the trace observations -/

theorem lock_logger_state (p : Process) : (lock_logger p).logger_state = p.logger_state := by
  unfold lock_logger; split <;> rfl

theorem unlock_logger_state (p : Process) : (unlock_logger p).logger_state = p.logger_state := by
  unfold unlock_logger; split <;> rfl

theorem lock_logger_ticks (p : Process) : (lock_logger p).ticks = p.ticks := by
  unfold lock_logger; split <;> rfl

theorem unlock_logger_ticks (p : Process) : (unlock_logger p).ticks = p.ticks := by
  unfold unlock_logger; split <;> rfl

theorem lock_logger_clock (p : Process) : (lock_logger p).clock = p.clock := by
  unfold lock_logger; split <;> rfl

theorem unlock_logger_clock (p : Process) : (unlock_logger p).clock = p.clock := by
  unfold unlock_logger; split <;> rfl

theorem lock_logger_aborted (p : Process) : (lock_logger p).aborted = p.aborted := by
  unfold lock_logger; split <;> rfl

theorem unlock_logger_aborted (p : Process) : (unlock_logger p).aborted = p.aborted := by
  unfold unlock_logger; split <;> rfl

theorem lock_logger_trace (p : Process) :
    (lock_logger p).trace = p.trace ++ lock_effects p.logger_state.config true := by
  unfold lock_logger lock_effects; split <;> simp

theorem unlock_logger_trace (p : Process) :
    (unlock_logger p).trace = p.trace ++ lock_effects p.logger_state.config false := by
  unfold unlock_logger lock_effects; split <;> simp

theorem lock_logger_views (p : Process) :
    (lock_logger p).views = p.views ++
      (if p.logger_state.config.lock_fn ≠ .null then [(true, p.logger_state)] else []) := by
  unfold lock_logger; split <;> simp

theorem unlock_logger_views (p : Process) :
    (unlock_logger p).views = p.views ++
      (if p.logger_state.config.lock_fn ≠ .null then [(false, p.logger_state)] else []) := by
  unfold unlock_logger; split <;> simp

theorem invoked_slots_append (a b : List Effect) :
    invoked_slots (a ++ b) = invoked_slots a ++ invoked_slots b := by
  induction a with
  | nil => rfl
  | cons e es ih => cases e <;> simp [invoked_slots, ih]

theorem time_reads_append (a b : List Effect) :
    time_reads (a ++ b) = time_reads a + time_reads b := by
  induction a with
  | nil => simp [time_reads]
  | cons e es ih => (cases e <;> simp [time_reads, ih]); omega

theorem invoked_slots_lock_effects (c : log_config_t) (b : Bool) :
    invoked_slots (lock_effects c b) = [] := by
  unfold lock_effects; split <;> rfl

theorem time_reads_lock_effects (c : log_config_t) (b : Bool) :
    time_reads (lock_effects c b) = 0 := by
  unfold lock_effects; split <;> rfl

theorem new_effects_of_append (p q : Process) (E : List Effect) (h : q.trace = p.trace ++ E) :
    new_effects p q = E := by
  simp [new_effects, h]

theorem new_views_of_append (p q : Process) (V : List (Bool × logger_state_t))
    (h : q.views = p.views ++ V) : new_views p q = V := by
  simp [new_views, h]

theorem count_filter_finRange (P : Fin MAX_OUTPUTS → Bool) (i : Fin MAX_OUTPUTS) :
    ((List.finRange MAX_OUTPUTS).filter P).count i = if P i = true then 1 else 0 := by
  by_cases h : P i = true
  · have hmem : i ∈ (List.finRange MAX_OUTPUTS).filter P :=
      List.mem_filter.2 ⟨List.mem_finRange i, h⟩
    have hnd : ((List.finRange MAX_OUTPUTS).filter P).Nodup :=
      (List.nodup_finRange MAX_OUTPUTS).filter _
    simp [h, List.count_eq_one_of_mem hnd hmem]
  · have hmem : i ∉ (List.finRange MAX_OUTPUTS).filter P := fun hm => h (List.mem_filter.1 hm).2
    simp [h, List.count_eq_zero_of_not_mem hmem]

/-! ## The dispatch loop of `logger_log` -/

theorem upto_stop_sublist {α : Type} (ok : α → Bool) (l : List α) :
    (upto_stop ok l).Sublist l := by
  induction l with
  | nil => exact List.Sublist.slnil
  | cons x xs ih =>
    unfold upto_stop
    split
    · exact ih.cons₂ x
    · exact (List.nil_sublist xs).cons₂ x

theorem upto_stop_of_all {α : Type} (ok : α → Bool) (l : List α) (h : l.all ok = true) :
    upto_stop ok l = l := by
  induction l with
  | nil => rfl
  | cons x xs ih =>
    simp only [List.all_cons, Bool.and_eq_true] at h
    simp [upto_stop, h.1, ih h.2]

theorem upto_stop_eq_nil {α : Type} (ok : α → Bool) (l : List α) :
    upto_stop ok l = [] ↔ l = [] := by
  cases l with
  | nil => simp [upto_stop]
  | cons x xs => unfold upto_stop; split <;> simp

theorem upto_stop_head {α : Type} (ok : α → Bool) (x : α) (xs : List α) :
    ∃ ys, upto_stop ok (x :: xs) = x :: ys := by
  unfold upto_stop; split
  · exact ⟨_, rfl⟩
  · exact ⟨[], rfl⟩

/-- The event of one iteration, as `init_event` and `va_start` leave it. -/
theorem step_event_eq (s : logger_state_t) (ev : log_event_t) (p : Process)
    (args : List va_arg) (i : Fin MAX_OUTPUTS) :
    ({ (init_event ev (s.outputs i).user_data p).1 with ap := args } : log_event_t) =
      sent_event s ev (p.clock p.ticks) args i := by
  unfold init_event sent_event
  by_cases ht : ev.time = none <;> simp [ht]

theorem sent_event_time (s : logger_state_t) (ev : log_event_t) (t : tm)
    (args : List va_arg) (i : Fin MAX_OUTPUTS) : (sent_event s ev t args i).time ≠ none := by
  unfold sent_event
  by_cases ht : ev.time = none <;> simp [ht]

/-- Once the time is set, a later iteration sends what the first would have sent. -/
theorem sent_event_sent_event (s : logger_state_t) (ev : log_event_t) (t t2 : tm)
    (args : List va_arg) (i j : Fin MAX_OUTPUTS) :
    sent_event s (sent_event s ev t args i) t2 args j = sent_event s ev t args j := by
  unfold sent_event
  by_cases ht : ev.time = none <;> simp [ht]

theorem slot_returns_sent_event (s : logger_state_t) (ev : log_event_t) (t t2 : tm)
    (args : List va_arg) (i : Fin MAX_OUTPUTS) :
    slot_returns s (sent_event s ev t args i) t2 args = slot_returns s ev t args := by
  funext j
  unfold slot_returns
  rw [sent_event_sent_event]

theorem dispatch_effects_sent_event (s : logger_state_t) (level : log_level_t)
    (ev : log_event_t) (t t2 : tm) (args : List va_arg) (i : Fin MAX_OUTPUTS)
    (l : List (Fin MAX_OUTPUTS)) :
    dispatch_effects s level (sent_event s ev t args i) t2 args l =
      (dispatched s level ev t args l).map
        (fun j => Effect.output_call j (s.outputs j).output_fn (sent_event s ev t args j)) := by
  unfold dispatch_effects dispatched
  rw [slot_returns_sent_event]
  simp [sent_event_time, sent_event_sent_event]

/-- The loop does nothing once a call has not returned. -/
theorem log_fold_stopped (level : log_level_t) (args : List va_arg)
    (l : List (Fin MAX_OUTPUTS)) (d : Dispatch) (h : d.stopped = true) :
    l.foldl (log_step level args) d = d := by
  induction l with
  | nil => rfl
  | cons i l ih =>
    rw [List.foldl_cons]
    have hd : log_step level args d i = d := by simp [log_step, h]
    rw [hd]; exact ih

/-- One iteration on a slot that fails the per-sink filter. -/
theorem log_step_skip (level : log_level_t) (args : List va_arg) (d : Dispatch)
    (i : Fin MAX_OUTPUTS) (hp : passes d.proc.logger_state level i = false) :
    log_step level args d i = d := by
  unfold passes at hp
  unfold log_step
  split
  · rfl
  · simp [hp]

/-- One iteration on a slot that passes the per-sink filter. -/
theorem log_step_pass (level : log_level_t) (args : List va_arg) (d : Dispatch)
    (i : Fin MAX_OUTPUTS) (hs : d.stopped = false)
    (hp : passes d.proc.logger_state level i = true) :
    log_step level args d i =
      { event := sent_event d.proc.logger_state d.event (d.proc.clock d.proc.ticks) args i,
        proc := { d.proc with
          trace := d.proc.trace ++
            ((if d.event.time = none then [Effect.time_read] else []) ++
              [Effect.output_call i (d.proc.logger_state.outputs i).output_fn
                (sent_event d.proc.logger_state d.event (d.proc.clock d.proc.ticks) args i)]),
          ticks := d.proc.ticks + (if d.event.time = none then 1 else 0) },
        stopped := !slot_returns d.proc.logger_state d.event (d.proc.clock d.proc.ticks)
          args i } := by
  unfold passes at hp
  have he := step_event_eq d.proc.logger_state d.event d.proc args i
  unfold log_step slot_returns
  rw [if_neg (by simp [hs]), if_pos hp]
  simp only [he]
  by_cases ht : d.event.time = none <;> simp [init_event, ht]

/-- The dispatch loop over any list of slots, started before any call has failed to
return: it performs `dispatch_effects` and nothing else, and it ends stopped exactly
when the call of some passing slot does not return. -/
theorem log_fold_eq (level : log_level_t) (args : List va_arg) (l : List (Fin MAX_OUTPUTS)) :
    ∀ d : Dispatch, d.stopped = false →
      (l.foldl (log_step level args) d).proc =
        { d.proc with
          trace := d.proc.trace ++
            dispatch_effects d.proc.logger_state level d.event (d.proc.clock d.proc.ticks) args l,
          ticks := d.proc.ticks +
            (if d.event.time = none ∧ l.filter (passes d.proc.logger_state level) ≠ []
             then 1 else 0) } ∧
      (l.foldl (log_step level args) d).stopped =
        !(l.filter (passes d.proc.logger_state level)).all
          (slot_returns d.proc.logger_state d.event (d.proc.clock d.proc.ticks) args) := by
  induction l with
  | nil =>
    intro d hs
    simp [dispatch_effects, dispatched, upto_stop, hs]
  | cons i l ih =>
    intro d hs
    rw [List.foldl_cons]
    by_cases hp : passes d.proc.logger_state level i = true
    · have hstep := log_step_pass level args d i hs hp
      by_cases hr : slot_returns d.proc.logger_state d.event (d.proc.clock d.proc.ticks)
          args i = true
      · have h := ih (log_step level args d i) (by rw [hstep]; simp [hr])
        rw [hstep] at h ⊢
        simp only [dispatch_effects_sent_event, slot_returns_sent_event, sent_event_time,
          false_and, if_false, Nat.add_zero] at h
        refine ⟨?_, ?_⟩
        · rw [h.1]
          simp [dispatch_effects, dispatched, upto_stop, List.filter_cons, hp, hr]
        · rw [h.2]
          simp [List.filter_cons, hp, hr]
      · rw [log_fold_stopped _ _ _ _ (by rw [hstep]; simp [hr]), hstep]
        simp [dispatch_effects, dispatched, upto_stop, List.filter_cons, hp, hr]
    · have hp2 : passes d.proc.logger_state level i = false := by simpa using hp
      rw [log_step_skip level args d i hp2]
      have h := ih d hs
      refine ⟨?_, ?_⟩
      · rw [h.1]
        simp [dispatch_effects, dispatched, List.filter_cons, hp2]
      · rw [h.2]
        simp [List.filter_cons, hp2]

theorem invoked_slots_dispatch_effects (s : logger_state_t) (level : log_level_t)
    (ev : log_event_t) (t : tm) (args : List va_arg) (l : List (Fin MAX_OUTPUTS)) :
    invoked_slots (dispatch_effects s level ev t args l) = dispatched s level ev t args l := by
  have hmap : ∀ m : List (Fin MAX_OUTPUTS), invoked_slots (m.map
      (fun i => Effect.output_call i (s.outputs i).output_fn (sent_event s ev t args i))) = m := by
    intro m
    induction m with
    | nil => rfl
    | cons x xs ih => simp [invoked_slots, ih]
  unfold dispatch_effects
  rw [invoked_slots_append, hmap]
  split <;> simp [invoked_slots]

theorem time_reads_dispatch_effects (s : logger_state_t) (level : log_level_t)
    (ev : log_event_t) (t : tm) (args : List va_arg) (l : List (Fin MAX_OUTPUTS)) :
    time_reads (dispatch_effects s level ev t args l) =
      if ev.time = none ∧ l.filter (passes s level) ≠ [] then 1 else 0 := by
  have hmap : ∀ m : List (Fin MAX_OUTPUTS), time_reads (m.map
      (fun i => Effect.output_call i (s.outputs i).output_fn (sent_event s ev t args i))) = 0 := by
    intro m
    induction m with
    | nil => rfl
    | cons x xs ih => simp [time_reads, ih]
  unfold dispatch_effects
  rw [time_reads_append, hmap]
  split <;> simp [time_reads]

theorem dispatched_sublist (s : logger_state_t) (level : log_level_t) (ev : log_event_t)
    (t : tm) (args : List va_arg) (l : List (Fin MAX_OUTPUTS)) :
    (dispatched s level ev t args l).Sublist (l.filter (passes s level)) :=
  upto_stop_sublist _ _

theorem dispatched_eq_nil (s : logger_state_t) (level : log_level_t) (ev : log_event_t)
    (t : tm) (args : List va_arg) (l : List (Fin MAX_OUTPUTS)) :
    dispatched s level ev t args l = [] ↔ l.filter (passes s level) = [] :=
  upto_stop_eq_nil _ _

/-- When every call returns, the loop calls every passing slot. -/
theorem dispatched_of_all_return (s : logger_state_t) (level : log_level_t)
    (ev : log_event_t) (t : tm) (args : List va_arg)
    (h : all_return s level ev t args = true) :
    dispatched s level ev t args (List.finRange MAX_OUTPUTS) =
      (List.finRange MAX_OUTPUTS).filter (passes s level) :=
  upto_stop_of_all _ _ h

/-- On an initialised logger `logger_log` skips the lazy `logger_init`: the whole call in
closed form.  The effects are `log_effects`; no field of `logger_state` is written; the
process is dead afterwards exactly when a call of the loop did not return. -/
theorem logger_log_of_initialized (level : log_level_t) (file function : Option String)
    (line : Int) (fmt : Option String) (args : List va_arg) (p : Process)
    (hinit : p.logger_state.initialized = true) :
    (logger_log level file function line fmt args p).trace =
        p.trace ++ log_effects p.logger_state (p.clock p.ticks) level file function line fmt
          args ∧
    (logger_log level file function line fmt args p).logger_state = p.logger_state ∧
    (logger_log level file function line fmt args p).clock = p.clock ∧
    (logger_log level file function line fmt args p).ticks = p.ticks +
        (if ¬ level < p.logger_state.config.level ∧
            (List.finRange MAX_OUTPUTS).filter (passes p.logger_state level) ≠ []
         then 1 else 0) ∧
    (logger_log level file function line fmt args p).aborted =
        (p.aborted || (!decide (level < p.logger_state.config.level) &&
          !all_return p.logger_state level (call_event level file function line fmt)
            (p.clock p.ticks) args)) := by
  have hfold := log_fold_eq level args (List.finRange MAX_OUTPUTS)
    { event := call_event level file function line fmt, proc := lock_logger p,
      stopped := false } rfl
  simp only [lock_logger_state, lock_logger_clock, lock_logger_ticks, lock_logger_trace]
    at hfold
  have hev : (call_event level file function line fmt).time = none := rfl
  simp only [hev, true_and] at hfold
  obtain ⟨hproc, hstop⟩ := hfold
  have hlog : logger_log level file function line fmt args p =
      if level < p.logger_state.config.level then unlock_logger (lock_logger p)
      else
        if ((List.finRange MAX_OUTPUTS).foldl (log_step level args)
            { event := call_event level file function line fmt, proc := lock_logger p,
              stopped := false }).stopped
        then { ((List.finRange MAX_OUTPUTS).foldl (log_step level args)
            { event := call_event level file function line fmt, proc := lock_logger p,
              stopped := false }).proc with aborted := true }
        else unlock_logger ((List.finRange MAX_OUTPUTS).foldl (log_step level args)
            { event := call_event level file function line fmt, proc := lock_logger p,
              stopped := false }).proc := by
    simp [logger_log, hinit, lock_logger_state, call_event]
  rw [hlog]
  by_cases hlt : level < p.logger_state.config.level
  · rw [if_pos hlt]
    simp [unlock_logger_trace, unlock_logger_state, unlock_logger_clock, unlock_logger_ticks,
      unlock_logger_aborted, lock_logger_trace, lock_logger_state, lock_logger_clock,
      lock_logger_ticks, lock_logger_aborted, log_effects, hlt]
  · rw [if_neg hlt, hstop]
    by_cases hall : all_return p.logger_state level (call_event level file function line fmt)
        (p.clock p.ticks) args = true
    · have hall2 := hall
      unfold all_return at hall2
      rw [hall2, hproc]
      simp [unlock_logger_trace, unlock_logger_state, unlock_logger_clock,
        unlock_logger_ticks, unlock_logger_aborted, lock_logger_state, lock_logger_aborted,
        log_effects, hlt, hall]
    · have hall2 := hall
      unfold all_return at hall2
      have hall3 : ((List.finRange MAX_OUTPUTS).filter (passes p.logger_state level)).all
          (slot_returns p.logger_state (call_event level file function line fmt)
            (p.clock p.ticks) args) = false := by simpa using hall2
      have hall4 : all_return p.logger_state level (call_event level file function line fmt)
          (p.clock p.ticks) args = false := by simpa using hall
      rw [hall3, hproc]
      simp [lock_logger_state, log_effects, hlt, hall4]

theorem invoked_slots_log_effects (s : logger_state_t) (t : tm) (level : log_level_t)
    (file function : Option String) (line : Int) (fmt : Option String)
    (args : List va_arg) :
    invoked_slots (log_effects s t level file function line fmt args) =
      if level < s.config.level then []
      else dispatched s level (call_event level file function line fmt) t args
        (List.finRange MAX_OUTPUTS) := by
  unfold log_effects
  by_cases hlt : level < s.config.level
  · simp [hlt, invoked_slots_append, invoked_slots_lock_effects]
  · simp only [hlt, if_false, invoked_slots_append, invoked_slots_lock_effects,
      invoked_slots_dispatch_effects, List.nil_append]
    split <;> simp [invoked_slots_lock_effects, invoked_slots]

theorem time_reads_log_effects (s : logger_state_t) (t : tm) (level : log_level_t)
    (file function : Option String) (line : Int) (fmt : Option String)
    (args : List va_arg) :
    time_reads (log_effects s t level file function line fmt args) =
      if ¬ level < s.config.level ∧ (List.finRange MAX_OUTPUTS).filter (passes s level) ≠ []
      then 1 else 0 := by
  unfold log_effects
  have hev : (call_event level file function line fmt).time = none := rfl
  by_cases hlt : level < s.config.level
  · simp [hlt, time_reads_append, time_reads_lock_effects]
  · simp only [hlt, if_false, time_reads_append, time_reads_lock_effects,
      time_reads_dispatch_effects, hev, true_and, not_false_eq_true, Nat.zero_add]
    split <;> split <;> simp_all [time_reads_lock_effects, time_reads]

/-- The effects of a `logger_log` call on an initialised logger. -/
theorem logger_log_effects (level : log_level_t) (file function : Option String)
    (line : Int) (fmt : Option String) (args : List va_arg) (p : Process)
    (hinit : p.logger_state.initialized = true) :
    new_effects p (logger_log level file function line fmt args p) =
      log_effects p.logger_state (p.clock p.ticks) level file function line fmt args :=
  new_effects_of_append _ _ _
    (logger_log_of_initialized level file function line fmt args p hinit).1

/-- The slots a `logger_log` call on an initialised logger calls, in call order: none
below the configured level; otherwise the passing slots in table order, up to and
including the first whose call does not return. -/
theorem logger_log_invoked (level : log_level_t) (file function : Option String)
    (line : Int) (fmt : Option String) (args : List va_arg) (p : Process)
    (hinit : p.logger_state.initialized = true) :
    invoked_slots (new_effects p (logger_log level file function line fmt args p)) =
      if level < p.logger_state.config.level then []
      else dispatched p.logger_state level (call_event level file function line fmt)
        (p.clock p.ticks) args (List.finRange MAX_OUTPUTS) := by
  rw [logger_log_effects level file function line fmt args p hinit, invoked_slots_log_effects]

/-- Every call of a built-in procedure on a stream that is not NULL returns when the
level is one of the six enumerators, and so does every call of a caller's procedure. -/
theorem all_return_of_valid (s : logger_state_t) (level : log_level_t) (ev : log_event_t)
    (t : tm) (args : List va_arg) (hlevel : level < 6) (hev : ev.level = level)
    (hs : ∀ i, passes s level i = true → (s.outputs i).output_fn ≠ .null ∧
      ((s.outputs i).output_fn = .logger_console_output ∨
        (s.outputs i).output_fn = .logger_file_output → (s.outputs i).user_data ≠ .null)) :
    all_return s level ev t args = true := by
  unfold all_return
  rw [List.all_eq_true]
  intro i hi
  have hp := (List.mem_filter.1 hi).2
  obtain ⟨hnull, hctx⟩ := hs i hp
  have htime := sent_event_time s ev t args i
  have htime2 : (sent_event s ev t args i).time.isSome = true := by
    cases h : (sent_event s ev t args i).time with
    | none => exact absurd h htime
    | some v => rfl
  have hud : (sent_event s ev t args i).user_data = (s.outputs i).user_data := rfl
  have hlv : (sent_event s ev t args i).level = level := hev
  unfold slot_returns call_returns
  cases hf : (s.outputs i).output_fn with
  | null => exact absurd hf hnull
  | custom a => rfl
  | logger_console_output =>
    have := hctx (Or.inl hf)
    simp [htime2, hud, hlv, this, hlevel]
  | logger_file_output =>
    have := hctx (Or.inr hf)
    simp [htime2, hud, hlv, this, hlevel]

/-- The dispatch of `logger_log` when every call returns: on an initialised logger, a call
whose level is at least the configured minimum level calls the output procedures of
exactly the active slots whose own threshold is at most the event's level, each once, in
table order, each through the procedure stored in its slot. -/
theorem logger_log_invokes_passing_sinks (level : log_level_t)
    (file function : Option String) (line : Int) (fmt : Option String) (args : List va_arg)
    (p : Process) (hinit : p.logger_state.initialized = true)
    (hlevel : p.logger_state.config.level ≤ level)
    (hret : all_return p.logger_state level (call_event level file function line fmt)
      (p.clock p.ticks) args = true) :
    invoked_slots (new_effects p (logger_log level file function line fmt args p)) =
        (List.finRange MAX_OUTPUTS).filter (fun i =>
          (p.logger_state.outputs i).active && decide ((p.logger_state.outputs i).min_level ≤ level)) ∧
    (∀ i : Fin MAX_OUTPUTS,
      (invoked_slots (new_effects p (logger_log level file function line fmt args p))).count i =
        if (p.logger_state.outputs i).active = true ∧ (p.logger_state.outputs i).min_level ≤ level
        then 1 else 0) ∧
    (logger_log level file function line fmt args p).aborted = p.aborted := by
  have hnot : ¬ level < p.logger_state.config.level := not_lt.2 hlevel
  have hslots := logger_log_invoked level file function line fmt args p hinit
  rw [if_neg hnot, dispatched_of_all_return _ _ _ _ _ hret] at hslots
  refine ⟨?_, ?_, ?_⟩
  · rw [hslots]; rfl
  · intro i
    rw [hslots, count_filter_finRange]
    simp [passes]
  · rw [(logger_log_of_initialized level file function line fmt args p hinit).2.2.2.2, hret]
    simp

/-- The dispatch of `logger_log` at the six levels with the sinks of
`logger.test.c`: after `logger_init` and `logger_set_level(WARN)` with a custom sink
registered at TRACE, a WARN event reaches the default console sink and the custom sink. -/
theorem logger_log_invokes_passing_sinks_instance :
    invoked_slots (new_effects
        (logger_add_custom_output (.custom 7) .null LOG_LEVEL_TRACE
          (logger_set_level LOG_LEVEL_WARN (logger_init (fresh (fun _ => sample_tm))))).2
        (logger_log LOG_LEVEL_WARN (some "test_file.c") (some "test_function") 42
          (some "This should appear") []
          (logger_add_custom_output (.custom 7) .null LOG_LEVEL_TRACE
            (logger_set_level LOG_LEVEL_WARN (logger_init (fresh (fun _ => sample_tm))))).2)) =
      [0, 1] := by
  rw [(logger_log_invokes_passing_sinks LOG_LEVEL_WARN (some "test_file.c")
    (some "test_function") 42 (some "This should appear") []
    (logger_add_custom_output (.custom 7) .null LOG_LEVEL_TRACE
      (logger_set_level LOG_LEVEL_WARN (logger_init (fresh (fun _ => sample_tm))))).2
    (by decide) (by decide) (by decide)).1]
  decide

/-! ## C1 - C3 : filtering in `logger_log` -/

/-- C2: on an initialised logger, a `logger_log` call whose level is strictly below the
configured minimum level performs nothing but the lock and unlock calls: no output
procedure is called, the clock is not read, and the whole `logger_state` (configuration
and output table) is as before. -/
theorem C2_log_below_level_has_no_effect (level : log_level_t)
    (file function : Option String) (line : Int) (fmt : Option String) (args : List va_arg)
    (p : Process) (hinit : p.logger_state.initialized = true)
    (hlevel : level < p.logger_state.config.level) :
    new_effects p (logger_log level file function line fmt args p) =
        lock_effects p.logger_state.config true ++ lock_effects p.logger_state.config false ∧
    invoked_slots (new_effects p (logger_log level file function line fmt args p)) = [] ∧
    time_reads (new_effects p (logger_log level file function line fmt args p)) = 0 ∧
    (logger_log level file function line fmt args p).ticks = p.ticks ∧
    (logger_log level file function line fmt args p).logger_state = p.logger_state := by
  obtain ⟨-, hstate, -, hticks, -⟩ :=
    logger_log_of_initialized level file function line fmt args p hinit
  have heff := logger_log_effects level file function line fmt args p hinit
  have hE : log_effects p.logger_state (p.clock p.ticks) level file function line fmt args =
      lock_effects p.logger_state.config true ++ lock_effects p.logger_state.config false := by
    simp [log_effects, hlevel]
  rw [heff, hE]
  refine ⟨rfl, ?_, ?_, ?_, hstate⟩
  · simp [invoked_slots_append, invoked_slots_lock_effects]
  · simp [time_reads_append, time_reads_lock_effects]
  · rw [hticks]; simp [hlevel]

/-- C2, instance: with minimum level WARN, an INFO event calls nothing. -/
theorem C2_log_below_level_has_no_effect_witness :
    invoked_slots (new_effects
        (logger_set_level LOG_LEVEL_WARN (logger_init (fresh (fun _ => sample_tm))))
        (logger_log LOG_LEVEL_INFO (some "test_file.c") (some "test_function") 42
          (some "This should not appear") []
          (logger_set_level LOG_LEVEL_WARN (logger_init (fresh (fun _ => sample_tm)))))) = [] :=
  (C2_log_below_level_has_no_effect LOG_LEVEL_INFO (some "test_file.c")
    (some "test_function") 42 (some "This should not appear") []
    (logger_set_level LOG_LEVEL_WARN (logger_init (fresh (fun _ => sample_tm))))
    (by decide) (by decide)).2.1

/-- C3, evaluated at the failing input: `logger_init(); logger_set_quiet(true);`
followed by one `logger_log` at INFO still calls the default console sink of slot 0,
because `logger_log` never reads `config.quiet`. -/
theorem C3_quiet_does_not_suppress_output :
    (logger_set_quiet true (logger_init (fresh (fun _ => sample_tm)))).logger_state.config.quiet
        = true ∧
    invoked_slots (new_effects
        (logger_set_quiet true (logger_init (fresh (fun _ => sample_tm))))
        (logger_log LOG_LEVEL_INFO (some "main.c") (some "main") 10 (some "hello") []
          (logger_set_quiet true (logger_init (fresh (fun _ => sample_tm)))))) = [0] := by
  decide

/-! ## C4 - C7 : registration -/

theorem first_inactive_some {s : logger_state_t} {i : Fin MAX_OUTPUTS}
    (h : first_inactive s = some i) :
    (s.outputs i).active = false ∧ ∀ j, j < i → (s.outputs j).active = true := by
  unfold first_inactive at h
  refine ⟨by simpa using List.find?_some h, ?_⟩
  intro j hj
  obtain ⟨as, bs, hsplit, hbefore⟩ := (List.find?_eq_some.1 h).2
  have hsorted : (as ++ i :: bs).Pairwise (· < ·) := by
    rw [← hsplit]; exact List.pairwise_lt_finRange MAX_OUTPUTS
  have hjmem : j ∈ as ++ i :: bs := by rw [← hsplit]; exact List.mem_finRange j
  rcases List.mem_append.1 hjmem with hm | hm
  · simpa using hbefore j hm
  · rcases List.mem_cons.1 hm with hm | hm
    · exact absurd hm (ne_of_lt hj)
    · have hij : i < j := by
        have := List.pairwise_append.1 hsorted |>.2.1
        exact (List.pairwise_cons.1 this).1 j hm
      exact absurd hj (not_lt_of_gt hij)

theorem first_inactive_none {s : logger_state_t} (h : first_inactive s = none) :
    ∀ i, (s.outputs i).active = true := by
  unfold first_inactive at h
  intro i
  have := List.find?_eq_none.1 h i (List.mem_finRange i)
  simpa using this

/-- The three outcomes of `logger_add_custom_output`, as equations on the result. -/
theorem logger_add_custom_output_cases (output_fn : log_output_fn_t) (user_data : Ptr)
    (level : log_level_t) (p : Process) :
    (output_fn = .null ∧ logger_add_custom_output output_fn user_data level p = (-1, p)) ∨
    (output_fn ≠ .null ∧ first_inactive p.logger_state = none ∧
      (logger_add_custom_output output_fn user_data level p).1 = -1 ∧
      (logger_add_custom_output output_fn user_data level p).2.logger_state = p.logger_state) ∨
    (output_fn ≠ .null ∧ ∃ i, first_inactive p.logger_state = some i ∧
      (logger_add_custom_output output_fn user_data level p).1 = 0 ∧
      (logger_add_custom_output output_fn user_data level p).2.logger_state =
        set_output p.logger_state i output_fn user_data level) := by
  by_cases hfn : output_fn = .null
  · left; exact ⟨hfn, by simp [logger_add_custom_output, hfn]⟩
  · right
    cases hfi : first_inactive p.logger_state with
    | none =>
      left
      refine ⟨hfn, rfl, ?_, ?_⟩
      · simp [logger_add_custom_output, hfn, lock_logger_state, hfi]
      · simp [logger_add_custom_output, hfn, lock_logger_state, hfi, unlock_logger_state]
    | some i =>
      right
      refine ⟨hfn, i, rfl, ?_, ?_⟩
      · simp [logger_add_custom_output, hfn, lock_logger_state, hfi]
      · simp [logger_add_custom_output, hfn, lock_logger_state, hfi, unlock_logger_state]

/-- C4: `logger_add_custom_output` returns -1 exactly when the procedure is null or every
slot is active; in every other case it returns 0, the slot it fills is the lowest-index
inactive one, that slot then holds (procedure, context, level, active = true), and every
other slot, the configuration and the initialized flag are as before. -/
theorem C4_add_custom_output_contract (output_fn : log_output_fn_t) (user_data : Ptr)
    (level : log_level_t) (p : Process) :
    ((logger_add_custom_output output_fn user_data level p).1 = -1 ↔
      (output_fn = .null ∨ ∀ i, (p.logger_state.outputs i).active = true)) ∧
    ((logger_add_custom_output output_fn user_data level p).1 = -1 ∨
      ((logger_add_custom_output output_fn user_data level p).1 = 0 ∧
        ∃ i : Fin MAX_OUTPUTS,
          (p.logger_state.outputs i).active = false ∧
          (∀ j, j < i → (p.logger_state.outputs j).active = true) ∧
          (logger_add_custom_output output_fn user_data level p).2.logger_state.outputs i =
            { output_fn := output_fn, user_data := user_data, min_level := level,
              active := true } ∧
          (∀ j, j ≠ i →
            (logger_add_custom_output output_fn user_data level p).2.logger_state.outputs j =
              p.logger_state.outputs j) ∧
          (logger_add_custom_output output_fn user_data level p).2.logger_state.config =
            p.logger_state.config ∧
          (logger_add_custom_output output_fn user_data level p).2.logger_state.initialized =
            p.logger_state.initialized)) := by
  rcases logger_add_custom_output_cases output_fn user_data level p with
    ⟨hfn, heq⟩ | ⟨hfn, hfi, hret, -⟩ | ⟨hfn, i, hfi, hret, hst⟩
  · rw [heq]; exact ⟨⟨fun _ => Or.inl hfn, fun _ => rfl⟩, Or.inl rfl⟩
  · exact ⟨⟨fun _ => Or.inr (first_inactive_none hfi), fun _ => hret⟩, Or.inl hret⟩
  · obtain ⟨hina, hlow⟩ := first_inactive_some hfi
    refine ⟨⟨fun h => ?_, fun h => ?_⟩, Or.inr ⟨hret, i, hina, hlow, ?_, ?_, ?_, ?_⟩⟩
    · rw [hret] at h; exact absurd h (by decide)
    · rcases h with h | h
      · exact absurd h hfn
      · rw [h i] at hina; exact absurd hina (by decide)
    · rw [hst]; simp [set_output]
    · intro j hj; rw [hst]; simp [set_output, Function.update_noteq hj]
    · rw [hst]; rfl
    · rw [hst]; rfl

/-- C5: a registration call that returns -1, be it for a null procedure, a null file
or a full table, leaves the whole `logger_state` (output table, configuration,
initialized flag) exactly as it was. -/
theorem C5_failed_registration_changes_nothing (r : Registration) (p : Process)
    (hfail : (register r p).1 = -1) :
    (register r p).2.logger_state = p.logger_state := by
  have key : ∀ f u l, (logger_add_custom_output f u l p).1 = -1 →
      (logger_add_custom_output f u l p).2.logger_state = p.logger_state := by
    intro f u l h
    rcases logger_add_custom_output_cases f u l p with
      ⟨-, heq⟩ | ⟨-, -, -, hst⟩ | ⟨-, i, -, hret, -⟩
    · rw [heq]
    · exact hst
    · rw [hret] at h; exact absurd h (by decide)
  cases r with
  | console level => exact key _ _ _ hfail
  | file file level =>
    simp only [register, logger_add_file_output] at hfail ⊢
    by_cases hf : file = .null
    · simp [hf]
    · simp only [hf, if_false] at hfail ⊢
      exact key _ _ _ hfail
  | custom f u l => exact key _ _ _ hfail

set_option maxRecDepth 8000 in
/-- C5, instance: after `logger_init` and fifteen registrations of a custom sink all
sixteen slots are active, and a further `logger_add_console_output` changes nothing. -/
theorem C5_failed_registration_changes_nothing_witness :
    (register (.console LOG_LEVEL_INFO)
      (register_all (List.replicate 15 (.custom (.custom 1) .null LOG_LEVEL_TRACE))
        (logger_init (fresh (fun _ => sample_tm)))).2).2.logger_state =
    (register_all (List.replicate 15 (.custom (.custom 1) .null LOG_LEVEL_TRACE))
        (logger_init (fresh (fun _ => sample_tm)))).2.logger_state :=
  C5_failed_registration_changes_nothing (.console LOG_LEVEL_INFO)
    (register_all (List.replicate 15 (.custom (.custom 1) .null LOG_LEVEL_TRACE))
        (logger_init (fresh (fun _ => sample_tm)))).2 (by decide)

/-- C6: for every logger state, context and level, `logger_add_file_output(NULL, level)`
and `logger_add_custom_output(NULL, ctx, level)` both return -1, and the number of
active sinks is the same after each call as before (the process is not touched at all). -/
theorem C6_null_registration_rejected (p : Process) (ctx : Ptr) (level : log_level_t) :
    (logger_add_file_output .null level p).1 = -1 ∧
    (logger_add_custom_output .null ctx level p).1 = -1 ∧
    active_count (logger_add_file_output .null level p).2.logger_state =
      active_count p.logger_state ∧
    active_count (logger_add_custom_output .null ctx level p).2.logger_state =
      active_count p.logger_state ∧
    (logger_add_file_output .null level p).2 = p ∧
    (logger_add_custom_output .null ctx level p).2 = p := by
  simp [logger_add_file_output, logger_add_custom_output]

/-- What `logger_init` does on an uninitialised logger: no effect on the environment,
and the state is the default configuration with the default console sink in slot 0. -/
theorem logger_init_of_uninitialized (p : Process)
    (h : p.logger_state.initialized = false) :
    logger_init p = { p with logger_state :=
      { config := default_config,
        outputs := Function.update (fun _ => zero_handler) 0 default_console,
        initialized := true } } := by
  have hfi : first_inactive { zero_state with config := default_config } = some 0 := by decide
  simp [logger_init, h, logger_add_console_output, logger_add_custom_output, lock_logger,
    unlock_logger, set_output, zero_state, default_config, default_console] at hfi ⊢
  simp [hfi]

theorem logger_init_of_initialized (p : Process) (h : p.logger_state.initialized = true) :
    logger_init p = p := by
  simp [logger_init, h]

theorem prefix_active_first_inactive {s : logger_state_t} {k : Nat} (hp : prefix_active s k)
    (hk : k < MAX_OUTPUTS) : first_inactive s = some ⟨k, hk⟩ := by
  cases hfi : first_inactive s with
  | none =>
    have := (hp ⟨k, hk⟩).1 (first_inactive_none hfi ⟨k, hk⟩)
    simp at this
  | some i =>
    obtain ⟨hina, hlow⟩ := first_inactive_some hfi
    have h1 : ¬ i.val < k := fun h => by
      rw [(hp i).2 h] at hina; exact absurd hina (by decide)
    have h2 : ¬ k < i.val := fun h => by
      have := (hp ⟨k, hk⟩).1 (hlow ⟨k, hk⟩ h)
      simp at this
    have : i = ⟨k, hk⟩ := Fin.ext (by simp; omega)
    rw [this]

theorem prefix_active_full {s : logger_state_t} (hp : prefix_active s MAX_OUTPUTS) :
    first_inactive s = none := by
  cases hfi : first_inactive s with
  | none => rfl
  | some i =>
    have := (first_inactive_some hfi).1
    rw [(hp i).2 i.isLt] at this
    exact absurd this (by decide)

theorem prefix_active_set_output {s : logger_state_t} {k : Nat} (hp : prefix_active s k)
    (hk : k < MAX_OUTPUTS) (f : log_output_fn_t) (u : Ptr) (l : log_level_t) :
    prefix_active (set_output s ⟨k, hk⟩ f u l) (k + 1) := by
  intro i
  by_cases hik : i = ⟨k, hk⟩
  · subst hik; simp [set_output]
  · have hne : i.val ≠ k := fun h => hik (Fin.ext h)
    simp only [set_output, Function.update_noteq hik]
    rw [hp i]; omega

/-- A registration call with non-null procedure on a table whose first `k` slots are the
active ones: it succeeds into slot `k` when `k < 16` and fails without change when
`k = 16`. -/
theorem register_at_count (r : Registration) (hr : r.nonnull = true) (p : Process) (k : Nat)
    (hp : prefix_active p.logger_state k) :
    (∃ hk : k < MAX_OUTPUTS, (register r p).1 = 0 ∧
      ∃ f u l, (register r p).2.logger_state = set_output p.logger_state ⟨k, hk⟩ f u l) ∨
    (k ≥ MAX_OUTPUTS ∧ (register r p).1 = -1 ∧
      (register r p).2.logger_state = p.logger_state) := by
  have key : ∀ f u l, f ≠ log_output_fn_t.null →
      (∃ hk : k < MAX_OUTPUTS, (logger_add_custom_output f u l p).1 = 0 ∧
        ∃ f' u' l', (logger_add_custom_output f u l p).2.logger_state =
          set_output p.logger_state ⟨k, hk⟩ f' u' l') ∨
      (k ≥ MAX_OUTPUTS ∧ (logger_add_custom_output f u l p).1 = -1 ∧
        (logger_add_custom_output f u l p).2.logger_state = p.logger_state) := by
    intro f u l hf
    by_cases hk : k < MAX_OUTPUTS
    · left
      have hfi := prefix_active_first_inactive hp hk
      rcases logger_add_custom_output_cases f u l p with
        ⟨h0, -⟩ | ⟨-, hnone, -, -⟩ | ⟨-, i, hsome, hret, hst⟩
      · exact absurd h0 hf
      · rw [hfi] at hnone; cases hnone
      · rw [hfi] at hsome; cases hsome
        exact ⟨hk, hret, f, u, l, hst⟩
    · right
      have hall : ∀ i, (p.logger_state.outputs i).active = true := fun i =>
        (hp i).2 (by have := i.isLt; omega)
      rcases logger_add_custom_output_cases f u l p with
        ⟨h0, -⟩ | ⟨-, -, hret, hst⟩ | ⟨-, i, hsome, -, -⟩
      · exact absurd h0 hf
      · exact ⟨by omega, hret, hst⟩
      · have := (first_inactive_some hsome).1
        rw [hall i] at this; exact absurd this (by decide)
  cases r with
  | console level => exact key _ _ _ (by decide)
  | file fl level =>
    have hf : fl ≠ .null := by simpa [Registration.nonnull] using hr
    simp only [register, logger_add_file_output, hf, if_false]
    exact key _ _ _ (by decide)
  | custom f u l =>
    have hf : f ≠ .null := by simpa [Registration.nonnull] using hr
    exact key _ _ _ hf

/-- Return values of a run of non-null registrations on a table with `k` active slots
forming a prefix: `16 - k` successes, then failures only. -/
theorem register_all_at_count (rs : List Registration) :
    ∀ (p : Process) (k : Nat), k ≤ MAX_OUTPUTS → prefix_active p.logger_state k →
      (∀ r ∈ rs, r.nonnull = true) →
      (register_all rs p).1 =
        List.replicate (min (MAX_OUTPUTS - k) rs.length) 0 ++
        List.replicate (rs.length - (MAX_OUTPUTS - k)) (-1) := by
  induction rs with
  | nil => intro p k _ _ _; simp [register_all]
  | cons r rs ih =>
    intro p k hk hp hrs
    have hr : r.nonnull = true := hrs r (List.mem_cons_self _ _)
    have hrs2 : ∀ r ∈ rs, r.nonnull = true := fun x hx => hrs x (List.mem_cons_of_mem _ hx)
    simp only [register_all, List.length_cons]
    rcases register_at_count r hr p k hp with ⟨hlt, hret, f, u, l, hst⟩ | ⟨hge, hret, hst⟩
    · have hp2 : prefix_active (register r p).2.logger_state (k + 1) := by
        rw [hst]; exact prefix_active_set_output hp hlt f u l
      rw [hret, ih _ (k + 1) hlt hp2 hrs2]
      have e1 : min (MAX_OUTPUTS - k) (rs.length + 1) =
          min (MAX_OUTPUTS - (k + 1)) rs.length + 1 := by omega
      have e2 : rs.length + 1 - (MAX_OUTPUTS - k) = rs.length - (MAX_OUTPUTS - (k + 1)) := by
        omega
      rw [e1, e2, List.replicate_succ, List.cons_append]
    · have hk16 : k = MAX_OUTPUTS := by omega
      have hp2 : prefix_active (register r p).2.logger_state k := by rw [hst]; exact hp
      rw [hret, ih _ k hk hp2 hrs2]
      subst hk16
      simp [List.replicate_succ]

theorem prefix_active_after_init (p : Process) (h : p.logger_state.initialized = false) :
    prefix_active (logger_init p).logger_state 1 := by
  rw [logger_init_of_uninitialized p h]
  intro i
  by_cases hi : i = 0
  · subst hi; simp [default_console]
  · have : i.val ≠ 0 := fun h0 => hi (Fin.ext h0)
    simp [Function.update_noteq hi, zero_handler]
    omega

set_option maxRecDepth 8000 in
/-- C7 as stated fails: after `logger_init` on a fresh process, sixteen registration
attempts with a non-null procedure return 0 fifteen times and -1 the sixteenth time. -/
theorem C7_sixteenth_attempt_fails :
    (register_all (List.replicate 16 (.custom (.custom 1) .null LOG_LEVEL_TRACE))
      (logger_init (fresh (fun _ => sample_tm)))).1 =
    [0, 0, 0, 0, 0, 0, 0, 0, 0, 0, 0, 0, 0, 0, 0, -1] := by
  decide

/-- C7, amended: the table holds 16 sinks, one of which is the default console sink that
`logger_init` registers itself; counting the registration attempts a caller makes after
`logger_init` on an uninitialised logger (each with a non-null procedure or file), the
first 15 attempts return 0 and every later attempt, the 16th included, returns -1. -/
theorem C7_capacity_after_init (p : Process) (rs : List Registration)
    (huninit : p.logger_state.initialized = false)
    (hrs : ∀ r ∈ rs, r.nonnull = true) :
    MAX_OUTPUTS = 16 ∧
    (register_all rs (logger_init p)).1 =
      List.replicate (min 15 rs.length) 0 ++ List.replicate (rs.length - 15) (-1) := by
  refine ⟨rfl, ?_⟩
  have := register_all_at_count rs (logger_init p) 1 (by decide)
    (prefix_active_after_init p huninit) hrs
  simpa using this

/-- C7, instance: seventeen mixed registrations after `logger_init` on a fresh process. -/
theorem C7_capacity_after_init_witness :
    (register_all (.console LOG_LEVEL_WARN :: .file (.addr 1) LOG_LEVEL_DEBUG ::
        List.replicate 15 (.custom (.custom 1) .null LOG_LEVEL_TRACE))
      (logger_init (fresh (fun _ => sample_tm)))).1 =
    List.replicate 15 0 ++ List.replicate 2 (-1) :=
  (C7_capacity_after_init (fresh (fun _ => sample_tm))
    (.console LOG_LEVEL_WARN :: .file (.addr 1) LOG_LEVEL_DEBUG ::
        List.replicate 15 (.custom (.custom 1) .null LOG_LEVEL_TRACE))
    (by decide) (by decide)).2

/-! ## C9, C10 : `logger_init` -/

theorem logger_init_initialized (p : Process) :
    (logger_init p).logger_state.initialized = true := by
  by_cases h : p.logger_state.initialized = true
  · rw [logger_init_of_initialized p h]; exact h
  · rw [logger_init_of_uninitialized p (by simpa using h)]

theorem logger_init_trace (p : Process) : (logger_init p).trace = p.trace := by
  by_cases h : p.logger_state.initialized = true
  · rw [logger_init_of_initialized p h]
  · rw [logger_init_of_uninitialized p (by simpa using h)]

theorem logger_init_state_of_uninitialized (p : Process)
    (h : p.logger_state.initialized = false) :
    (logger_init p).logger_state = default_state := by
  rw [logger_init_of_uninitialized p h]; rfl

theorem logger_log_lazy (level : log_level_t) (file function : Option String)
    (line : Int) (fmt : Option String) (args : List va_arg) (p : Process) :
    logger_log level file function line fmt args p =
      logger_log level file function line fmt args (logger_init p) := by
  by_cases h : p.logger_state.initialized = true
  · rw [logger_init_of_initialized p h]
  · have h' : p.logger_state.initialized = false := by simpa using h
    have hi := logger_init_initialized p
    simp only [logger_log, h', hi]
    simp

theorem logger_init_clock (p : Process) : (logger_init p).clock = p.clock := by
  by_cases h : p.logger_state.initialized = true
  · rw [logger_init_of_initialized p h]
  · rw [logger_init_of_uninitialized p (by simpa using h)]

theorem logger_init_ticks (p : Process) : (logger_init p).ticks = p.ticks := by
  by_cases h : p.logger_state.initialized = true
  · rw [logger_init_of_initialized p h]
  · rw [logger_init_of_uninitialized p (by simpa using h)]

theorem new_effects_logger_init (p q : Process) :
    new_effects p q = new_effects (logger_init p) q := by
  simp [new_effects, logger_init_trace]

/-- What any `logger_log` call does, lazy initialisation included: the state afterwards
is the state after `logger_init`, and the effects are those of the call on the
initialised logger. -/
theorem logger_log_spec (level : log_level_t) (file function : Option String)
    (line : Int) (fmt : Option String) (args : List va_arg) (p : Process) :
    (logger_log level file function line fmt args p).logger_state =
        (logger_init p).logger_state ∧
    new_effects p (logger_log level file function line fmt args p) =
      log_effects (logger_init p).logger_state (p.clock p.ticks) level file function line fmt
        args := by
  rw [new_effects_logger_init, logger_log_lazy]
  have h := logger_log_of_initialized level file function line fmt args _
    (logger_init_initialized p)
  have he := logger_log_effects level file function line fmt args _
    (logger_init_initialized p)
  rw [logger_init_clock, logger_init_ticks] at he
  exact ⟨h.2.1, he⟩

theorem logger_cleanup_state (p : Process) (h : p.logger_state.initialized = true) :
    (logger_cleanup p).logger_state = zero_state := by
  simp [logger_cleanup, h]

/-- Every public call acts on the table and the initialized flag in one of four ways:
it leaves both alone; it fills the first inactive slot; it runs the body of
`logger_init`; or it zeroes the state (`logger_cleanup`). -/
theorem op_apply_cases (op : Op) (p : Process) :
    ((op.apply p).logger_state.outputs = p.logger_state.outputs ∧
      (op.apply p).logger_state.initialized = p.logger_state.initialized) ∨
    (∃ i f u l, first_inactive p.logger_state = some i ∧
      (op.apply p).logger_state = set_output p.logger_state i f u l) ∨
    (p.logger_state.initialized = false ∧ (op.apply p).logger_state = default_state) ∨
    (p.logger_state.initialized = true ∧ op.is_cleanup = true ∧
      (op.apply p).logger_state = zero_state) := by
  have hinit : ∀ q : Process, q.logger_state = (logger_init p).logger_state →
      (q.logger_state.outputs = p.logger_state.outputs ∧
        q.logger_state.initialized = p.logger_state.initialized) ∨
      (p.logger_state.initialized = false ∧ q.logger_state = default_state) := by
    intro q hq
    by_cases h : p.logger_state.initialized = true
    · left; rw [hq, logger_init_of_initialized p h]; exact ⟨rfl, rfl⟩
    · have h' : p.logger_state.initialized = false := by simpa using h
      right; exact ⟨h', by rw [hq, logger_init_state_of_uninitialized p h']⟩
  by_cases ha : p.aborted = true
  · left; simp [Op.apply, ha]
  have happ : op.apply p = op.call p := by simp [Op.apply, ha]
  rw [happ]
  have hreg : ∀ f u l,
      ((logger_add_custom_output f u l p).2.logger_state.outputs = p.logger_state.outputs ∧
        (logger_add_custom_output f u l p).2.logger_state.initialized =
          p.logger_state.initialized) ∨
      (∃ i f' u' l', first_inactive p.logger_state = some i ∧
        (logger_add_custom_output f u l p).2.logger_state =
          set_output p.logger_state i f' u' l') := by
    intro f u l
    rcases logger_add_custom_output_cases f u l p with
      ⟨-, heq⟩ | ⟨-, -, -, hst⟩ | ⟨-, i, hsome, -, hst⟩
    · left; rw [heq]; exact ⟨rfl, rfl⟩
    · left; rw [hst]; exact ⟨rfl, rfl⟩
    · right; exact ⟨i, f, u, l, hsome, hst⟩
  cases op with
  | init =>
    rcases hinit (logger_init p) rfl with h | h
    · exact Or.inl h
    · exact Or.inr (Or.inr (Or.inl h))
  | cleanup =>
    by_cases h : p.logger_state.initialized = true
    · exact Or.inr (Or.inr (Or.inr ⟨h, rfl, logger_cleanup_state p h⟩))
    · left; simp [Op.call, logger_cleanup, h]
  | set_level l =>
    left; simp [Op.call, logger_set_level, unlock_logger_state, lock_logger_state]
  | set_quiet b =>
    left; simp [Op.call, logger_set_quiet, unlock_logger_state, lock_logger_state]
  | set_colors b =>
    left; simp [Op.call, logger_set_colors, unlock_logger_state, lock_logger_state]
  | set_show_file_line b =>
    left; simp [Op.call, logger_set_show_file_line, unlock_logger_state, lock_logger_state]
  | set_show_function b =>
    left; simp [Op.call, logger_set_show_function, unlock_logger_state, lock_logger_state]
  | set_lock f u =>
    left; simp [Op.call, logger_set_lock, unlock_logger_state, lock_logger_state]
  | add r =>
    cases r with
    | console level =>
      rcases hreg .logger_console_output .stderr level with h | h
      · exact Or.inl h
      · exact Or.inr (Or.inl h)
    | file fl level =>
      by_cases hf : fl = .null
      · left; simp [Op.call, register, logger_add_file_output, hf]
      · simp only [Op.call, register, logger_add_file_output, hf, if_false]
        rcases hreg .logger_file_output fl level with h | h
        · exact Or.inl h
        · exact Or.inr (Or.inl h)
    | custom f u l =>
      rcases hreg f u l with h | h
      · exact Or.inl h
      · exact Or.inr (Or.inl h)
  | log level file function line fmt args =>
    rcases hinit (logger_log level file function line fmt args p)
      (logger_log_spec level file function line fmt args p).1 with h | h
    · exact Or.inl h
    · exact Or.inr (Or.inr (Or.inl h))

theorem op_apply_initialized (op : Op) (p : Process) (hop : op.is_cleanup = false)
    (h : p.logger_state.initialized = true) :
    (op.apply p).logger_state.initialized = true := by
  rcases op_apply_cases op p with ⟨-, h1⟩ | ⟨i, f, u, l, -, h1⟩ | ⟨h0, -⟩ | ⟨-, hc, -⟩
  · rw [h1]; exact h
  · rw [h1]; exact h
  · rw [h] at h0; cases h0
  · rw [hop] at hc; cases hc

theorem run_initialized (ops : List Op) :
    ∀ p : Process, (∀ op ∈ ops, op.is_cleanup = false) → p.logger_state.initialized = true →
      (run ops p).logger_state.initialized = true := by
  induction ops with
  | nil => intro p _ h; exact h
  | cons op ops ih =>
    intro p hops h
    exact ih (op.apply p) (fun o ho => hops o (List.mem_cons_of_mem _ ho))
      (op_apply_initialized op p (hops op (List.mem_cons_self _ _)) h)

/-- C9: `logger_init` on an already initialised logger returns the process unchanged
(configuration, lock adapter, every slot, and no effect on the environment); and the
logger stays initialised, so that this holds again, after any further public calls other
than `logger_cleanup` (setters, registrations, `logger_log`, `logger_init`). -/
theorem C9_init_idempotent (p : Process) (hinit : p.logger_state.initialized = true) :
    logger_init p = p ∧
    ∀ ops : List Op, (∀ op ∈ ops, op.is_cleanup = false) →
      logger_init (run ops p) = run ops p := by
  refine ⟨logger_init_of_initialized p hinit, fun ops hops => ?_⟩
  exact logger_init_of_initialized _ (run_initialized ops p hops hinit)

/-- C9, instance: a second `logger_init` after `logger_init`, `logger_set_level(ERROR)`
and a custom registration changes nothing. -/
theorem C9_init_idempotent_witness :
    logger_init (run [.set_level LOG_LEVEL_ERROR,
        .add (.custom (.custom 1) .null LOG_LEVEL_TRACE)] (logger_init (fresh (fun _ => sample_tm)))) =
      run [.set_level LOG_LEVEL_ERROR,
        .add (.custom (.custom 1) .null LOG_LEVEL_TRACE)] (logger_init (fresh (fun _ => sample_tm))) :=
  (C9_init_idempotent (logger_init (fresh (fun _ => sample_tm))) (by decide)).2
    [.set_level LOG_LEVEL_ERROR, .add (.custom (.custom 1) .null LOG_LEVEL_TRACE)]
    (by decide)

/-- C10: immediately after `logger_init` on an uninitialised logger the minimum level is
INFO, quiet is false, colors are on, show-file-line is true, show-function is false, no
lock adapter is installed, the logger is initialised, slot 0 holds the active built-in
console sink bound to stderr with threshold TRACE, every other slot is inactive, and
the number of active sinks is one. -/
theorem C10_state_after_init (p : Process) (huninit : p.logger_state.initialized = false) :
    (logger_init p).logger_state.config.level = LOG_LEVEL_INFO ∧
    (logger_init p).logger_state.config.quiet = false ∧
    (logger_init p).logger_state.config.use_colors = true ∧
    (logger_init p).logger_state.config.show_file_line = true ∧
    (logger_init p).logger_state.config.show_function = false ∧
    (logger_init p).logger_state.config.lock_fn = .null ∧
    (logger_init p).logger_state.config.lock_data = .null ∧
    (logger_init p).logger_state.initialized = true ∧
    (logger_init p).logger_state.outputs 0 =
      { output_fn := .logger_console_output, user_data := .stderr,
        min_level := LOG_LEVEL_TRACE, active := true } ∧
    (∀ i : Fin MAX_OUTPUTS, i ≠ 0 → ((logger_init p).logger_state.outputs i).active = false) ∧
    active_count (logger_init p).logger_state = 1 := by
  rw [logger_init_state_of_uninitialized p huninit]
  refine ⟨rfl, rfl, rfl, rfl, rfl, rfl, rfl, rfl, rfl, ?_, by decide⟩
  intro i hi
  simp [default_state, Function.update_noteq hi, zero_handler]

/-- C10, instance: `logger_init` in a fresh process. -/
theorem C10_state_after_init_witness :
    (logger_init (fresh (fun _ => sample_tm))).logger_state.config.level = LOG_LEVEL_INFO ∧
    active_count (logger_init (fresh (fun _ => sample_tm))).logger_state = 1 :=
  ⟨(C10_state_after_init (fresh (fun _ => sample_tm)) (by decide)).1,
   (C10_state_after_init (fresh (fun _ => sample_tm)) (by decide)).2.2.2.2.2.2.2.2.2.2⟩

/-! ## A dead process -/

theorem cleanup_step_aborted (p : Process) (i : Fin MAX_OUTPUTS) :
    (cleanup_step p i).aborted = p.aborted := by
  unfold cleanup_step
  dsimp only
  split
  · split <;> rfl
  · rfl

theorem cleanup_fold_aborted (l : List (Fin MAX_OUTPUTS)) :
    ∀ p : Process, (l.foldl cleanup_step p).aborted = p.aborted := by
  induction l with
  | nil => intro p; rfl
  | cons i l ih => intro p; rw [List.foldl_cons, ih, cleanup_step_aborted]

theorem logger_cleanup_aborted (p : Process) : (logger_cleanup p).aborted = p.aborted := by
  unfold logger_cleanup
  split
  · rfl
  · exact cleanup_fold_aborted _ p

theorem logger_init_aborted (p : Process) : (logger_init p).aborted = p.aborted := by
  by_cases h : p.logger_state.initialized = true
  · rw [logger_init_of_initialized p h]
  · rw [logger_init_of_uninitialized p (by simpa using h)]

theorem logger_add_custom_output_aborted (f : log_output_fn_t) (u : Ptr) (l : log_level_t)
    (p : Process) : (logger_add_custom_output f u l p).2.aborted = p.aborted := by
  unfold logger_add_custom_output
  split
  · rfl
  · dsimp only
    split <;> simp [unlock_logger_aborted, lock_logger_aborted]

theorem register_aborted (r : Registration) (p : Process) :
    (register r p).2.aborted = p.aborted := by
  cases r with
  | console level => exact logger_add_custom_output_aborted _ _ _ p
  | file fl level =>
    by_cases hf : fl = .null
    · simp [register, logger_add_file_output, hf]
    · simp only [register, logger_add_file_output, hf, if_false]
      exact logger_add_custom_output_aborted _ _ _ p
  | custom f u l => exact logger_add_custom_output_aborted _ _ _ p

/-- Only `logger_log` can kill the process, and it leaves the logger initialised. -/
theorem op_apply_aborted (op : Op) (p : Process)
    (h : p.aborted = true → p.logger_state.initialized = true) :
    (op.apply p).aborted = true → (op.apply p).logger_state.initialized = true := by
  by_cases ha : p.aborted = true
  · have happ : op.apply p = p := by simp [Op.apply, ha]
    rw [happ]; exact h
  · have happ : op.apply p = op.call p := by simp [Op.apply, ha]
    rw [happ]
    have hkeep : (op.call p).aborted = p.aborted →
        (op.call p).aborted = true → (op.call p).logger_state.initialized = true :=
      fun h1 h2 => absurd (h1 ▸ h2) ha
    cases op with
    | init => exact hkeep (logger_init_aborted p)
    | cleanup => exact hkeep (logger_cleanup_aborted p)
    | set_level l =>
      exact hkeep (by simp [Op.call, logger_set_level, unlock_logger_aborted,
        lock_logger_aborted])
    | set_quiet b =>
      exact hkeep (by simp [Op.call, logger_set_quiet, unlock_logger_aborted,
        lock_logger_aborted])
    | set_colors b =>
      exact hkeep (by simp [Op.call, logger_set_colors, unlock_logger_aborted,
        lock_logger_aborted])
    | set_show_file_line b =>
      exact hkeep (by simp [Op.call, logger_set_show_file_line, unlock_logger_aborted,
        lock_logger_aborted])
    | set_show_function b =>
      exact hkeep (by simp [Op.call, logger_set_show_function, unlock_logger_aborted,
        lock_logger_aborted])
    | set_lock f u =>
      exact hkeep (by simp [Op.call, logger_set_lock, unlock_logger_aborted,
        lock_logger_aborted])
    | add r => exact hkeep (register_aborted r p)
    | log level file function line fmt args =>
      intro _
      show (logger_log level file function line fmt args p).logger_state.initialized = true
      rw [(logger_log_spec level file function line fmt args p).1]
      exact logger_init_initialized p

theorem run_aborted (ops : List Op) :
    ∀ p : Process, (p.aborted = true → p.logger_state.initialized = true) →
      (run ops p).aborted = true → (run ops p).logger_state.initialized = true := by
  induction ops with
  | nil => intro p h; exact h
  | cons op ops ih => intro p h; exact ih (op.apply p) (op_apply_aborted op p h)

/-- The state after one more `logger_log` call of an execution, dead or alive. -/
theorem log_apply_state (level : log_level_t) (file function : Option String)
    (line : Int) (fmt : Option String) (args : List va_arg) (p : Process)
    (h : p.aborted = true → p.logger_state.initialized = true) :
    ((Op.log level file function line fmt args).apply p).logger_state =
      (logger_init p).logger_state := by
  by_cases ha : p.aborted = true
  · have happ : (Op.log level file function line fmt args).apply p = p := by
      simp [Op.apply, ha]
    rw [happ, logger_init_of_initialized p (h ha)]
  · have happ : (Op.log level file function line fmt args).apply p =
        logger_log level file function line fmt args p := by simp [Op.apply, Op.call, ha]
    rw [happ]
    exact (logger_log_spec level file function line fmt args p).1

/-! ## C8 : registration order and dispatch order -/

theorem ordered_fresh (clock : Nat → tm) : (Stamped.fresh clock).ordered := by
  refine ⟨0, by decide, ?_, ?_, ?_, ?_⟩
  · intro i; simp [Stamped.fresh, fresh, zero_state, zero_handler]
  · intro i hi; omega
  · intro i _; rfl
  · intro i j _ a b ha; simp [Stamped.fresh] at ha

/-- Every public call keeps the history consistent with the table. -/
theorem ordered_step (g : Stamped) (op : Op) (hg : g.ordered) : (g.step op).ordered := by
  obtain ⟨k, hk, hpre, hborn, hnone, hmono⟩ := hg
  rcases op_apply_cases op g.proc with
    ⟨hout, hini⟩ | ⟨i, f, u, l, hfi, hst⟩ | ⟨huninit, hst⟩ | ⟨-, -, hst⟩
  · -- the table and the flag are as before: the history is as before
    have hsame : (g.step op).born = g.born := by
      funext j
      simp only [Stamped.step, restamp, hout, hini]
      by_cases hj : j.val < k
      · have := (hpre j).2 hj
        simp [this]
      · have : (g.proc.logger_state.outputs j).active = false := by
          cases hact : (g.proc.logger_state.outputs j).active with
          | false => rfl
          | true => exact absurd ((hpre j).1 hact) hj
        simp [this, hnone j (by omega)]
    refine ⟨k, hk, ?_, ?_, ?_, ?_⟩
    · intro j
      show ((op.apply g.proc).logger_state.outputs j).active = true ↔ _
      rw [hout]; exact hpre j
    · intro j hj
      obtain ⟨a, ha, hlt⟩ := hborn j hj
      exact ⟨a, by rw [hsame]; exact ha, by show a < g.now + 1; omega⟩
    · intro j hj; rw [hsame]; exact hnone j hj
    · intro j j' hjj a b ha hb
      rw [hsame] at ha hb
      exact hmono j j' hjj a b ha hb
  · -- a registration filled slot `k`
    have hk16 : k < MAX_OUTPUTS := by
      by_contra hge
      have hfull : prefix_active g.proc.logger_state MAX_OUTPUTS := by
        have : k = MAX_OUTPUTS := by omega
        rw [← this]; exact hpre
      rw [prefix_active_full hfull] at hfi
      cases hfi
    have hi : i = ⟨k, hk16⟩ := by
      have := prefix_active_first_inactive hpre hk16
      rw [hfi] at this
      exact Option.some.inj this
    subst hi
    have hpre2 := prefix_active_set_output hpre hk16 f u l
    have hini : (set_output g.proc.logger_state ⟨k, hk16⟩ f u l).initialized =
        g.proc.logger_state.initialized := rfl
    have hb : ∀ j : Fin MAX_OUTPUTS, (g.step op).born j =
        if j.val < k then g.born j else if j.val = k then some g.now else none := by
      intro j
      simp only [Stamped.step, restamp, hst, hini]
      by_cases hj : j.val < k
      · have h1 := (hpre2 j).2 (by omega)
        have h2 := (hpre j).2 hj
        simp [h1, h2, hj]
      · by_cases hjk : j.val = k
        · have h1 := (hpre2 j).2 (by omega)
          have h2 : (g.proc.logger_state.outputs j).active = false := by
            cases hact : (g.proc.logger_state.outputs j).active with
            | false => rfl
            | true => exact absurd ((hpre j).1 hact) hj
          simp [h1, h2, hj, hjk]
        · have h1 : ((set_output g.proc.logger_state ⟨k, hk16⟩ f u l).outputs j).active
              = false := by
            cases hact : ((set_output g.proc.logger_state ⟨k, hk16⟩ f u l).outputs j).active with
            | false => rfl
            | true => exact absurd ((hpre2 j).1 hact) (by omega)
          simp [h1, hj, hjk]
    refine ⟨k + 1, hk16, ?_, ?_, ?_, ?_⟩
    · show prefix_active (op.apply g.proc).logger_state (k + 1)
      rw [hst]; exact hpre2
    · intro j hj
      rw [hb j]
      by_cases hjk : j.val < k
      · obtain ⟨a, ha, hlt⟩ := hborn j hjk
        exact ⟨a, by simp [hjk, ha], by show a < g.now + 1; omega⟩
      · have : j.val = k := by omega
        exact ⟨g.now, by simp [this], by show g.now < g.now + 1; omega⟩
    · intro j hj
      rw [hb j]
      have h1 : ¬ j.val < k := by omega
      have h2 : ¬ j.val = k := by omega
      simp [h1, h2]
    · intro j j' hjj a b ha hb'
      rw [hb j] at ha
      rw [hb j'] at hb'
      have hjj' : j.val < j'.val := hjj
      by_cases h1 : j'.val < k
      · have h0 : j.val < k := by omega
        rw [if_pos h0] at ha
        rw [if_pos h1] at hb'
        exact hmono j j' hjj a b ha hb'
      · by_cases h2 : j'.val = k
        · have h0 : j.val < k := by omega
          rw [if_pos h0] at ha
          rw [if_neg h1, if_pos h2] at hb'
          obtain ⟨a', ha', hlt⟩ := hborn j h0
          rw [ha] at ha'
          cases ha'
          cases hb'
          exact hlt
        · rw [if_neg h1, if_neg h2] at hb'
          cases hb'
  · -- the body of `logger_init` ran
    have hact : ∀ j : Fin MAX_OUTPUTS,
        ((op.apply g.proc).logger_state.outputs j).active = true ↔ j.val < 1 := by
      intro j
      rw [hst]
      by_cases hj : j = 0
      · subst hj; simp [default_state, default_console]
      · have : j.val ≠ 0 := fun h0 => hj (Fin.ext h0)
        simp [default_state, Function.update_noteq hj, zero_handler]
        omega
    have hini : (op.apply g.proc).logger_state.initialized = true := by rw [hst]; rfl
    have hb : ∀ j : Fin MAX_OUTPUTS, (g.step op).born j =
        if j.val < 1 then some g.now else none := by
      intro j
      simp only [Stamped.step, restamp, huninit, hini]
      by_cases hj : j.val < 1
      · simp [(hact j).2 hj, hj]
      · have : ((op.apply g.proc).logger_state.outputs j).active = false := by
          cases h : ((op.apply g.proc).logger_state.outputs j).active with
          | false => rfl
          | true => exact absurd ((hact j).1 h) hj
        simp [this, hj]
    refine ⟨1, by decide, hact, ?_, ?_, ?_⟩
    · intro j hj
      exact ⟨g.now, by rw [hb j]; simp [hj], by show g.now < g.now + 1; omega⟩
    · intro j hj
      rw [hb j]
      have : ¬ j.val < 1 := by omega
      simp [this]
    · intro j j' hjj a b ha hb'
      rw [hb j'] at hb'
      have hjj' : j.val < j'.val := hjj
      have : ¬ j'.val < 1 := by omega
      simp [this] at hb'
  · -- `logger_cleanup` zeroed the state
    have hact : ∀ j : Fin MAX_OUTPUTS,
        ((op.apply g.proc).logger_state.outputs j).active = false := by
      intro j; rw [hst]; rfl
    have hb : ∀ j : Fin MAX_OUTPUTS, (g.step op).born j = none := by
      intro j
      simp [Stamped.step, restamp, hact j]
    refine ⟨0, by decide, ?_, ?_, ?_, ?_⟩
    · intro j
      show ((op.apply g.proc).logger_state.outputs j).active = true ↔ _
      rw [hact j]; simp
    · intro j hj; omega
    · intro j _; exact hb j
    · intro j j' _ a b ha; rw [hb j] at ha; cases ha

theorem ordered_run (ops : List Op) : ∀ g : Stamped, g.ordered → (Stamped.run ops g).ordered := by
  induction ops with
  | nil => intro g hg; exact hg
  | cons op ops ih => intro g hg; exact ih (g.step op) (ordered_step g op hg)

theorem stamped_run_proc (ops : List Op) :
    ∀ g : Stamped, (Stamped.run ops g).proc = run ops g.proc := by
  induction ops with
  | nil => intro g; rfl
  | cons op ops ih => intro g; exact ih (g.step op)

theorem sublist_pair_of_pairwise_lt {l : List (Fin MAX_OUTPUTS)} (hl : l.Pairwise (· < ·))
    {i j : Fin MAX_OUTPUTS} (hi : i ∈ l) (hj : j ∈ l) (hij : i < j) : [i, j].Sublist l := by
  induction l with
  | nil => cases hi
  | cons x xs ih =>
    obtain ⟨hx, hxs⟩ := List.pairwise_cons.1 hl
    rcases List.mem_cons.1 hi with hix | hixs
    · rcases List.mem_cons.1 hj with hjx | hjxs
      · rw [hix, hjx] at hij; exact absurd hij (lt_irrefl _)
      · rw [hix]; exact List.Sublist.cons₂ _ (List.singleton_sublist.2 hjxs)
    · rcases List.mem_cons.1 hj with hjx | hjxs
      · have := hx i hixs
        rw [hjx] at hij
        exact absurd this (not_lt_of_gt hij)
      · exact List.Sublist.cons _ (ih hxs hixs hjxs)

/-- C8: take any execution that starts with `logger_init` in a fresh process and
continues with any public calls, followed by one `logger_log` call.  Every slot this
`logger_log` calls holds a sink with a recorded registration call, and whenever the sink
of slot `i` was registered by an earlier call than the sink of slot `j` and both are
called, `i` is called before `j`. -/
theorem C8_registration_order_is_dispatch_order (clock : Nat → tm) (ops : List Op)
    (level : log_level_t) (file function : Option String) (line : Int)
    (fmt : Option String) (args : List va_arg) :
    (Stamped.run (Op.init :: ops) (Stamped.fresh clock)).proc =
        run ops (logger_init (fresh clock)) ∧
    (∀ i ∈ invoked_slots (new_effects (run ops (logger_init (fresh clock)))
          (logger_log level file function line fmt args (run ops (logger_init (fresh clock))))),
      ((Stamped.run (Op.init :: ops ++ [Op.log level file function line fmt args])
          (Stamped.fresh clock)).born i).isSome = true) ∧
    (∀ (i j : Fin MAX_OUTPUTS) (a b : Nat),
      (Stamped.run (Op.init :: ops ++ [Op.log level file function line fmt args])
          (Stamped.fresh clock)).born i = some a →
      (Stamped.run (Op.init :: ops ++ [Op.log level file function line fmt args])
          (Stamped.fresh clock)).born j = some b →
      a < b →
      i ∈ invoked_slots (new_effects (run ops (logger_init (fresh clock)))
          (logger_log level file function line fmt args (run ops (logger_init (fresh clock))))) →
      j ∈ invoked_slots (new_effects (run ops (logger_init (fresh clock)))
          (logger_log level file function line fmt args (run ops (logger_init (fresh clock))))) →
      [i, j].Sublist (invoked_slots (new_effects (run ops (logger_init (fresh clock)))
          (logger_log level file function line fmt args
            (run ops (logger_init (fresh clock))))))) := by
  have hproc : (Stamped.run (Op.init :: ops) (Stamped.fresh clock)).proc =
      run ops (logger_init (fresh clock)) := by
    rw [stamped_run_proc]; rfl
  have hord := ordered_run (Op.init :: ops ++ [Op.log level file function line fmt args])
    (Stamped.fresh clock) (ordered_fresh clock)
  have halive : (run ops (logger_init (fresh clock))).aborted = true →
      (run ops (logger_init (fresh clock))).logger_state.initialized = true :=
    run_aborted ops _ (fun _ => logger_init_initialized _)
  have hfinal : (Stamped.run (Op.init :: ops ++ [Op.log level file function line fmt args])
      (Stamped.fresh clock)).proc.logger_state =
      (logger_init (run ops (logger_init (fresh clock)))).logger_state := by
    rw [stamped_run_proc, ← log_apply_state level file function line fmt args _ halive]
    simp only [run, List.cons_append, List.foldl_cons, List.foldl_append, List.foldl_nil]
    rfl
  obtain ⟨k, -, hpre, hborn, -, hmono⟩ := hord
  rw [hfinal] at hpre
  obtain ⟨-, heff⟩ := logger_log_spec level file function line fmt args
    (run ops (logger_init (fresh clock)))
  have hinv := congrArg invoked_slots heff
  rw [invoked_slots_log_effects] at hinv
  have hmem : ∀ i, i ∈ invoked_slots (new_effects (run ops (logger_init (fresh clock)))
      (logger_log level file function line fmt args (run ops (logger_init (fresh clock))))) →
      i.val < k := by
    intro i hi
    rw [hinv] at hi
    split at hi
    · cases hi
    · have := (List.mem_filter.1 ((dispatched_sublist _ _ _ _ _ _).subset hi)).2
      simp only [passes, Bool.and_eq_true] at this
      exact (hpre i).1 this.1
  have hsorted : (invoked_slots (new_effects (run ops (logger_init (fresh clock)))
      (logger_log level file function line fmt args
        (run ops (logger_init (fresh clock)))))).Pairwise (· < ·) := by
    rw [hinv]
    split
    · exact List.Pairwise.nil
    · exact ((List.pairwise_lt_finRange MAX_OUTPUTS).filter _).sublist
        (dispatched_sublist _ _ _ _ _ _)
  refine ⟨hproc, ?_, ?_⟩
  · intro i hi
    obtain ⟨a, ha, -⟩ := hborn i (hmem i hi)
    rw [ha]; rfl
  · intro i j a b ha hb hab hi hj
    have hij : i < j := by
      rcases lt_trichotomy i j with h | h | h
      · exact h
      · subst h; rw [ha] at hb; cases hb; exact absurd hab (lt_irrefl _)
      · exact absurd (hmono j i h b a hb ha) (not_lt_of_gt hab)
    exact sublist_pair_of_pairwise_lt hsorted hi hj hij

/-- C8, instance: `logger_init`, then a custom registration, then an INFO event: the
default console sink (registered by call 0, slot 0) is called before the custom sink
(registered by call 1, slot 1). -/
theorem C8_registration_order_is_dispatch_order_witness :
    [(0 : Fin MAX_OUTPUTS), 1].Sublist
      (invoked_slots (new_effects
        (run [.add (.custom (.custom 1) .null LOG_LEVEL_TRACE)]
          (logger_init (fresh (fun _ => sample_tm))))
        (logger_log LOG_LEVEL_INFO (some "main.c") (some "main") 10 (some "hello") []
          (run [.add (.custom (.custom 1) .null LOG_LEVEL_TRACE)]
            (logger_init (fresh (fun _ => sample_tm))))))) :=
  (C8_registration_order_is_dispatch_order (fun _ => sample_tm)
    [.add (.custom (.custom 1) .null LOG_LEVEL_TRACE)]
    LOG_LEVEL_INFO (some "main.c") (some "main") 10 (some "hello") []).2.2
    0 1 0 1 (by decide) (by decide) (by decide) (by decide) (by decide)

/-! ## C15 - C18 : level names -/

theorem tolower_idem (c : Char) : tolower (tolower c) = tolower c := by
  unfold tolower
  by_cases h : 65 ≤ c.toNat ∧ c.toNat ≤ 90
  · have hc : c = Char.ofNat c.toNat := (Char.ofNat_toNat c).symm
    obtain ⟨h1, h2⟩ := h
    generalize c.toNat = n at *
    subst hc
    interval_cases n <;> decide
  · simp [h]

theorem tolower_swap_case (c : Char) : tolower (swap_case c) = tolower c := by
  unfold swap_case
  by_cases h : 65 ≤ c.toNat ∧ c.toNat ≤ 90
  · rw [if_pos h]; exact tolower_idem c
  · rw [if_neg h]
    unfold toupper
    by_cases h2 : 97 ≤ c.toNat ∧ c.toNat ≤ 122
    · rw [if_pos h2]
      have hc : c = Char.ofNat c.toNat := (Char.ofNat_toNat c).symm
      obtain ⟨h3, h4⟩ := h2
      generalize c.toNat = n at *
      subst hc
      interval_cases n <;> decide
    · rw [if_neg h2]

theorem map_tolower_change_case (mask : List Bool) (l : List Char) :
    (change_case mask l).map tolower = l.map tolower := by
  induction l generalizing mask with
  | nil => cases mask <;> simp [change_case]
  | cons c cs ih =>
    cases mask with
    | nil => rfl
    | cons b m =>
      cases b
      · simp [change_case, ih]
      · simp [change_case, ih, tolower_swap_case]

/-- The model of `strcasecmp` returns 0 exactly on strings equal up to case. -/
theorem strcasecmp_chars_eq_zero (a : List Char) :
    ∀ b : List Char, strcasecmp_chars a b = 0 ↔ a.map tolower = b.map tolower := by
  induction a with
  | nil => intro b; cases b <;> simp [strcasecmp_chars]
  | cons c cs ih =>
    intro b
    cases b with
    | nil => simp [strcasecmp_chars]
    | cons d ds =>
      by_cases h : tolower c = tolower d
      · simp [strcasecmp_chars, h, ih ds]
      · by_cases h2 : (tolower c).toNat < (tolower d).toNat <;>
          simp [strcasecmp_chars, h, h2]

theorem strcasecmp_eq_zero (a b : String) : strcasecmp a b = 0 ↔ caseless_eq a b :=
  strcasecmp_chars_eq_zero a.toList b.toList

/-- The search loop of `logger_string_to_level` on a string equal up to case to the
`i`-th name: no earlier name matches, so the result is `i`. -/
theorem logger_string_to_level_of_caseless_eq (s : String) (i : Fin 6)
    (h : caseless_eq s (level_strings i)) : logger_string_to_level (some s) = i.val := by
  have hdiff : ∀ j k : Fin 6, caseless_eq (level_strings j) (level_strings k) → j = k := by
    unfold caseless_eq; decide
  have hfind : (List.finRange 6).find? (fun j => strcasecmp s (level_strings j) == 0) =
      some i := by
    rw [List.find?_eq_some]
    refine ⟨by simpa using (strcasecmp_eq_zero s (level_strings i)).2 h, ?_⟩
    have hmem : i ∈ List.finRange 6 := List.mem_finRange i
    obtain ⟨as, bs, hsplit⟩ := List.append_of_mem hmem
    refine ⟨as, bs, hsplit, ?_⟩
    intro j hj
    have hnd : (as ++ i :: bs).Nodup := by rw [← hsplit]; exact List.nodup_finRange 6
    have hji : j ≠ i := by
      intro hji
      subst hji
      have := (List.nodup_append.1 hnd).2.2
      exact this hj (List.mem_cons_self _ _)
    have hne : ¬ strcasecmp s (level_strings j) = 0 := by
      intro h0
      have h1 := (strcasecmp_eq_zero s (level_strings j)).1 h0
      exact hji (hdiff j i (by unfold caseless_eq at h h1 ⊢; rw [← h1, h]))
    simpa using hne
  simp [logger_string_to_level, hfind]

/-- C15: for every valid severity `s` in 0..5 (TRACE..FATAL),
`logger_string_to_level(logger_level_to_string(s)) == s`. -/
theorem C15_level_round_trip (s : log_level_t) (hs : 0 ≤ s ∧ s ≤ 5) :
    logger_string_to_level (some (logger_level_to_string s)) = s := by
  obtain ⟨h0, h5⟩ := hs
  interval_cases s <;> decide

/-- C15, instance: WARN. -/
theorem C15_level_round_trip_witness :
    logger_string_to_level (some (logger_level_to_string LOG_LEVEL_WARN)) = LOG_LEVEL_WARN :=
  C15_level_round_trip LOG_LEVEL_WARN (by decide)

/-- C16: `logger_level_to_string` is total: it returns "TRACE", "DEBUG", "INFO", "WARN",
"ERROR", "FATAL" for 0..5 and "UNKNOWN" for every other value, negative `int`
arguments included (as `logger_level_to_string(-1)` of the tests), which reach the
function as `level_of_int`. -/
theorem C16_level_to_string_total :
    logger_level_to_string 0 = "TRACE" ∧ logger_level_to_string 1 = "DEBUG" ∧
    logger_level_to_string 2 = "INFO" ∧ logger_level_to_string 3 = "WARN" ∧
    logger_level_to_string 4 = "ERROR" ∧ logger_level_to_string 5 = "FATAL" ∧
    (∀ level : log_level_t, (level < 0 ∨ 5 < level) →
      logger_level_to_string level = "UNKNOWN") ∧
    (∀ i : Int, -2147483648 ≤ i ∧ i ≤ 2147483647 → (i < 0 ∨ 5 < i) →
      logger_level_to_string (level_of_int i) = "UNKNOWN") := by
  have hbig : ∀ level : log_level_t, 5 < level → logger_level_to_string level = "UNKNOWN" := by
    intro level h
    have h5 : (5 : Nat) < level := h
    have : ¬ (level ≥ 0 ∧ level < 6) := fun h2 => by
      have h6 : (6 : Nat) > level := h2.2
      omega
    unfold logger_level_to_string
    rw [dif_neg this]
  refine ⟨by decide, by decide, by decide, by decide, by decide, by decide, ?_, ?_⟩
  · intro level h
    rcases h with h | h
    · exact absurd h (Nat.not_lt_zero level)
    · exact hbig level h
  · intro i hi h
    apply hbig
    show (5 : Nat) < (i % 4294967296).toNat
    omega

/-- C17: for every canonical level name and every string obtained from it by changing
the case of any subset of its letters, `logger_string_to_level` returns that name's
severity. -/
theorem C17_string_to_level_case_insensitive (i : Fin 6) (mask : List Bool) :
    logger_string_to_level (some (String.mk (change_case mask (level_strings i).toList))) =
      i.val := by
  apply logger_string_to_level_of_caseless_eq
  unfold caseless_eq
  exact map_tolower_change_case mask (level_strings i).toList

/-- C18: `logger_string_to_level` returns INFO for NULL, for the empty string, and for
every string that is not equal up to case to any of the six canonical names. -/
theorem C18_string_to_level_default :
    logger_string_to_level none = LOG_LEVEL_INFO ∧
    logger_string_to_level (some "") = LOG_LEVEL_INFO ∧
    ∀ s : String, (∀ i : Fin 6, ¬ caseless_eq s (level_strings i)) →
      logger_string_to_level (some s) = LOG_LEVEL_INFO := by
  refine ⟨rfl, by decide, ?_⟩
  intro s hs
  have hfind : (List.finRange 6).find? (fun j => strcasecmp s (level_strings j) == 0) =
      none := by
    rw [List.find?_eq_none]
    intro j _
    have : ¬ strcasecmp s (level_strings j) = 0 := fun h0 =>
      hs j ((strcasecmp_eq_zero s (level_strings j)).1 h0)
    simpa using this
  simp [logger_string_to_level, hfind]

/-- C18, instance: the string "INVALID". -/
theorem C18_string_to_level_default_witness :
    logger_string_to_level (some "INVALID") = LOG_LEVEL_INFO :=
  C18_string_to_level_default.2.2 "INVALID" (by unfold caseless_eq; decide)

/-- C17, instance: "Error" is "ERROR" with the case of its last four letters changed. -/
theorem C17_string_to_level_case_insensitive_witness :
    String.mk (change_case [false, true, true, true, true] (level_strings 4).toList) = "Error" ∧
    logger_string_to_level
      (some (String.mk (change_case [false, true, true, true, true] (level_strings 4).toList))) =
      LOG_LEVEL_ERROR :=
  ⟨by decide, C17_string_to_level_case_insensitive 4 [false, true, true, true, true]⟩

/-! ## C11, C12 : `logger_cleanup` -/

/-- C13: for every uninitialised logger state and every argument list, `logger_log`
yields the same process (same effects, hence same sink invocations, and same final
state) as `logger_init` followed by the same `logger_log` call. -/
theorem C13_log_initialises_lazily (level : log_level_t) (file function : Option String)
    (line : Int) (fmt : Option String) (args : List va_arg) (p : Process)
    (huninit : p.logger_state.initialized = false) :
    logger_log level file function line fmt args p =
      logger_log level file function line fmt args (logger_init p) ∧
    new_effects p (logger_log level file function line fmt args p) =
      new_effects (logger_init p) (logger_log level file function line fmt args (logger_init p)) ∧
    (logger_log level file function line fmt args p).logger_state =
      (logger_log level file function line fmt args (logger_init p)).logger_state ∧
    (logger_init p).logger_state.initialized = true := by
  have h := logger_log_lazy level file function line fmt args p
  refine ⟨h, ?_, by rw [← h], ?_⟩
  · rw [← h]; simp [new_effects, logger_init_trace]
  · rw [logger_init_of_uninitialized p huninit]

/-- C13, instance: an INFO event logged in a fresh process reaches the default console
sink, as it does after an explicit `logger_init`. -/
theorem C13_log_initialises_lazily_witness :
    invoked_slots (new_effects (fresh (fun _ => sample_tm))
      (logger_log LOG_LEVEL_INFO (some "main.c") (some "main") 10 (some "hello") []
        (fresh (fun _ => sample_tm)))) = [0] := by
  rw [(C13_log_initialises_lazily LOG_LEVEL_INFO (some "main.c") (some "main") 10
    (some "hello") [] (fresh (fun _ => sample_tm)) (by decide)).2.1]
  decide

/-- A setter or registration never changes the initialized flag. -/
theorem setter_or_registration_initialized (op : Op) (p : Process)
    (hop : op.is_setter_or_registration = true) :
    (op.apply p).logger_state.initialized = p.logger_state.initialized := by
  have hreg : ∀ f u l, (logger_add_custom_output f u l p).2.logger_state.initialized =
      p.logger_state.initialized := by
    intro f u l
    rcases logger_add_custom_output_cases f u l p with
      ⟨-, heq⟩ | ⟨-, -, -, hst⟩ | ⟨-, i, -, -, hst⟩
    · rw [heq]
    · rw [hst]
    · rw [hst]; rfl
  by_cases ha : p.aborted = true
  · simp [Op.apply, ha]
  have happ : op.apply p = op.call p := by simp [Op.apply, ha]
  rw [happ]
  cases op with
  | init => cases hop
  | cleanup => cases hop
  | log level file function line fmt args => cases hop
  | set_level l =>
    simp [Op.call, logger_set_level, unlock_logger_state, lock_logger_state]
  | set_quiet b =>
    simp [Op.call, logger_set_quiet, unlock_logger_state, lock_logger_state]
  | set_colors b =>
    simp [Op.call, logger_set_colors, unlock_logger_state, lock_logger_state]
  | set_show_file_line b =>
    simp [Op.call, logger_set_show_file_line, unlock_logger_state, lock_logger_state]
  | set_show_function b =>
    simp [Op.call, logger_set_show_function, unlock_logger_state, lock_logger_state]
  | set_lock f u =>
    simp [Op.call, logger_set_lock, unlock_logger_state, lock_logger_state]
  | add r =>
    cases r with
    | console level => exact hreg _ _ _
    | file fl level =>
      by_cases hf : fl = .null
      · simp [Op.call, register, logger_add_file_output, hf]
      · simp only [Op.call, register, logger_add_file_output, hf, if_false]
        exact hreg _ _ _
    | custom f u l => exact hreg _ _ _

/-- The slots a `logger_log` call reaches right after `logger_init`'s defaults. -/
theorem invoked_default_state (level : log_level_t) (ev : log_event_t) (t : tm)
    (args : List va_arg) :
    (if level < default_state.config.level then []
      else dispatched default_state level ev t args (List.finRange MAX_OUTPUTS)) =
    if level < LOG_LEVEL_INFO then [] else [0] := by
  by_cases h : level < LOG_LEVEL_INFO
  · have h' : level < default_state.config.level := h
    rw [if_pos h, if_pos h']
  · have h' : ¬ level < default_state.config.level := h
    rw [if_neg h, if_neg h']
    have hcongr : (List.finRange MAX_OUTPUTS).filter (passes default_state level) =
        (List.finRange MAX_OUTPUTS).filter (fun i => (default_state.outputs i).active) := by
      apply List.filter_congr
      intro i _
      by_cases hi : i = 0
      · subst hi
        simp [passes, default_state, default_console, LOG_LEVEL_TRACE]
      · simp [passes, default_state, Function.update_noteq hi, zero_handler]
    have hfilter : (List.finRange MAX_OUTPUTS).filter (passes default_state level) = [0] := by
      rw [hcongr]; decide
    unfold dispatched
    rw [hfilter]
    unfold upto_stop
    split <;> rfl

/-- C14, evaluated at the failing input: in a fresh process `logger_add_custom_output`
leaves the logger uninitialised, whereas after `logger_init` it is initialised; and the
following `logger_log` call, which runs `logger_init` lazily, calls the default console
sink only: the custom sink registered before is gone, while with `logger_init` first it
is called too. -/
theorem C14_registration_does_not_initialise :
    (logger_add_custom_output (.custom 1) .null LOG_LEVEL_TRACE
      (fresh (fun _ => sample_tm))).2.logger_state.initialized = false ∧
    (logger_add_custom_output (.custom 1) .null LOG_LEVEL_TRACE
      (logger_init (fresh (fun _ => sample_tm)))).2.logger_state.initialized = true ∧
    invoked_fns (new_effects
      (logger_add_custom_output (.custom 1) .null LOG_LEVEL_TRACE (fresh (fun _ => sample_tm))).2
      (logger_log LOG_LEVEL_INFO (some "main.c") (some "main") 10 (some "hello") []
        (logger_add_custom_output (.custom 1) .null LOG_LEVEL_TRACE
          (fresh (fun _ => sample_tm))).2)) = [.logger_console_output] ∧
    invoked_fns (new_effects
      (logger_add_custom_output (.custom 1) .null LOG_LEVEL_TRACE
        (logger_init (fresh (fun _ => sample_tm)))).2
      (logger_log LOG_LEVEL_INFO (some "main.c") (some "main") 10 (some "hello") []
        (logger_add_custom_output (.custom 1) .null LOG_LEVEL_TRACE
          (logger_init (fresh (fun _ => sample_tm)))).2)) =
      [.logger_console_output, .custom 1] := by
  decide

/-- What the code does in place of auto-initialisation: on an uninitialised logger a
setter or registration leaves the logger uninitialised, and the `logger_init` that a
following `logger_log` runs lazily resets configuration and table: after that
`logger_log` the state is the one `logger_init` builds, and the slots it calls are those
called had the setter or registration not been made (none below INFO, else the default
console sink of slot 0). -/
theorem uninitialised_setter_then_log (op : Op) (p : Process)
    (level : log_level_t) (file function : Option String) (line : Int)
    (fmt : Option String) (args : List va_arg)
    (hop : op.is_setter_or_registration = true)
    (huninit : p.logger_state.initialized = false) :
    (op.apply p).logger_state.initialized = false ∧
    (logger_log level file function line fmt args (op.apply p)).logger_state = default_state ∧
    invoked_slots (new_effects (op.apply p)
        (logger_log level file function line fmt args (op.apply p))) =
      invoked_slots (new_effects p (logger_log level file function line fmt args p)) ∧
    invoked_slots (new_effects (op.apply p)
        (logger_log level file function line fmt args (op.apply p))) =
      if level < LOG_LEVEL_INFO then [] else [0] := by
  have hu : (op.apply p).logger_state.initialized = false := by
    rw [setter_or_registration_initialized op p hop]; exact huninit
  obtain ⟨hs1, hi1⟩ := logger_log_spec level file function line fmt args (op.apply p)
  obtain ⟨-, hi2⟩ := logger_log_spec level file function line fmt args p
  rw [logger_init_state_of_uninitialized _ hu] at hs1 hi1
  rw [logger_init_state_of_uninitialized _ huninit] at hi2
  have h1 := invoked_default_state level (call_event level file function line fmt)
    ((op.apply p).clock (op.apply p).ticks) args
  have h2 := invoked_default_state level (call_event level file function line fmt)
    (p.clock p.ticks) args
  refine ⟨hu, hs1, ?_, ?_⟩
  · rw [hi1, hi2, invoked_slots_log_effects, invoked_slots_log_effects, h1, h2]
  · rw [hi1, invoked_slots_log_effects, h1]

/-- Instance: `logger_set_level(ERROR)` in a fresh process does not keep an INFO event
from the default console sink. -/
theorem uninitialised_setter_then_log_instance :
    invoked_slots (new_effects ((Op.set_level LOG_LEVEL_ERROR).apply (fresh (fun _ => sample_tm)))
      (logger_log LOG_LEVEL_INFO (some "main.c") (some "main") 10 (some "hello") []
        ((Op.set_level LOG_LEVEL_ERROR).apply (fresh (fun _ => sample_tm))))) = [0] :=
  (uninitialised_setter_then_log (.set_level LOG_LEVEL_ERROR) (fresh (fun _ => sample_tm))
    LOG_LEVEL_INFO (some "main.c") (some "main") 10 (some "hello") []
    (by decide) (by decide)).2.2.2

theorem logger_log_state_of_initialized (level : log_level_t) (file function : Option String)
    (line : Int) (fmt : Option String) (args : List va_arg) (p : Process)
    (hinit : p.logger_state.initialized = true) :
    (logger_log level file function line fmt args p).logger_state = p.logger_state := by
  rw [(logger_log_spec level file function line fmt args p).1,
    logger_init_of_initialized p hinit]

theorem logger_set_level_state (v : log_level_t) (p : Process) :
    (logger_set_level v p).logger_state =
      { p.logger_state with config := { p.logger_state.config with level := v } } := by
  simp [logger_set_level, unlock_logger_state, lock_logger_state]

theorem logger_set_quiet_state (b : Bool) (p : Process) :
    (logger_set_quiet b p).logger_state =
      { p.logger_state with config := { p.logger_state.config with quiet := b } } := by
  simp [logger_set_quiet, unlock_logger_state, lock_logger_state]

theorem logger_set_colors_state (b : Bool) (p : Process) :
    (logger_set_colors b p).logger_state =
      { p.logger_state with config := { p.logger_state.config with use_colors := b } } := by
  simp [logger_set_colors, unlock_logger_state, lock_logger_state]

theorem logger_set_show_file_line_state (b : Bool) (p : Process) :
    (logger_set_show_file_line b p).logger_state =
      { p.logger_state with config := { p.logger_state.config with show_file_line := b } } := by
  simp [logger_set_show_file_line, unlock_logger_state, lock_logger_state]

theorem logger_set_show_function_state (b : Bool) (p : Process) :
    (logger_set_show_function b p).logger_state =
      { p.logger_state with config := { p.logger_state.config with show_function := b } } := by
  simp [logger_set_show_function, unlock_logger_state, lock_logger_state]

/-- A level set before any `logger_init` is lost: in a fresh process
`logger_set_level(ERROR)` writes the level, but the very next `logger_log` call, at INFO,
is not filtered by it: the lazy `logger_init` resets the level to INFO and the default
console sink is called. -/
theorem level_set_before_init_is_reset :
    (logger_set_level LOG_LEVEL_ERROR (fresh (fun _ => sample_tm))).logger_state.config.level =
      LOG_LEVEL_ERROR ∧
    invoked_slots (new_effects (logger_set_level LOG_LEVEL_ERROR (fresh (fun _ => sample_tm)))
      (logger_log LOG_LEVEL_INFO (some "main.c") (some "main") 10 (some "hello") []
        (logger_set_level LOG_LEVEL_ERROR (fresh (fun _ => sample_tm))))) = [0] ∧
    (logger_log LOG_LEVEL_INFO (some "main.c") (some "main") 10 (some "hello") []
      (logger_set_level LOG_LEVEL_ERROR (fresh (fun _ => sample_tm)))).logger_state.config.level =
      LOG_LEVEL_INFO := by
  decide

/-- The part of the setters' contract the code keeps: each of `logger_set_level`,
`logger_set_quiet`, `logger_set_colors`, `logger_set_show_file_line` and
`logger_set_show_function` writes the given value to exactly its own configuration field
and leaves every other configuration field, the lock adapter, the initialized flag and
the whole sink table unchanged; on an initialised logger the very next `logger_log` call
leaves that state as written, and a new minimum level is the threshold of that call's
global filter: below it no slot is called, from it on the passing slots are. -/
theorem setters_write_own_field (p : Process) (v : log_level_t) (b : Bool) :
    (logger_set_level v p).logger_state =
      { p.logger_state with config := { p.logger_state.config with level := v } } ∧
    (logger_set_quiet b p).logger_state =
      { p.logger_state with config := { p.logger_state.config with quiet := b } } ∧
    (logger_set_colors b p).logger_state =
      { p.logger_state with config := { p.logger_state.config with use_colors := b } } ∧
    (logger_set_show_file_line b p).logger_state =
      { p.logger_state with config := { p.logger_state.config with show_file_line := b } } ∧
    (logger_set_show_function b p).logger_state =
      { p.logger_state with config := { p.logger_state.config with show_function := b } } ∧
    (p.logger_state.initialized = true →
      ∀ (level : log_level_t) (file function : Option String) (line : Int)
        (fmt : Option String) (args : List va_arg),
        (logger_log level file function line fmt args (logger_set_level v p)).logger_state =
          (logger_set_level v p).logger_state ∧
        invoked_slots (new_effects (logger_set_level v p)
            (logger_log level file function line fmt args (logger_set_level v p))) =
          (if level < v then []
           else dispatched (logger_set_level v p).logger_state level
             (call_event level file function line fmt)
             ((logger_set_level v p).clock (logger_set_level v p).ticks) args
             (List.finRange MAX_OUTPUTS)) ∧
        (logger_log level file function line fmt args (logger_set_quiet b p)).logger_state =
          (logger_set_quiet b p).logger_state ∧
        (logger_log level file function line fmt args (logger_set_colors b p)).logger_state =
          (logger_set_colors b p).logger_state ∧
        (logger_log level file function line fmt args
            (logger_set_show_file_line b p)).logger_state =
          (logger_set_show_file_line b p).logger_state ∧
        (logger_log level file function line fmt args
            (logger_set_show_function b p)).logger_state =
          (logger_set_show_function b p).logger_state) := by
  refine ⟨logger_set_level_state v p, logger_set_quiet_state b p, logger_set_colors_state b p,
    logger_set_show_file_line_state b p, logger_set_show_function_state b p, ?_⟩
  intro hinit level file function line fmt args
  have h1 : (logger_set_level v p).logger_state.initialized = true := by
    rw [logger_set_level_state]; exact hinit
  have h2 : (logger_set_quiet b p).logger_state.initialized = true := by
    rw [logger_set_quiet_state]; exact hinit
  have h3 : (logger_set_colors b p).logger_state.initialized = true := by
    rw [logger_set_colors_state]; exact hinit
  have h4 : (logger_set_show_file_line b p).logger_state.initialized = true := by
    rw [logger_set_show_file_line_state]; exact hinit
  have h5 : (logger_set_show_function b p).logger_state.initialized = true := by
    rw [logger_set_show_function_state]; exact hinit
  refine ⟨logger_log_state_of_initialized _ _ _ _ _ _ _ h1, ?_,
    logger_log_state_of_initialized _ _ _ _ _ _ _ h2,
    logger_log_state_of_initialized _ _ _ _ _ _ _ h3,
    logger_log_state_of_initialized _ _ _ _ _ _ _ h4,
    logger_log_state_of_initialized _ _ _ _ _ _ _ h5⟩
  rw [logger_log_invoked level file function line fmt args _ h1]
  have hv : (logger_set_level v p).logger_state.config.level = v := by
    rw [logger_set_level_state]
  rw [hv]

/-- Instance: after `logger_init`, `logger_set_level(WARN)` keeps an INFO event from
every sink. -/
theorem setters_write_own_field_instance :
    invoked_slots (new_effects
      (logger_set_level LOG_LEVEL_WARN (logger_init (fresh (fun _ => sample_tm))))
      (logger_log LOG_LEVEL_INFO (some "main.c") (some "main") 10 (some "hello") []
        (logger_set_level LOG_LEVEL_WARN (logger_init (fresh (fun _ => sample_tm)))))) = [] := by
  rw [((setters_write_own_field (logger_init (fresh (fun _ => sample_tm)))
    LOG_LEVEL_WARN true).2.2.2.2.2 (by decide)
    LOG_LEVEL_INFO (some "main.c") (some "main") 10 (some "hello") []).2.1]
  decide

/-- C19, evaluated at the failing input `logger_init(); logger_set_quiet(true);` and one
`logger_log` at INFO: the setter wrote `quiet = true` and nothing else (the configuration
is the default one with `quiet` set, one sink is active), yet the value does not govern
the next `logger_log` call, which calls the default console sink as if quiet were off. -/
theorem C19_quiet_written_but_not_consulted :
    (logger_set_quiet true (logger_init (fresh (fun _ => sample_tm)))).logger_state.config =
      { default_config with quiet := true } ∧
    active_count (logger_set_quiet true (logger_init (fresh (fun _ => sample_tm)))).logger_state = 1 ∧
    invoked_fns (new_effects
      (logger_set_quiet true (logger_init (fresh (fun _ => sample_tm))))
      (logger_log LOG_LEVEL_INFO (some "main.c") (some "main") 10 (some "hello") []
        (logger_set_quiet true (logger_init (fresh (fun _ => sample_tm)))))) =
      [.logger_console_output] ∧
    invoked_fns (new_effects
      (logger_set_quiet false (logger_init (fresh (fun _ => sample_tm))))
      (logger_log LOG_LEVEL_INFO (some "main.c") (some "main") 10 (some "hello") []
        (logger_set_quiet false (logger_init (fresh (fun _ => sample_tm)))))) =
      [.logger_console_output] := by
  decide

/-! ## C20 : the timestamp of a `logger_log` call -/

theorem call_times_append (a b : List Effect) :
    call_times (a ++ b) = call_times a ++ call_times b := by
  induction a with
  | nil => rfl
  | cons e es ih => cases e <;> simp [call_times, ih]

theorem call_times_lock_effects (c : log_config_t) (b : Bool) :
    call_times (lock_effects c b) = [] := by
  unfold lock_effects; split <;> rfl

theorem call_times_length (E : List Effect) :
    (call_times E).length = (invoked_slots E).length := by
  induction E with
  | nil => rfl
  | cons e es ih => cases e <;> simp [call_times, invoked_slots, ih]

theorem call_times_dispatch_effects (s : logger_state_t) (level : log_level_t)
    (ev : log_event_t) (t : tm) (args : List va_arg) (l : List (Fin MAX_OUTPUTS)) :
    call_times (dispatch_effects s level ev t args l) =
      (dispatched s level ev t args l).map (fun i => (sent_event s ev t args i).time) := by
  have hmap : ∀ m : List (Fin MAX_OUTPUTS), call_times (m.map
      (fun i => Effect.output_call i (s.outputs i).output_fn (sent_event s ev t args i))) =
      m.map (fun i => (sent_event s ev t args i).time) := by
    intro m
    induction m with
    | nil => rfl
    | cons x xs ih => simp [call_times, ih]
  unfold dispatch_effects
  rw [call_times_append, hmap]
  split <;> simp [call_times]

/-- The event times of a `logger_log` call on an initialised logger: the one clock
reading of the call. -/
theorem call_times_log_effects (s : logger_state_t) (t : tm) (level : log_level_t)
    (file function : Option String) (line : Int) (fmt : Option String)
    (args : List va_arg) :
    ∀ x ∈ call_times (log_effects s t level file function line fmt args), x = some t := by
  intro x hx
  unfold log_effects at hx
  by_cases hlt : level < s.config.level
  · simp [hlt, call_times_append, call_times_lock_effects] at hx
  · simp only [hlt, if_false, call_times_append, call_times_lock_effects,
      call_times_dispatch_effects, List.nil_append] at hx
    rcases List.mem_append.1 hx with h | h
    · obtain ⟨i, -, rfl⟩ := List.mem_map.1 h
      simp [sent_event, call_event]
    · split at h
      · rw [call_times_lock_effects] at h; cases h
      · cases h

/-- C20: within one `logger_log` call (lazy initialisation included) the clock is read at
most once: it is read exactly once when at least one sink is invoked and not at all when
none is, and every sink invoked observes the same timestamp as the event time, the one
that read yields. -/
theorem C20_one_clock_read_per_call (level : log_level_t) (file function : Option String)
    (line : Int) (fmt : Option String) (args : List va_arg) (p : Process) :
    time_reads (new_effects p (logger_log level file function line fmt args p)) ≤ 1 ∧
    time_reads (new_effects p (logger_log level file function line fmt args p)) =
      (if invoked_slots (new_effects p (logger_log level file function line fmt args p)) = []
       then 0 else 1) ∧
    (∀ x ∈ call_times (new_effects p (logger_log level file function line fmt args p)),
      x = some (p.clock p.ticks)) ∧
    (call_times (new_effects p (logger_log level file function line fmt args p))).length =
      (invoked_slots (new_effects p (logger_log level file function line fmt args p))).length ∧
    (logger_log level file function line fmt args p).ticks = p.ticks +
      time_reads (new_effects p (logger_log level file function line fmt args p)) := by
  have heff := (logger_log_spec level file function line fmt args p).2
  have hreads : time_reads (new_effects p (logger_log level file function line fmt args p)) =
      (if invoked_slots (new_effects p (logger_log level file function line fmt args p)) = []
       then 0 else 1) := by
    rw [heff, time_reads_log_effects, invoked_slots_log_effects]
    by_cases hlt : level < (logger_init p).logger_state.config.level
    · simp [hlt]
    · simp only [hlt, not_false_eq_true, true_and, if_false, dispatched_eq_nil]
      split <;> simp_all
  have hticks : (logger_log level file function line fmt args p).ticks = p.ticks +
      time_reads (new_effects p (logger_log level file function line fmt args p)) := by
    rw [heff, time_reads_log_effects, logger_log_lazy,
      (logger_log_of_initialized level file function line fmt args _
        (logger_init_initialized p)).2.2.2.1, logger_init_ticks]
  refine ⟨?_, hreads, ?_, call_times_length _, hticks⟩
  · rw [hreads]; split <;> simp
  · rw [heff]
    exact call_times_log_effects _ _ _ _ _ _ _ _

/-- Instance: two sinks, an INFO event, a clock that yields noon of 2024-01-01:
one clock read, and both sinks are handed that time. -/
theorem one_clock_read_per_call_instance :
    time_reads (new_effects
      (logger_add_custom_output (.custom 1) .null LOG_LEVEL_TRACE
        (logger_init (fresh (fun _ => sample_tm)))).2
      (logger_log LOG_LEVEL_INFO (some "main.c") (some "main") 10 (some "hello") []
        (logger_add_custom_output (.custom 1) .null LOG_LEVEL_TRACE
          (logger_init (fresh (fun _ => sample_tm)))).2)) = 1 ∧
    call_times (new_effects
      (logger_add_custom_output (.custom 1) .null LOG_LEVEL_TRACE
        (logger_init (fresh (fun _ => sample_tm)))).2
      (logger_log LOG_LEVEL_INFO (some "main.c") (some "main") 10 (some "hello") []
        (logger_add_custom_output (.custom 1) .null LOG_LEVEL_TRACE
          (logger_init (fresh (fun _ => sample_tm)))).2)) =
      [some sample_tm, some sample_tm] := by
  decide

/-! ## C21, C30 : the lock adapter -/

theorem lock_effects_installed (c : log_config_t) (b : Bool) (h : c.lock_fn ≠ .null) :
    lock_effects c b = [Effect.lock_call c.lock_fn b c.lock_data] := by
  simp [lock_effects, h]

theorem mem_lock_effects {c : log_config_t} {b : Bool} {e : Effect}
    (h : e ∈ lock_effects c b) : e = Effect.lock_call c.lock_fn b c.lock_data := by
  unfold lock_effects at h
  split at h
  · simpa using h
  · simp at h

theorem lock_call_not_mem_dispatch_effects (s : logger_state_t) (level : log_level_t)
    (ev : log_event_t) (t : tm) (args : List va_arg) (l : List (Fin MAX_OUTPUTS))
    (f : log_lock_fn_t) (b : Bool) (d : Ptr) :
    Effect.lock_call f b d ∉ dispatch_effects s level ev t args l := by
  unfold dispatch_effects
  intro h
  rcases List.mem_append.1 h with h | h
  · split at h <;> simp at h
  · simp at h

/-- The lock adapter around a `logger_log` call whose calls all return: with an adapter
installed, a call on an initialised logger performs, in this order, the adapter call with
`true`, the effects of the dispatch (which contain every sink invocation of the call and
no adapter call, and are empty on the filtered-out path), and the adapter call with
`false` as the last effect. -/
theorem logger_log_holds_lock (level : log_level_t)
    (file function : Option String) (line : Int) (fmt : Option String) (args : List va_arg)
    (p : Process) (hinit : p.logger_state.initialized = true)
    (hlock : p.logger_state.config.lock_fn ≠ .null)
    (hret : level < p.logger_state.config.level ∨
      all_return p.logger_state level (call_event level file function line fmt)
        (p.clock p.ticks) args = true) :
    ∃ E, new_effects p (logger_log level file function line fmt args p) =
        Effect.lock_call p.logger_state.config.lock_fn true p.logger_state.config.lock_data ::
          (E ++ [Effect.lock_call p.logger_state.config.lock_fn false
                  p.logger_state.config.lock_data]) ∧
      (∀ f b d, Effect.lock_call f b d ∉ E) ∧
      invoked_slots E =
        invoked_slots (new_effects p (logger_log level file function line fmt args p)) ∧
      (level < p.logger_state.config.level → E = []) := by
  have heff := logger_log_effects level file function line fmt args p hinit
  by_cases hlt : level < p.logger_state.config.level
  · refine ⟨[], ?_, by simp, ?_, fun _ => rfl⟩
    · rw [heff]
      simp [log_effects, hlt, lock_effects_installed _ _ hlock]
    · rw [heff]
      simp [log_effects, hlt, invoked_slots_append, invoked_slots_lock_effects, invoked_slots]
  · have hall : all_return p.logger_state level (call_event level file function line fmt)
        (p.clock p.ticks) args = true := hret.resolve_left hlt
    refine ⟨dispatch_effects p.logger_state level (call_event level file function line fmt)
      (p.clock p.ticks) args (List.finRange MAX_OUTPUTS), ?_, ?_, ?_, fun h => absurd h hlt⟩
    · rw [heff]
      simp [log_effects, hlt, hall, lock_effects_installed _ _ hlock]
    · intro f b d
      exact lock_call_not_mem_dispatch_effects _ _ _ _ _ _ f b d
    · rw [heff]
      simp [log_effects, hlt, hall, invoked_slots_append, invoked_slots_lock_effects]

theorem logger_add_custom_output_effects (f : log_output_fn_t) (u : Ptr) (l : log_level_t)
    (p : Process) (hf : f ≠ .null) :
    new_effects p (logger_add_custom_output f u l p).2 =
      lock_effects p.logger_state.config true ++ lock_effects p.logger_state.config false := by
  have htrace : (logger_add_custom_output f u l p).2.trace =
      p.trace ++ (lock_effects p.logger_state.config true ++
        lock_effects p.logger_state.config false) := by
    cases hfi : first_inactive p.logger_state with
    | none =>
      simp [logger_add_custom_output, hf, lock_logger_state, hfi, unlock_logger_trace,
        lock_logger_trace]
    | some i =>
      simp [logger_add_custom_output, hf, lock_logger_state, hfi, unlock_logger_trace,
        lock_logger_trace, set_output]
  exact new_effects_of_append _ _ _ htrace

/-- What the lock adapter finds in memory around `logger_add_custom_output`: the state
of before the call when called with `true`, and the state with the new slot filled (the
same state when the table is full) when called with `false`. -/
theorem logger_add_custom_output_views (f : log_output_fn_t) (u : Ptr) (l : log_level_t)
    (p : Process) (hf : f ≠ .null) (hlock : p.logger_state.config.lock_fn ≠ .null) :
    new_views p (logger_add_custom_output f u l p).2 =
      [(true, p.logger_state),
       (false, match first_inactive p.logger_state with
               | some i => set_output p.logger_state i f u l
               | none => p.logger_state)] ∧
    (logger_add_custom_output f u l p).2.logger_state =
      (match first_inactive p.logger_state with
       | some i => set_output p.logger_state i f u l
       | none => p.logger_state) := by
  cases hfi : first_inactive p.logger_state with
  | none =>
    refine ⟨?_, ?_⟩
    · apply new_views_of_append
      simp [logger_add_custom_output, hf, lock_logger_state, hfi, unlock_logger_views,
        lock_logger_views, hlock]
    · simp [logger_add_custom_output, hf, lock_logger_state, hfi, unlock_logger_state]
  | some i =>
    refine ⟨?_, ?_⟩
    · apply new_views_of_append
      simp [logger_add_custom_output, hf, lock_logger_state, hfi, unlock_logger_views,
        lock_logger_views, hlock, set_output]
    · simp [logger_add_custom_output, hf, lock_logger_state, hfi, unlock_logger_state]

/-- C30: with a lock adapter installed, each of `logger_set_level`, `logger_set_quiet`,
`logger_set_colors`, `logger_set_show_file_line`, `logger_set_show_function`, and
`logger_add_custom_output` with a non-null procedure (whether it finds a free slot or
the table is full), performs exactly two effects: the adapter call with `true`, then the
adapter call with `false`.  The state is touched between the two: at the call with
`true` the adapter finds `logger_state` as it was before the call, at the call with
`false` it finds the state with the setter's own field written (resp. with the first
inactive slot filled, or unchanged when the table is full), and that is the state the
call leaves: nothing is written before the first or after the second adapter call. -/
theorem C30_setters_hold_lock (p : Process) (v : log_level_t) (b : Bool)
    (f : log_output_fn_t) (u : Ptr) (l : log_level_t)
    (hlock : p.logger_state.config.lock_fn ≠ .null) (hf : f ≠ .null) :
    new_effects p (logger_set_level v p) =
      [Effect.lock_call p.logger_state.config.lock_fn true p.logger_state.config.lock_data,
       Effect.lock_call p.logger_state.config.lock_fn false p.logger_state.config.lock_data] ∧
    new_effects p (logger_set_quiet b p) =
      [Effect.lock_call p.logger_state.config.lock_fn true p.logger_state.config.lock_data,
       Effect.lock_call p.logger_state.config.lock_fn false p.logger_state.config.lock_data] ∧
    new_effects p (logger_set_colors b p) =
      [Effect.lock_call p.logger_state.config.lock_fn true p.logger_state.config.lock_data,
       Effect.lock_call p.logger_state.config.lock_fn false p.logger_state.config.lock_data] ∧
    new_effects p (logger_set_show_file_line b p) =
      [Effect.lock_call p.logger_state.config.lock_fn true p.logger_state.config.lock_data,
       Effect.lock_call p.logger_state.config.lock_fn false p.logger_state.config.lock_data] ∧
    new_effects p (logger_set_show_function b p) =
      [Effect.lock_call p.logger_state.config.lock_fn true p.logger_state.config.lock_data,
       Effect.lock_call p.logger_state.config.lock_fn false p.logger_state.config.lock_data] ∧
    new_effects p (logger_add_custom_output f u l p).2 =
      [Effect.lock_call p.logger_state.config.lock_fn true p.logger_state.config.lock_data,
       Effect.lock_call p.logger_state.config.lock_fn false p.logger_state.config.lock_data] ∧
    new_views p (logger_set_level v p) =
      [(true, p.logger_state),
       (false, { p.logger_state with config := { p.logger_state.config with level := v } })] ∧
    new_views p (logger_set_quiet b p) =
      [(true, p.logger_state),
       (false, { p.logger_state with config := { p.logger_state.config with quiet := b } })] ∧
    new_views p (logger_set_colors b p) =
      [(true, p.logger_state),
       (false, { p.logger_state with config := { p.logger_state.config with use_colors := b } })] ∧
    new_views p (logger_set_show_file_line b p) =
      [(true, p.logger_state),
       (false, { p.logger_state with config := { p.logger_state.config with show_file_line := b } })] ∧
    new_views p (logger_set_show_function b p) =
      [(true, p.logger_state),
       (false, { p.logger_state with config := { p.logger_state.config with show_function := b } })] ∧
    new_views p (logger_add_custom_output f u l p).2 =
      [(true, p.logger_state),
       (false, match first_inactive p.logger_state with
               | some i => set_output p.logger_state i f u l
               | none => p.logger_state)] ∧
    (logger_set_level v p).logger_state =
      { p.logger_state with config := { p.logger_state.config with level := v } } ∧
    (logger_set_quiet b p).logger_state =
      { p.logger_state with config := { p.logger_state.config with quiet := b } } ∧
    (logger_set_colors b p).logger_state =
      { p.logger_state with config := { p.logger_state.config with use_colors := b } } ∧
    (logger_set_show_file_line b p).logger_state =
      { p.logger_state with config := { p.logger_state.config with show_file_line := b } } ∧
    (logger_set_show_function b p).logger_state =
      { p.logger_state with config := { p.logger_state.config with show_function := b } } ∧
    (logger_add_custom_output f u l p).2.logger_state =
      (match first_inactive p.logger_state with
       | some i => set_output p.logger_state i f u l
       | none => p.logger_state) := by
  refine ⟨?_, ?_, ?_, ?_, ?_, ?_, ?_, ?_, ?_, ?_, ?_, ?_, ?_, ?_, ?_, ?_, ?_, ?_⟩
  · apply new_effects_of_append
    simp [logger_set_level, unlock_logger_trace, lock_logger_trace, lock_logger_state,
      lock_effects, hlock]
  · apply new_effects_of_append
    simp [logger_set_quiet, unlock_logger_trace, lock_logger_trace, lock_logger_state,
      lock_effects, hlock]
  · apply new_effects_of_append
    simp [logger_set_colors, unlock_logger_trace, lock_logger_trace, lock_logger_state,
      lock_effects, hlock]
  · apply new_effects_of_append
    simp [logger_set_show_file_line, unlock_logger_trace, lock_logger_trace, lock_logger_state,
      lock_effects, hlock]
  · apply new_effects_of_append
    simp [logger_set_show_function, unlock_logger_trace, lock_logger_trace, lock_logger_state,
      lock_effects, hlock]
  · rw [logger_add_custom_output_effects f u l p hf, lock_effects_installed _ _ hlock,
      lock_effects_installed _ _ hlock]
    rfl
  · apply new_views_of_append
    simp [logger_set_level, unlock_logger_views, lock_logger_views, lock_logger_state, hlock]
  · apply new_views_of_append
    simp [logger_set_quiet, unlock_logger_views, lock_logger_views, lock_logger_state, hlock]
  · apply new_views_of_append
    simp [logger_set_colors, unlock_logger_views, lock_logger_views, lock_logger_state, hlock]
  · apply new_views_of_append
    simp [logger_set_show_file_line, unlock_logger_views, lock_logger_views, lock_logger_state, hlock]
  · apply new_views_of_append
    simp [logger_set_show_function, unlock_logger_views, lock_logger_views, lock_logger_state, hlock]
  · exact (logger_add_custom_output_views f u l p hf hlock).1
  · exact logger_set_level_state v p
  · exact logger_set_quiet_state b p
  · exact logger_set_colors_state b p
  · exact logger_set_show_file_line_state b p
  · exact logger_set_show_function_state b p
  · exact (logger_add_custom_output_views f u l p hf hlock).2

set_option maxRecDepth 8000 in
/-- C30, instance: with adapter 5 installed and all sixteen slots taken, a further
`logger_add_custom_output` fails and still locks and unlocks once, the table being the
same at both adapter calls. -/
theorem C30_setters_hold_lock_witness :
    (logger_add_custom_output (.custom 2) .null LOG_LEVEL_INFO
      (logger_set_lock (.fn 5) .null
        (register_all (List.replicate 15 (.custom (.custom 1) .null LOG_LEVEL_TRACE))
          (logger_init (fresh (fun _ => sample_tm)))).2)).1 = -1 ∧
    new_effects
      (logger_set_lock (.fn 5) .null
        (register_all (List.replicate 15 (.custom (.custom 1) .null LOG_LEVEL_TRACE))
          (logger_init (fresh (fun _ => sample_tm)))).2)
      (logger_add_custom_output (.custom 2) .null LOG_LEVEL_INFO
        (logger_set_lock (.fn 5) .null
          (register_all (List.replicate 15 (.custom (.custom 1) .null LOG_LEVEL_TRACE))
            (logger_init (fresh (fun _ => sample_tm)))).2)).2 =
      [Effect.lock_call (.fn 5) true .null, Effect.lock_call (.fn 5) false .null] ∧
    (new_views
      (logger_set_lock (.fn 5) .null
        (register_all (List.replicate 15 (.custom (.custom 1) .null LOG_LEVEL_TRACE))
          (logger_init (fresh (fun _ => sample_tm)))).2)
      (logger_set_level LOG_LEVEL_WARN
        (logger_set_lock (.fn 5) .null
          (register_all (List.replicate 15 (.custom (.custom 1) .null LOG_LEVEL_TRACE))
            (logger_init (fresh (fun _ => sample_tm)))).2))).map
        (fun w => (w.1, w.2.config.level)) =
      [(true, LOG_LEVEL_INFO), (false, LOG_LEVEL_WARN)] :=
  ⟨by decide,
   (C30_setters_hold_lock
      (logger_set_lock (.fn 5) .null
        (register_all (List.replicate 15 (.custom (.custom 1) .null LOG_LEVEL_TRACE))
          (logger_init (fresh (fun _ => sample_tm)))).2)
      LOG_LEVEL_WARN true (.custom 2) .null LOG_LEVEL_INFO (by decide) (by decide)).2.2.2.2.2.1,
   by
    rw [(C30_setters_hold_lock
      (logger_set_lock (.fn 5) .null
        (register_all (List.replicate 15 (.custom (.custom 1) .null LOG_LEVEL_TRACE))
          (logger_init (fresh (fun _ => sample_tm)))).2)
      LOG_LEVEL_WARN true (.custom 2) .null LOG_LEVEL_INFO (by decide)
      (by decide)).2.2.2.2.2.2.1]
    decide⟩

/-! ## C29, C23 : the events handed to the sinks -/

theorem calls_append (a b : List Effect) : calls (a ++ b) = calls a ++ calls b := by
  induction a with
  | nil => rfl
  | cons e es ih => cases e <;> simp [calls, ih]

theorem calls_lock_effects (c : log_config_t) (b : Bool) : calls (lock_effects c b) = [] := by
  unfold lock_effects; split <;> rfl

theorem mem_calls {E : List Effect} {i : Fin MAX_OUTPUTS} {f : log_output_fn_t}
    {e : log_event_t} (h : Effect.output_call i f e ∈ E) : (i, f, e) ∈ calls E := by
  induction E with
  | nil => cases h
  | cons x xs ih =>
    rcases List.mem_cons.1 h with hx | hx
    · subst hx; simp [calls]
    · cases x <;> simp [calls, ih hx]

theorem invoked_slots_eq_calls (E : List Effect) :
    invoked_slots E = (calls E).map (fun c => c.1) := by
  induction E with
  | nil => rfl
  | cons x xs ih => cases x <;> simp [calls, invoked_slots, ih]

theorem calls_dispatch_effects (s : logger_state_t) (level : log_level_t)
    (ev : log_event_t) (t : tm) (args : List va_arg) (l : List (Fin MAX_OUTPUTS)) :
    calls (dispatch_effects s level ev t args l) =
      (dispatched s level ev t args l).map
        (fun i => (i, (s.outputs i).output_fn, sent_event s ev t args i)) := by
  have hmap : ∀ m : List (Fin MAX_OUTPUTS), calls (m.map
      (fun i => Effect.output_call i (s.outputs i).output_fn (sent_event s ev t args i))) =
      m.map (fun i => (i, (s.outputs i).output_fn, sent_event s ev t args i)) := by
    intro m
    induction m with
    | nil => rfl
    | cons x xs ih => simp [calls, ih]
  unfold dispatch_effects
  rw [calls_append, hmap]
  split <;> simp [calls]

theorem calls_log_effects (s : logger_state_t) (t : tm) (level : log_level_t)
    (file function : Option String) (line : Int) (fmt : Option String)
    (args : List va_arg) :
    calls (log_effects s t level file function line fmt args) =
      if level < s.config.level then []
      else (dispatched s level (call_event level file function line fmt) t args
          (List.finRange MAX_OUTPUTS)).map
        (fun i => (i, (s.outputs i).output_fn,
          sent_event s (call_event level file function line fmt) t args i)) := by
  unfold log_effects
  by_cases hlt : level < s.config.level
  · simp [hlt, calls_append, calls_lock_effects]
  · simp only [hlt, if_false, calls_append, calls_lock_effects, calls_dispatch_effects,
      List.nil_append]
    split <;> simp [calls_lock_effects, calls]

/-- The calls of any `logger_log` call, lazy initialisation included: the slots called
are passing slots of the state after `logger_init`, in table order, each through its own
procedure and with the event of the call carrying its own context. -/
theorem logger_log_calls (level : log_level_t) (file function : Option String)
    (line : Int) (fmt : Option String) (args : List va_arg) (p : Process) :
    calls (new_effects p (logger_log level file function line fmt args p)) =
      if level < (logger_init p).logger_state.config.level then []
      else (dispatched (logger_init p).logger_state level
          (call_event level file function line fmt) (p.clock p.ticks) args
          (List.finRange MAX_OUTPUTS)).map
        (fun i => (i, ((logger_init p).logger_state.outputs i).output_fn,
          sent_event (logger_init p).logger_state (call_event level file function line fmt)
            (p.clock p.ticks) args i)) := by
  rw [(logger_log_spec level file function line fmt args p).2, calls_log_effects]

/-- C29: every output procedure called within one `logger_log` call is the procedure of
an active slot and receives an event whose level, file, function, line, format and
argument list are exactly those passed by the caller, and whose `user_data` is the
context registered in that same slot (the slots being those of the state after the lazy
`logger_init`, which is the state itself on an initialised logger). -/
theorem C29_event_fields_as_passed (level : log_level_t) (file function : Option String)
    (line : Int) (fmt : Option String) (args : List va_arg) (p : Process) :
    ∀ (i : Fin MAX_OUTPUTS) (f : log_output_fn_t) (e : log_event_t),
      Effect.output_call i f e ∈
        new_effects p (logger_log level file function line fmt args p) →
      e.level = level ∧ e.file = file ∧ e.function = function ∧ e.line = line ∧
      e.fmt = fmt ∧ e.ap = args ∧
      e.user_data = ((logger_init p).logger_state.outputs i).user_data ∧
      f = ((logger_init p).logger_state.outputs i).output_fn ∧
      ((logger_init p).logger_state.outputs i).active = true := by
  intro i f e hmem
  have hc := logger_log_calls level file function line fmt args p
  have h1 : (i, f, e) ∈
      calls (new_effects p (logger_log level file function line fmt args p)) :=
    mem_calls hmem
  rw [hc] at h1
  split at h1
  · cases h1
  · obtain ⟨j, hj, hjeq⟩ := List.mem_map.1 h1
    have hpass := (List.mem_filter.1 ((dispatched_sublist _ _ _ _ _ _).subset hj)).2
    simp only [Prod.mk.injEq] at hjeq
    obtain ⟨hji, hf, he⟩ := hjeq
    subst hji
    have hact : ((logger_init p).logger_state.outputs j).active = true := by
      simp only [passes, Bool.and_eq_true] at hpass
      exact hpass.1
    have e1 := congrArg log_event_t.level he
    have e2 := congrArg log_event_t.file he
    have e3 := congrArg log_event_t.function he
    have e4 := congrArg log_event_t.line he
    have e5 := congrArg log_event_t.fmt he
    have e6 := congrArg log_event_t.ap he
    have e7 := congrArg log_event_t.user_data he
    exact ⟨e1.symm, e2.symm, e3.symm, e4.symm, e5.symm, e6.symm, e7.symm, hf.symm, hact⟩

/-- C29, instance: after `logger_init` and a custom registration with context 7, an INFO
event with one argument reaches the custom sink of slot 1 with that context, format and
argument. -/
theorem C29_event_fields_as_passed_witness :
    Effect.output_call 1 (.custom 1)
        { ap := [.int 42], fmt := some "Test %d", file := some "test_file.c",
          function := some "test_function", time := some sample_tm, user_data := .addr 7,
          line := 42, level := LOG_LEVEL_INFO } ∈
      new_effects
        (logger_add_custom_output (.custom 1) (.addr 7) LOG_LEVEL_TRACE
          (logger_init (fresh (fun _ => sample_tm)))).2
        (logger_log LOG_LEVEL_INFO (some "test_file.c") (some "test_function") 42
          (some "Test %d") [.int 42]
          (logger_add_custom_output (.custom 1) (.addr 7) LOG_LEVEL_TRACE
            (logger_init (fresh (fun _ => sample_tm)))).2) ∧
    (Ptr.addr 7) = ((logger_init
        (logger_add_custom_output (.custom 1) (.addr 7) LOG_LEVEL_TRACE
          (logger_init (fresh (fun _ => sample_tm)))).2).logger_state.outputs 1).user_data :=
  ⟨by decide,
   (C29_event_fields_as_passed LOG_LEVEL_INFO (some "test_file.c") (some "test_function") 42
      (some "Test %d") [.int 42]
      (logger_add_custom_output (.custom 1) (.addr 7) LOG_LEVEL_TRACE
        (logger_init (fresh (fun _ => sample_tm)))).2
      1 (.custom 1)
      { ap := [.int 42], fmt := some "Test %d", file := some "test_file.c",
        function := some "test_function", time := some sample_tm, user_data := .addr 7,
        line := 42, level := LOG_LEVEL_INFO } (by decide)).2.2.2.2.2.2.1⟩

/-- The state after `logger_init` on an uninitialised logger followed by
`logger_add_console_output(level)`: the default state with a second console sink in
slot 1. -/
theorem init_then_console_state (p : Process) (h : p.logger_state.initialized = false)
    (level : log_level_t) :
    (logger_add_console_output level (logger_init p)).2.logger_state =
      set_output default_state 1 .logger_console_output .stderr level := by
  have hst := logger_init_state_of_uninitialized p h
  have hfi : first_inactive default_state = some 1 := by decide
  rcases logger_add_custom_output_cases .logger_console_output .stderr level (logger_init p)
    with ⟨h0, -⟩ | ⟨-, hnone, -, -⟩ | ⟨-, i, hsome, -, hs⟩
  · cases h0
  · rw [hst, hfi] at hnone; cases hnone
  · rw [hst, hfi] at hsome
    cases hsome
    rw [← hst]; exact hs

/-- C23 as stated fails: after `logger_init` and `logger_add_console_output(WARN)` as
the only registration call, one INFO and one ERROR message produce three console sink
invocations, not one: the default console sink of slot 0 is called for both messages, the
WARN sink of slot 1 for the ERROR message. -/
theorem C23_default_console_also_invoked :
    (calls (new_effects
      (logger_add_console_output LOG_LEVEL_WARN (logger_init (fresh (fun _ => sample_tm)))).2
      (logger_log LOG_LEVEL_ERROR (some "main.c") (some "main") 11 (some "an error") []
        (logger_log LOG_LEVEL_INFO (some "main.c") (some "main") 10 (some "an info") []
          (logger_add_console_output LOG_LEVEL_WARN
            (logger_init (fresh (fun _ => sample_tm)))).2)))).map
      (fun c => (c.1, c.2.1, c.2.2.fmt)) =
    [(0, .logger_console_output, some "an info"),
     (0, .logger_console_output, some "an error"),
     (1, .logger_console_output, some "an error")] := by
  decide

/-- C23, amended: after `logger_init` on an uninitialised logger, with
`logger_add_console_output(WARN)` as the only registration call the caller makes, one
INFO message and one ERROR message produce exactly one invocation of that WARN console
sink (slot 1), and it is for the ERROR message; the default console sink that
`logger_init` registers at TRACE (slot 0) is invoked once for each of the two messages,
so there are three console sink invocations in total. -/
theorem C23_warn_console_end_to_end (p : Process)
    (file1 function1 : Option String) (line1 : Int) (fmt1 : Option String)
    (args1 : List va_arg)
    (file2 function2 : Option String) (line2 : Int) (fmt2 : Option String)
    (args2 : List va_arg)
    (huninit : p.logger_state.initialized = false) :
    (calls (new_effects
      (logger_add_console_output LOG_LEVEL_WARN (logger_init p)).2
      (logger_log LOG_LEVEL_INFO file1 function1 line1 fmt1 args1
        (logger_add_console_output LOG_LEVEL_WARN (logger_init p)).2))).map
      (fun c => (c.1, c.2.1, { c.2.2 with time := none })) =
    [(0, .logger_console_output,
      { ap := args1, fmt := fmt1, file := file1, function := function1, time := none,
        user_data := .stderr, line := line1, level := LOG_LEVEL_INFO })] ∧
    (calls (new_effects
      (logger_log LOG_LEVEL_INFO file1 function1 line1 fmt1 args1
        (logger_add_console_output LOG_LEVEL_WARN (logger_init p)).2)
      (logger_log LOG_LEVEL_ERROR file2 function2 line2 fmt2 args2
        (logger_log LOG_LEVEL_INFO file1 function1 line1 fmt1 args1
          (logger_add_console_output LOG_LEVEL_WARN (logger_init p)).2)))).map
      (fun c => (c.1, c.2.1, { c.2.2 with time := none })) =
    [(0, .logger_console_output,
      { ap := args2, fmt := fmt2, file := file2, function := function2, time := none,
        user_data := .stderr, line := line2, level := LOG_LEVEL_ERROR }),
     (1, .logger_console_output,
      { ap := args2, fmt := fmt2, file := file2, function := function2, time := none,
        user_data := .stderr, line := line2, level := LOG_LEVEL_ERROR })] := by
  have hst := init_then_console_state p huninit LOG_LEVEL_WARN
  have hini : (logger_add_console_output LOG_LEVEL_WARN
      (logger_init p)).2.logger_state.initialized = true := by rw [hst]; rfl
  have hst1 := logger_log_state_of_initialized LOG_LEVEL_INFO file1 function1 line1 fmt1 args1
    _ hini
  have hini1 : (logger_log LOG_LEVEL_INFO file1 function1 line1 fmt1 args1
      (logger_add_console_output LOG_LEVEL_WARN
        (logger_init p)).2).logger_state.initialized = true := by rw [hst1]; exact hini
  have hf1 : (List.finRange MAX_OUTPUTS).filter
      (passes (set_output default_state 1 .logger_console_output .stderr LOG_LEVEL_WARN)
        LOG_LEVEL_INFO) = [0] := by decide
  have hf2 : (List.finRange MAX_OUTPUTS).filter
      (passes (set_output default_state 1 .logger_console_output .stderr LOG_LEVEL_WARN)
        LOG_LEVEL_ERROR) = [0, 1] := by decide
  have hr1 := dispatched_of_all_return
    (set_output default_state 1 .logger_console_output .stderr LOG_LEVEL_WARN) LOG_LEVEL_INFO
    (call_event LOG_LEVEL_INFO file1 function1 line1 fmt1)
    ((logger_add_console_output LOG_LEVEL_WARN (logger_init p)).2.clock
      (logger_add_console_output LOG_LEVEL_WARN (logger_init p)).2.ticks) args1
    (all_return_of_valid _ _ _ _ _ (by decide) rfl (by decide))
  have hr2 := dispatched_of_all_return
    (set_output default_state 1 .logger_console_output .stderr LOG_LEVEL_WARN) LOG_LEVEL_ERROR
    (call_event LOG_LEVEL_ERROR file2 function2 line2 fmt2)
    ((logger_log LOG_LEVEL_INFO file1 function1 line1 fmt1 args1
      (logger_add_console_output LOG_LEVEL_WARN (logger_init p)).2).clock
      (logger_log LOG_LEVEL_INFO file1 function1 line1 fmt1 args1
        (logger_add_console_output LOG_LEVEL_WARN (logger_init p)).2).ticks) args2
    (all_return_of_valid _ _ _ _ _ (by decide) rfl (by decide))
  rw [hf1] at hr1
  rw [hf2] at hr2
  have hl1 : ¬ LOG_LEVEL_INFO <
      (set_output default_state 1 .logger_console_output .stderr
        LOG_LEVEL_WARN).config.level := by decide
  have hl2 : ¬ LOG_LEVEL_ERROR <
      (set_output default_state 1 .logger_console_output .stderr
        LOG_LEVEL_WARN).config.level := by decide
  constructor
  · rw [logger_log_calls, logger_init_of_initialized _ hini, hst, if_neg hl1, hr1]
    rfl
  · rw [logger_log_calls, logger_init_of_initialized _ hini1, hst1, hst, if_neg hl2, hr2]
    rfl

/-- C23, instance: the scenario in a fresh process. -/
theorem C23_warn_console_end_to_end_witness :
    ((calls (new_effects
      (logger_log LOG_LEVEL_INFO (some "main.c") (some "main") 10 (some "an info") []
        (logger_add_console_output LOG_LEVEL_WARN (logger_init (fresh (fun _ => sample_tm)))).2)
      (logger_log LOG_LEVEL_ERROR (some "main.c") (some "main") 11 (some "an error") []
        (logger_log LOG_LEVEL_INFO (some "main.c") (some "main") 10 (some "an info") []
          (logger_add_console_output LOG_LEVEL_WARN
            (logger_init (fresh (fun _ => sample_tm)))).2)))).map
      (fun c => (c.1, c.2.1, { c.2.2 with time := none }))).length = 2 := by
  rw [(C23_warn_console_end_to_end (fresh (fun _ => sample_tm))
    (some "main.c") (some "main") 10 (some "an info") []
    (some "main.c") (some "main") 11 (some "an error") [] (by decide)).2]
  rfl

/-! ## C24 - C28 : the built-in outputs -/

theorem table_at_level_strings (level : log_level_t) (h : 0 ≤ level ∧ level ≤ 5) :
    table_at level_strings level = some (logger_level_to_string level) := by
  have h2 : (5 : Nat) ≥ level := h.2
  have h3 : (6 : Nat) > level := by omega
  have hc : level ≥ 0 ∧ level < 6 := ⟨h.1, h3⟩
  have hc2 : level < 6 := h3
  unfold table_at logger_level_to_string
  rw [dif_pos hc, dif_pos hc2]

theorem table_at_none (table : Fin 6 → String) (level : log_level_t)
    (h : level < 0 ∨ 5 < level) : table_at table level = none := by
  have hc : ¬ (level < 6) := by
    intro h2
    have h4 : (6 : Nat) > level := h2
    rcases h with h | h
    · exact absurd h (Nat.not_lt_zero level)
    · have h5 : (5 : Nat) < level := h
      omega
  unfold table_at
  rw [dif_neg hc]

/-- The text of the file sink on an event with a stream, a timestamp and a valid level. -/
theorem logger_file_output_eq (libc : Libc) (c : log_config_t) (e : log_event_t) (t : tm)
    (hlevel : 0 ≤ e.level ∧ e.level ≤ 5) (htime : e.time = some t)
    (hstream : e.user_data ≠ .null) :
    logger_file_output libc c e =
      some (libc.strftime "%Y-%m-%d %H:%M:%S" t ++ " " ++ pad5 (logger_level_to_string e.level) ++
        " " ++ cstr e.file ++ ":" ++ fmt_d e.line ++
        (if c.show_function then " [" ++ cstr e.function ++ "]" else "") ++
        ": " ++ libc.vformat e.fmt e.ap ++ "\n") := by
  simp [logger_file_output, hstream, htime, table_at_level_strings e.level hlevel]

/-- The text of the console sink, colors off, on an event with a stream, a timestamp and
a valid level. -/
theorem logger_console_output_plain_eq (libc : Libc) (c : log_config_t) (e : log_event_t)
    (t : tm) (hlevel : 0 ≤ e.level ∧ e.level ≤ 5) (htime : e.time = some t)
    (hstream : e.user_data ≠ .null) (hcolors : c.use_colors = false) :
    logger_console_output libc c e =
      some (libc.strftime "%H:%M:%S" t ++ " " ++ pad5 (logger_level_to_string e.level) ++ " " ++
        (if c.show_file_line then cstr e.file ++ ":" ++ fmt_d e.line ++ ": " else "") ++
        (if c.show_function then "[" ++ cstr e.function ++ "] " else "") ++
        libc.vformat e.fmt e.ap ++ "\n") := by
  simp [logger_console_output, hstream, htime, hcolors, table_at_level_strings e.level hlevel]

theorem pad5_level_name (level : log_level_t) (h : 0 ≤ level ∧ level ≤ 5) :
    pad5 (logger_level_to_string level) =
      logger_level_to_string level ++ (if level = 2 ∨ level = 3 then " " else "") := by
  obtain ⟨h0, h5⟩ := h
  interval_cases level <;> decide

/-- C24 as stated fails for the four-letter names: the file sink prints the level with
`%-5s`, so an INFO event gives two spaces between `INFO` and the file name, not the
single space of the claimed line. -/
theorem C24_file_line_pads_level :
    logger_file_output sample_libc default_config (sample_event LOG_LEVEL_INFO) =
      some "2024-01-01 12:00:00 INFO  main.c:10: hello\n" ∧
    logger_file_output sample_libc default_config (sample_event LOG_LEVEL_INFO) ≠
      some "2024-01-01 12:00:00 INFO main.c:10: hello\n" := by
  decide

/-- C24, amended: for every event with a valid level (and a timestamp and a stream), the
built-in file sink writes exactly the line
`<YYYY-MM-DD HH:MM:SS> <LEVEL> <file>:<line>`, followed by ` [<function>]` if and only if
the show-function flag is set, followed by `: <message>` and a newline, where LEVEL is
the canonical level name padded with spaces to five characters (INFO and WARN carry one
padding space, the other names none) and the other separators are single spaces. -/
theorem C24_file_line_format (libc : Libc) (c : log_config_t) (e : log_event_t) (t : tm)
    (hlevel : 0 ≤ e.level ∧ e.level ≤ 5) (htime : e.time = some t)
    (hstream : e.user_data ≠ .null) :
    logger_file_output libc c e =
      some (libc.strftime "%Y-%m-%d %H:%M:%S" t ++ " " ++ pad5 (logger_level_to_string e.level) ++
        " " ++ cstr e.file ++ ":" ++ fmt_d e.line ++
        (if c.show_function then " [" ++ cstr e.function ++ "]" else "") ++
        ": " ++ libc.vformat e.fmt e.ap ++ "\n") ∧
    pad5 (logger_level_to_string e.level) =
      logger_level_to_string e.level ++ (if e.level = 2 ∨ e.level = 3 then " " else "") :=
  ⟨logger_file_output_eq libc c e t hlevel htime hstream, pad5_level_name e.level hlevel⟩

/-- C24, instance: an ERROR event with the show-function flag set. -/
theorem C24_file_line_format_witness :
    logger_file_output sample_libc { default_config with show_function := true }
        (sample_event LOG_LEVEL_ERROR) =
      some "2024-01-01 12:00:00 ERROR main.c:10 [main]: hello\n" := by
  rw [(C24_file_line_format sample_libc { default_config with show_function := true }
    (sample_event LOG_LEVEL_ERROR) sample_tm (by decide) (by decide) (by decide)).1]
  decide

/-- C25 as stated fails: with colors off and both flags on, the console sink prints the
file and line as `main.c:10: ` (a colon and a space after the line number, no brackets),
not as `[main.c:10] `. -/
theorem C25_console_line_has_no_brackets :
    logger_console_output sample_libc
        { default_config with use_colors := false, show_function := true }
        (sample_event LOG_LEVEL_ERROR) =
      some "12:00:00 ERROR main.c:10: [main] hello\n" ∧
    logger_console_output sample_libc
        { default_config with use_colors := false, show_function := true }
        (sample_event LOG_LEVEL_ERROR) ≠
      some "12:00:00 ERROR [main.c:10] [main] hello\n" := by
  decide

/-- C25, amended: for every event with a valid level (and a timestamp and a stream),
with colors disabled and both show-file-line and show-function enabled, the built-in
console sink writes exactly the line
`<HH:MM:SS> <LEVEL> <file>:<line>: [<function>] <message>` followed by a newline, where
LEVEL is the canonical level name padded with spaces to five characters. -/
theorem C25_console_line_format (libc : Libc) (c : log_config_t) (e : log_event_t) (t : tm)
    (hlevel : 0 ≤ e.level ∧ e.level ≤ 5) (htime : e.time = some t)
    (hstream : e.user_data ≠ .null) (hcolors : c.use_colors = false)
    (hfile : c.show_file_line = true) (hfunc : c.show_function = true) :
    logger_console_output libc c e =
      some (libc.strftime "%H:%M:%S" t ++ " " ++ pad5 (logger_level_to_string e.level) ++ " " ++
        cstr e.file ++ ":" ++ fmt_d e.line ++ ": " ++ "[" ++ cstr e.function ++ "] " ++
        libc.vformat e.fmt e.ap ++ "\n") ∧
    pad5 (logger_level_to_string e.level) =
      logger_level_to_string e.level ++ (if e.level = 2 ∨ e.level = 3 then " " else "") := by
  refine ⟨?_, pad5_level_name e.level hlevel⟩
  rw [logger_console_output_plain_eq libc c e t hlevel htime hstream hcolors]
  simp only [hfile, hfunc, if_true, String.append_assoc, ↓reduceIte]

/-- C25, instance: a WARN event. -/
theorem C25_console_line_format_witness :
    logger_console_output sample_libc
        { default_config with use_colors := false, show_function := true }
        (sample_event LOG_LEVEL_WARN) =
      some "12:00:00 WARN  main.c:10: [main] hello\n" := by
  rw [(C25_console_line_format sample_libc
    { default_config with use_colors := false, show_function := true }
    (sample_event LOG_LEVEL_WARN) sample_tm (by decide) (by decide) (by decide)
    (by decide) (by decide) (by decide)).1]
  decide

/-- The file sink never reads the show-file-line flag. -/
theorem logger_file_output_ignores_show_file_line (libc : Libc) (c : log_config_t)
    (e : log_event_t) (b : Bool) :
    logger_file_output libc { c with show_file_line := b } e = logger_file_output libc c e :=
  rfl

set_option maxRecDepth 8000 in
/-- C26, evaluated at the failing input: `logger_init`, a file sink on handle 1,
`logger_set_colors(false)`, `logger_set_show_file_line(false)`, then one ERROR event from
`main.c:10`.  The flag is false when the sinks run; the console sink leaves the
`main.c:10` segment out, the file sink still writes it. -/
theorem C26_file_sink_ignores_show_file_line :
    (run [.add (.file (.addr 1) LOG_LEVEL_TRACE), .set_colors false, .set_show_file_line false]
      (logger_init (fresh (fun _ => sample_tm)))).logger_state.config.show_file_line
        = false ∧
    builtin_writes sample_libc
      (run [.add (.file (.addr 1) LOG_LEVEL_TRACE), .set_colors false,
          .set_show_file_line false]
        (logger_init (fresh (fun _ => sample_tm)))).logger_state.config
      (calls (new_effects
        (run [.add (.file (.addr 1) LOG_LEVEL_TRACE), .set_colors false,
            .set_show_file_line false]
          (logger_init (fresh (fun _ => sample_tm))))
        (logger_log LOG_LEVEL_ERROR (some "main.c") (some "main") 10 (some "hello") []
          (run [.add (.file (.addr 1) LOG_LEVEL_TRACE), .set_colors false,
              .set_show_file_line false]
            (logger_init (fresh (fun _ => sample_tm))))))) =
      [(.stderr, some "12:00:00 ERROR hello\n"),
       (.addr 1, some "2024-01-01 12:00:00 ERROR main.c:10: hello\n")] := by
  decide

theorem mem_nat_dec_aux (fuel : Nat) :
    ∀ (n : Nat) (acc : List Char) (c : Char), c ∈ nat_dec_aux fuel n acc →
      c ∈ acc ∨ ∃ d, c = digit_char d := by
  induction fuel with
  | zero => intro n acc c h; exact Or.inl h
  | succ fuel ih =>
    intro n acc c h
    unfold nat_dec_aux at h
    split at h
    · rcases List.mem_cons.1 h with h | h
      · exact Or.inr ⟨n, h⟩
      · exact Or.inl h
    · rcases ih _ _ c h with h | h
      · rcases List.mem_cons.1 h with h | h
        · exact Or.inr ⟨n, h⟩
        · exact Or.inl h
      · exact Or.inr h

theorem digit_char_ne_ESC (d : Nat) : digit_char d ≠ ESC := by
  unfold digit_char
  have h : d % 10 < 10 := Nat.mod_lt _ (by decide)
  generalize d % 10 = k at h
  interval_cases k <;> decide

theorem ESC_not_mem_fmt_d (i : Int) : ESC ∉ (fmt_d i).toList := by
  intro h
  have hd : ∀ n, ESC ∉ nat_dec n := by
    intro n hn
    rcases mem_nat_dec_aux _ _ _ _ hn with h1 | ⟨d, h1⟩
    · cases h1
    · exact digit_char_ne_ESC d h1.symm
  unfold fmt_d at h
  simp only [String.toList] at h
  split at h
  · rcases List.mem_cons.1 h with h | h
    · exact absurd h (by decide)
    · exact hd _ h
  · exact hd _ h

theorem ESC_not_mem_level_name (level : log_level_t) (name : String)
    (h : table_at level_strings level = some name) : ESC ∉ (pad5 name).toList := by
  have hall : ∀ k : Fin 6, ESC ∉ (pad5 (level_strings k)).toList := by decide
  unfold table_at at h
  split at h
  · cases h; exact hall _
  · cases h

/-- C27: the built-in file sink is never colorized: its text is the same under any two
configurations that differ only in the color flag, and every escape character in the text
lies in one of the pieces rendered from the inputs (the timestamp text, the file name, the
function name, the formatted message): the sink itself adds no ANSI escape sequence. -/
theorem C27_file_sink_not_colorized (libc : Libc) (c : log_config_t) (e : log_event_t)
    (b : Bool) :
    logger_file_output libc { c with use_colors := b } e = logger_file_output libc c e ∧
    ∀ out, logger_file_output libc c e = some out → ESC ∈ out.toList →
      (∃ t, e.time = some t ∧ ESC ∈ (libc.strftime "%Y-%m-%d %H:%M:%S" t).toList) ∨
      ESC ∈ (cstr e.file).toList ∨ ESC ∈ (cstr e.function).toList ∨
      ESC ∈ (libc.vformat e.fmt e.ap).toList := by
  refine ⟨rfl, ?_⟩
  intro out hout hesc
  unfold logger_file_output at hout
  split at hout
  · cases hout
  · split at hout
    · cases hout
    · rename_i t ht
      split at hout
      · cases hout
      · rename_i name hname
        have hname' := ESC_not_mem_level_name e.level name hname
        have hline := ESC_not_mem_fmt_d e.line
        have hsp : ESC ≠ ' ' := by decide
        have hco : ESC ≠ ':' := by decide
        have hnl : ESC ≠ '\n' := by decide
        have hlb : ESC ≠ '[' := by decide
        have hrb : ESC ≠ ']' := by decide
        cases hout
        by_cases hf : c.show_function = true
        · simp only [hf, if_true, String.toList, String.data_append, List.mem_append] at hesc
          simp only [String.toList] at hname' hline
          have e1 : (" " : String).data = [' '] := rfl
          have e2 : (":" : String).data = [':'] := rfl
          have e3 : (" [" : String).data = [' ', '['] := rfl
          have e4 : ("]" : String).data = [']'] := rfl
          have e5 : (": " : String).data = [':', ' '] := rfl
          have e6 : ("\n" : String).data = ['\n'] := rfl
          simp only [e1, e2, e3, e4, e5, e6, List.mem_cons, List.mem_singleton,
            List.not_mem_nil, or_false, hsp, hco, hnl, hlb, hrb, false_or, hname', hline]
            at hesc
          rcases hesc with ((h | h) | h) | h
          · exact Or.inl ⟨t, ht, h⟩
          · exact Or.inr (Or.inl h)
          · exact Or.inr (Or.inr (Or.inl h))
          · exact Or.inr (Or.inr (Or.inr h))
        · have hf' : c.show_function = false := by simpa using hf
          simp only [hf', String.toList, String.data_append, List.mem_append] at hesc
          simp only [String.toList] at hname' hline
          have e0 : ("" : String).data = [] := rfl
          have e1 : (" " : String).data = [' '] := rfl
          have e2 : (":" : String).data = [':'] := rfl
          have e5 : (": " : String).data = [':', ' '] := rfl
          have e6 : ("\n" : String).data = ['\n'] := rfl
          simp only [e0, e1, e2, e5, e6, List.mem_cons, List.mem_singleton,
            List.not_mem_nil, or_false, hsp, hco, hnl, false_or, hname', hline,
            Bool.false_eq_true, if_false] at hesc
          rcases hesc with (h | h) | h
          · exact Or.inl ⟨t, ht, h⟩
          · exact Or.inr (Or.inl h)
          · exact Or.inr (Or.inr (Or.inr h))

/-- Both built-in sinks have no defined result on an event whose level is outside 0..5:
they read `level_strings[event->level]` (and `level_colors[event->level]`) unchecked. -/
theorem builtin_outputs_undefined_out_of_range (libc : Libc) (c : log_config_t)
    (e : log_event_t) (h : e.level < 0 ∨ 5 < e.level) :
    logger_console_output libc c e = none ∧ logger_file_output libc c e = none := by
  have h1 := table_at_none level_strings e.level h
  have h2 := table_at_none level_colors e.level h
  constructor
  · unfold logger_console_output
    split
    · rfl
    · split
      · rfl
      · simp only [h1, h2]
        split
        · rename_i heq
          split at heq <;> cases heq
        · rfl
  · unfold logger_file_output
    split
    · rfl
    · split
      · rfl
      · simp only [h1]

/-- The model of a call that does not return agrees with the texts of the built-in
procedures: the call returns exactly when the text it writes is defined. -/
theorem call_returns_iff_defined (libc : Libc) (c : log_config_t) (e : log_event_t) :
    call_returns .logger_console_output e = (logger_console_output libc c e).isSome ∧
    call_returns .logger_file_output e = (logger_file_output libc c e).isSome := by
  by_cases hu : e.user_data = .null
  · simp [call_returns, logger_console_output, logger_file_output, hu]
  · cases ht : e.time with
    | none => simp [call_returns, logger_console_output, logger_file_output, hu, ht]
    | some t =>
      by_cases hl : e.level < 6
      · have h1 : table_at level_strings e.level = some (level_strings ⟨e.level, hl⟩) := by
          unfold table_at; rw [dif_pos hl]
        have h2 : table_at level_colors e.level = some (level_colors ⟨e.level, hl⟩) := by
          unfold table_at; rw [dif_pos hl]
        constructor
        · by_cases hc : c.use_colors = true <;>
            simp [call_returns, logger_console_output, hu, ht, hl, h1, h2, hc]
        · simp [call_returns, logger_file_output, hu, ht, hl, h1]
      · have hl2 : e.level < 0 ∨ 5 < e.level := by
          right
          have h6 : ¬ ((6 : Nat) > e.level) := hl
          show (5 : Nat) < e.level
          omega
        have hnone := builtin_outputs_undefined_out_of_range libc c e hl2
        simp [call_returns, hu, ht, hl, hnone.1, hnone.2]

set_option maxRecDepth 8000 in
/-- C28, evaluated at the failing input: after `logger_init` and a file sink on handle
1, `logger_log` with level 99 passes the global filter and both per-sink filters and
calls the console sink of slot 0, whose written text is not defined: it reads entry 99
of the six-entry level tables.  The call does not return, so the process is dead and the
file sink of slot 1, which passes too, is not reached; called on the same event it reads
entry 99 of `level_strings` as well, and so do both sinks on every event whose level is
above 5.  `logger_level_to_string`, by contrast, checks the range and yields
"UNKNOWN". -/
theorem C28_level_out_of_range_reaches_sinks :
    invoked_fns (new_effects
      (logger_add_file_output (.addr 1) LOG_LEVEL_TRACE
        (logger_init (fresh (fun _ => sample_tm)))).2
      (logger_log 99 (some "main.c") (some "main") 10 (some "hello") []
        (logger_add_file_output (.addr 1) LOG_LEVEL_TRACE
          (logger_init (fresh (fun _ => sample_tm)))).2)) =
      [.logger_console_output] ∧
    builtin_writes sample_libc
      (logger_add_file_output (.addr 1) LOG_LEVEL_TRACE
        (logger_init (fresh (fun _ => sample_tm)))).2.logger_state.config
      (calls (new_effects
        (logger_add_file_output (.addr 1) LOG_LEVEL_TRACE
          (logger_init (fresh (fun _ => sample_tm)))).2
        (logger_log 99 (some "main.c") (some "main") 10 (some "hello") []
          (logger_add_file_output (.addr 1) LOG_LEVEL_TRACE
            (logger_init (fresh (fun _ => sample_tm)))).2))) =
      [(.stderr, none)] ∧
    (logger_log 99 (some "main.c") (some "main") 10 (some "hello") []
      (logger_add_file_output (.addr 1) LOG_LEVEL_TRACE
        (logger_init (fresh (fun _ => sample_tm)))).2).aborted = true ∧
    passes (logger_add_file_output (.addr 1) LOG_LEVEL_TRACE
      (logger_init (fresh (fun _ => sample_tm)))).2.logger_state 99 1 = true ∧
    logger_file_output sample_libc
      (logger_add_file_output (.addr 1) LOG_LEVEL_TRACE
        (logger_init (fresh (fun _ => sample_tm)))).2.logger_state.config
      { ap := [], fmt := some "hello", file := some "main.c", function := some "main",
        time := some sample_tm, user_data := .addr 1, line := 10, level := 99 } = none ∧
    (∀ (libc : Libc) (c : log_config_t) (e : log_event_t), 5 < e.level →
      logger_console_output libc c e = none ∧ logger_file_output libc c e = none) ∧
    logger_level_to_string 99 = "UNKNOWN" := by
  refine ⟨by decide, by decide, by decide, by decide, by decide, ?_, by decide⟩
  intro libc c e h
  exact builtin_outputs_undefined_out_of_range libc c e (Or.inr h)

/-! ## C31 : `logger_set_lock` -/

/-- The effects of `logger_set_lock`: the lock call goes to the adapter installed before,
the unlock call to the adapter just installed. -/
theorem logger_set_lock_effects (f : log_lock_fn_t) (u : Ptr) (p : Process) :
    new_effects p (logger_set_lock f u p) =
      lock_effects p.logger_state.config true ++
        lock_effects { p.logger_state.config with lock_fn := f, lock_data := u } false := by
  apply new_effects_of_append
  simp [logger_set_lock, unlock_logger_trace, lock_logger_trace, lock_logger_state]

/-- C31, evaluated at the failing inputs.  Installing adapter 5 on a logger without
adapter performs the single call `5(false)`: a release with no preceding acquire.
Replacing adapter 5 by adapter 6 performs `5(true)` then `6(false)`: adapter 5 is
acquired and never released, adapter 6 is released without having been acquired. -/
theorem C31_set_lock_unbalanced :
    new_effects (logger_init (fresh (fun _ => sample_tm)))
      (logger_set_lock (.fn 5) .null (logger_init (fresh (fun _ => sample_tm)))) =
      [Effect.lock_call (.fn 5) false .null] ∧
    new_effects (logger_set_lock (.fn 5) .null (logger_init (fresh (fun _ => sample_tm))))
      (logger_set_lock (.fn 6) .null
        (logger_set_lock (.fn 5) .null (logger_init (fresh (fun _ => sample_tm))))) =
      [Effect.lock_call (.fn 5) true .null, Effect.lock_call (.fn 6) false .null] := by
  decide

/-! ## C32, C33 : invariants of the output table -/

theorem prefix_active_default_state : prefix_active default_state 1 := by
  intro i
  by_cases hi : i = 0
  · subst hi; simp [default_state, default_console]
  · have : i.val ≠ 0 := fun h0 => hi (Fin.ext h0)
    simp [default_state, Function.update_noteq hi, zero_handler]
    omega

theorem prefix_active_zero_state : prefix_active zero_state 0 := by
  intro i; simp [zero_state, zero_handler]

/-- Every public call keeps the active slots a prefix of the table. -/
theorem prefix_active_step (op : Op) (p : Process)
    (h : ∃ k, k ≤ MAX_OUTPUTS ∧ prefix_active p.logger_state k) :
    ∃ k, k ≤ MAX_OUTPUTS ∧ prefix_active (op.apply p).logger_state k := by
  obtain ⟨k, hk, hpre⟩ := h
  rcases op_apply_cases op p with
    ⟨hout, -⟩ | ⟨i, f, u, l, hfi, hst⟩ | ⟨-, hst⟩ | ⟨-, -, hst⟩
  · refine ⟨k, hk, ?_⟩
    intro j; rw [hout]; exact hpre j
  · have hk16 : k < MAX_OUTPUTS := by
      by_contra hge
      have hfull : prefix_active p.logger_state MAX_OUTPUTS := by
        have : k = MAX_OUTPUTS := by omega
        rw [← this]; exact hpre
      rw [prefix_active_full hfull] at hfi
      cases hfi
    have hi : i = ⟨k, hk16⟩ := by
      have := prefix_active_first_inactive hpre hk16
      rw [hfi] at this
      exact Option.some.inj this
    subst hi
    exact ⟨k + 1, hk16, by rw [hst]; exact prefix_active_set_output hpre hk16 f u l⟩
  · exact ⟨1, by decide, by rw [hst]; exact prefix_active_default_state⟩
  · exact ⟨0, by decide, by rw [hst]; exact prefix_active_zero_state⟩

theorem prefix_active_run (ops : List Op) :
    ∀ p : Process, (∃ k, k ≤ MAX_OUTPUTS ∧ prefix_active p.logger_state k) →
      ∃ k, k ≤ MAX_OUTPUTS ∧ prefix_active (run ops p).logger_state k := by
  induction ops with
  | nil => intro p h; exact h
  | cons op ops ih => intro p h; exact ih (op.apply p) (prefix_active_step op p h)

/-- C32: in every state reached from `logger_init` (in a process that had not yet
initialised the logger) through any sequence of public calls (setters, registrations,
`logger_log`, `logger_init`, `logger_cleanup`), the active slots are exactly the slots
`0..k-1` for some `k <= 16`; in particular no inactive slot lies below an active one. -/
theorem C32_active_slots_contiguous (p : Process) (ops : List Op)
    (huninit : p.logger_state.initialized = false) :
    (∃ k, k ≤ MAX_OUTPUTS ∧
      ∀ i : Fin MAX_OUTPUTS,
        ((run ops (logger_init p)).logger_state.outputs i).active = true ↔ i.val < k) ∧
    (∀ i j : Fin MAX_OUTPUTS, i < j →
      ((run ops (logger_init p)).logger_state.outputs j).active = true →
      ((run ops (logger_init p)).logger_state.outputs i).active = true) := by
  have h0 : ∃ k, k ≤ MAX_OUTPUTS ∧ prefix_active (logger_init p).logger_state k :=
    ⟨1, by decide, prefix_active_after_init p huninit⟩
  obtain ⟨k, hk, hpre⟩ := prefix_active_run ops (logger_init p) h0
  refine ⟨⟨k, hk, hpre⟩, ?_⟩
  intro i j hij hj
  have hjk := (hpre j).1 hj
  have hij' : i.val < j.val := hij
  exact (hpre i).2 (by omega)

/-- C32, instance: after `logger_init`, two registrations, `logger_cleanup` and a
registration on the uninitialised logger, the active slots form a prefix. -/
theorem C32_active_slots_contiguous_witness :
    ∃ k, k ≤ MAX_OUTPUTS ∧
      ∀ i : Fin MAX_OUTPUTS,
        ((run [.add (.console LOG_LEVEL_WARN), .add (.file (.addr 1) LOG_LEVEL_INFO), .cleanup,
            .add (.custom (.custom 1) .null LOG_LEVEL_TRACE)]
          (logger_init (fresh (fun _ => sample_tm)))).logger_state.outputs i).active = true ↔
        i.val < k :=
  (C32_active_slots_contiguous (fresh (fun _ => sample_tm))
    [.add (.console LOG_LEVEL_WARN), .add (.file (.addr 1) LOG_LEVEL_INFO), .cleanup,
      .add (.custom (.custom 1) .null LOG_LEVEL_TRACE)] (by decide)).1

/-- Every public call keeps: on an initialised logger, slot 0 holds the default console
sink. -/
theorem slot0_step (op : Op) (p : Process)
    (h : p.logger_state.initialized = true → p.logger_state.outputs 0 = default_console) :
    (op.apply p).logger_state.initialized = true →
      (op.apply p).logger_state.outputs 0 = default_console := by
  intro hq
  rcases op_apply_cases op p with
    ⟨hout, hini⟩ | ⟨i, f, u, l, hfi, hst⟩ | ⟨-, hst⟩ | ⟨-, -, hst⟩
  · rw [hout]; exact h (by rw [← hini]; exact hq)
  · have hp : p.logger_state.initialized = true := by
      rw [hst] at hq; exact hq
    have h0 := h hp
    have hi : i ≠ 0 := by
      intro hi0
      have hina := (first_inactive_some hfi).1
      rw [hi0, h0] at hina
      cases hina
    rw [hst]
    simp only [set_output, Function.update_noteq (Ne.symm hi)]
    exact h0
  · rw [hst]; simp [default_state]
  · rw [hst] at hq; cases hq

theorem slot0_run (ops : List Op) :
    ∀ p : Process,
      (p.logger_state.initialized = true → p.logger_state.outputs 0 = default_console) →
      (run ops p).logger_state.initialized = true →
      (run ops p).logger_state.outputs 0 = default_console := by
  induction ops with
  | nil => intro p h; exact h
  | cons op ops ih => intro p h; exact ih (op.apply p) (slot0_step op p h)

theorem run_append_one (ops : List Op) (op : Op) (p : Process) :
    run (ops ++ [op]) p = op.apply (run ops p) := by
  simp [run, List.foldl_append]

/-- The default console sink is the first slot a call that passes the global filter
invokes. -/
theorem slot0_dispatched (s : logger_state_t) (level : log_level_t) (ev : log_event_t)
    (t : tm) (args : List va_arg) (h0 : s.outputs 0 = default_console) :
    (0 : Fin MAX_OUTPUTS) ∈ dispatched s level ev t args (List.finRange MAX_OUTPUTS) := by
  have hp : passes s level 0 = true := by
    simp [passes, h0, default_console, LOG_LEVEL_TRACE]
  have hfr : List.finRange MAX_OUTPUTS = 0 :: (List.finRange 15).map Fin.succ :=
    List.finRange_succ_eq_map 15
  unfold dispatched
  rw [hfr, List.filter_cons, if_pos hp]
  obtain ⟨ys, hys⟩ := upto_stop_head (slot_returns s ev t args) 0
    (((List.finRange 15).map Fin.succ).filter (passes s level))
  rw [hys]
  exact List.mem_cons_self _ _

/-- C33 as stated fails: `logger_cleanup` is a public operation and deactivates the
default console sink: after `logger_init(); logger_cleanup();` slot 0, which held the
active default console sink, is inactive. -/
theorem C33_cleanup_deactivates_default_console :
    (logger_init (fresh (fun _ => sample_tm))).logger_state.outputs 0 =
      { output_fn := .logger_console_output, user_data := .stderr,
        min_level := LOG_LEVEL_TRACE, active := true } ∧
    ((Op.cleanup.apply (logger_init (fresh (fun _ => sample_tm)))).logger_state.outputs
      0).active = false ∧
    ((logger_cleanup (logger_init (fresh (fun _ => sample_tm)))).logger_state.outputs
      0).active = false := by
  decide

/-- C33, amended: in every initialised state reached from a fresh process through any
sequence of public calls, slot 0 is the active built-in console sink bound to stderr
with threshold TRACE; consequently every `logger_log` call whose level passes the global
minimum-level filter invokes the sink of slot 0, hence at least one sink; and no public
call other than `logger_cleanup` deactivates or re-thresholds it: after any other call
the logger is still initialised and slot 0 is as before. -/
theorem C33_default_console_in_slot0 (clock : Nat → tm) (ops : List Op)
    (hinit : (run ops (fresh clock)).logger_state.initialized = true) :
    (run ops (fresh clock)).logger_state.outputs 0 =
      { output_fn := .logger_console_output, user_data := .stderr,
        min_level := LOG_LEVEL_TRACE, active := true } ∧
    (∀ (level : log_level_t) (file function : Option String) (line : Int)
        (fmt : Option String) (args : List va_arg),
      (run ops (fresh clock)).logger_state.config.level ≤ level →
      (0 : Fin MAX_OUTPUTS) ∈ invoked_slots (new_effects (run ops (fresh clock))
        (logger_log level file function line fmt args (run ops (fresh clock)))) ∧
      invoked_slots (new_effects (run ops (fresh clock))
        (logger_log level file function line fmt args (run ops (fresh clock)))) ≠ []) ∧
    (∀ op : Op, op.is_cleanup = false →
      (op.apply (run ops (fresh clock))).logger_state.initialized = true ∧
      (op.apply (run ops (fresh clock))).logger_state.outputs 0 =
        (run ops (fresh clock)).logger_state.outputs 0) := by
  have hfresh : (fresh clock).logger_state.initialized = true →
      (fresh clock).logger_state.outputs 0 = default_console := by
    intro h; cases h
  have h0 := slot0_run ops (fresh clock) hfresh hinit
  refine ⟨h0, ?_, ?_⟩
  · intro level file function line fmt args hlevel
    have hmem : (0 : Fin MAX_OUTPUTS) ∈ invoked_slots (new_effects (run ops (fresh clock))
        (logger_log level file function line fmt args (run ops (fresh clock)))) := by
      rw [logger_log_invoked level file function line fmt args _ hinit,
        if_neg (not_lt.2 hlevel)]
      exact slot0_dispatched _ _ _ _ _ h0
    exact ⟨hmem, List.ne_nil_of_mem hmem⟩
  · intro op hop
    have hstill := op_apply_initialized op _ hop hinit
    have h1 := slot0_run (ops ++ [op]) (fresh clock) hfresh
    rw [run_append_one] at h1
    exact ⟨hstill, by rw [h1 hstill, h0]⟩

/-- C33, instance: after `logger_init`, a custom registration and
`logger_set_level(ERROR)`, slot 0 still holds the default console sink. -/
theorem C33_default_console_in_slot0_witness :
    (run [.init, .add (.custom (.custom 1) .null LOG_LEVEL_TRACE), .set_level LOG_LEVEL_ERROR]
      (fresh (fun _ => sample_tm))).logger_state.outputs 0 =
      { output_fn := .logger_console_output, user_data := .stderr,
        min_level := LOG_LEVEL_TRACE, active := true } :=
  (C33_default_console_in_slot0 (fun _ => sample_tm)
    [.init, .add (.custom (.custom 1) .null LOG_LEVEL_TRACE), .set_level LOG_LEVEL_ERROR]
    (by decide)).1

/-! ## C34 - C37 : further consequences -/

/-- C34: `logger_log` on an initialised logger leaves the logger state as it was, for
every level and arguments (the sinks being opaque procedures that do not call the logger
API): the configuration, the lock adapter, the initialized flag and every slot are the
same after the call as before. -/
theorem C34_log_leaves_state (level : log_level_t) (file function : Option String)
    (line : Int) (fmt : Option String) (args : List va_arg) (p : Process)
    (hinit : p.logger_state.initialized = true) :
    (logger_log level file function line fmt args p).logger_state = p.logger_state ∧
    (logger_log level file function line fmt args p).logger_state.config =
      p.logger_state.config ∧
    (logger_log level file function line fmt args p).logger_state.initialized = true ∧
    ∀ i, (logger_log level file function line fmt args p).logger_state.outputs i =
      p.logger_state.outputs i := by
  have h := logger_log_state_of_initialized level file function line fmt args p hinit
  refine ⟨h, by rw [h], by rw [h]; exact hinit, fun i => by rw [h]⟩

/-- C34, instance: an ERROR event after `logger_init` and `logger_set_lock`. -/
theorem C34_log_leaves_state_witness :
    (logger_log LOG_LEVEL_ERROR (some "main.c") (some "main") 10 (some "hello") []
      (logger_set_lock (.fn 5) .null (logger_init (fresh (fun _ => sample_tm))))).logger_state.config =
    (logger_set_lock (.fn 5) .null (logger_init (fresh (fun _ => sample_tm)))).logger_state.config :=
  (C34_log_leaves_state LOG_LEVEL_ERROR (some "main.c") (some "main") 10 (some "hello") []
    (logger_set_lock (.fn 5) .null (logger_init (fresh (fun _ => sample_tm)))) (by decide)).2.1

/-- C35, evaluated at the failing input: `logger_init`, then the same handle registered
twice through `logger_add_file_output`, then `logger_cleanup`: both registrations
succeed and the handle is passed to `fclose` twice. -/
theorem C35_same_handle_closed_twice :
    (register_all [.file (.addr 1) LOG_LEVEL_INFO, .file (.addr 1) LOG_LEVEL_ERROR]
      (logger_init (fresh (fun _ => sample_tm)))).1 = [0, 0] ∧
    closed_files (new_effects
      (register_all [.file (.addr 1) LOG_LEVEL_INFO, .file (.addr 1) LOG_LEVEL_ERROR]
        (logger_init (fresh (fun _ => sample_tm)))).2
      (logger_cleanup
        (register_all [.file (.addr 1) LOG_LEVEL_INFO, .file (.addr 1) LOG_LEVEL_ERROR]
          (logger_init (fresh (fun _ => sample_tm)))).2)) = [.addr 1, .addr 1] := by
  decide

/-- Delivery is monotone in severity when the calls at the higher level return: for
levels `a <= b`, every slot whose sink is invoked by `logger_log` at level `a` is also
invoked by `logger_log` at level `b` in that state. -/
theorem delivery_monotone_when_calls_return (a b : log_level_t)
    (file function : Option String) (line : Int) (fmt : Option String) (args : List va_arg)
    (p : Process) (i : Fin MAX_OUTPUTS) (hab : a ≤ b)
    (hret : all_return (logger_init p).logger_state b (call_event b file function line fmt)
      (p.clock p.ticks) args = true)
    (hi : i ∈ invoked_slots (new_effects p (logger_log a file function line fmt args p))) :
    i ∈ invoked_slots (new_effects p (logger_log b file function line fmt args p)) := by
  rw [(logger_log_spec a file function line fmt args p).2, invoked_slots_log_effects] at hi
  rw [(logger_log_spec b file function line fmt args p).2, invoked_slots_log_effects]
  by_cases ha : a < (logger_init p).logger_state.config.level
  · rw [if_pos ha] at hi; cases hi
  · rw [if_neg ha] at hi
    have hb : ¬ b < (logger_init p).logger_state.config.level :=
      fun h => ha (lt_of_le_of_lt hab h)
    rw [if_neg hb, dispatched_of_all_return _ _ _ _ _ hret]
    obtain ⟨hmem, hpass⟩ := List.mem_filter.1 ((dispatched_sublist _ _ _ _ _ _).subset hi)
    apply List.mem_filter.2
    refine ⟨hmem, ?_⟩
    simp only [passes, Bool.and_eq_true, decide_eq_true_eq] at hpass ⊢
    exact ⟨hpass.1, le_trans hpass.2 hab⟩

/-- Instance: the WARN console sink of slot 1, reached at WARN, is reached at FATAL. -/
theorem delivery_monotone_when_calls_return_instance :
    (1 : Fin MAX_OUTPUTS) ∈ invoked_slots (new_effects
      (logger_add_console_output LOG_LEVEL_WARN (logger_init (fresh (fun _ => sample_tm)))).2
      (logger_log LOG_LEVEL_FATAL (some "main.c") (some "main") 10 (some "hello") []
        (logger_add_console_output LOG_LEVEL_WARN
          (logger_init (fresh (fun _ => sample_tm)))).2)) :=
  delivery_monotone_when_calls_return LOG_LEVEL_WARN LOG_LEVEL_FATAL (some "main.c")
    (some "main") 10 (some "hello") []
    (logger_add_console_output LOG_LEVEL_WARN (logger_init (fresh (fun _ => sample_tm)))).2
    1 (by decide) (by decide) (by decide)

set_option maxRecDepth 8000 in
/-- C36, evaluated at the failing inputs.  After `logger_init();
logger_add_custom_output(fn, NULL, LOG_LEVEL_TRACE)` the custom sink of slot 1 is invoked
by `logger_log` at level INFO but not at level 99 although `INFO <= 99`: at 99 the
console sink of slot 0 reads its tables out of range, its call does not return and the
loop never reaches slot 1.  And with the levels passed as the integers `-1 <= 1` after
`logger_init()`: `-1` converts to the unsigned 4294967295, passes the global filter and
invokes slot 0, whereas level 1 (DEBUG) is below the minimum level INFO and invokes no
sink.  (`delivery_monotone_when_calls_return` gives the claimed monotonicity for levels
`a <= b` whenever the calls at `b` return.) -/
theorem C36_delivery_not_monotone_out_of_range :
    LOG_LEVEL_INFO ≤ (99 : log_level_t) ∧
    (1 : Fin MAX_OUTPUTS) ∈ invoked_slots (new_effects
      (logger_add_custom_output (.custom 7) .null LOG_LEVEL_TRACE
        (logger_init (fresh (fun _ => sample_tm)))).2
      (logger_log LOG_LEVEL_INFO (some "main.c") (some "main") 10 (some "hello") []
        (logger_add_custom_output (.custom 7) .null LOG_LEVEL_TRACE
          (logger_init (fresh (fun _ => sample_tm)))).2)) ∧
    (1 : Fin MAX_OUTPUTS) ∉ invoked_slots (new_effects
      (logger_add_custom_output (.custom 7) .null LOG_LEVEL_TRACE
        (logger_init (fresh (fun _ => sample_tm)))).2
      (logger_log 99 (some "main.c") (some "main") 10 (some "hello") []
        (logger_add_custom_output (.custom 7) .null LOG_LEVEL_TRACE
          (logger_init (fresh (fun _ => sample_tm)))).2)) ∧
    level_of_int (-1) = 4294967295 ∧
    invoked_slots (new_effects (logger_init (fresh (fun _ => sample_tm)))
      (logger_log (level_of_int (-1)) (some "main.c") (some "main") 10 (some "hello") []
        (logger_init (fresh (fun _ => sample_tm))))) = [0] ∧
    invoked_slots (new_effects (logger_init (fresh (fun _ => sample_tm)))
      (logger_log (level_of_int 1) (some "main.c") (some "main") 10 (some "hello") []
        (logger_init (fresh (fun _ => sample_tm))))) = [] := by
  decide

/-- C37: for every input, NULL included, the result of `logger_string_to_level` lies in
0..5, so `logger_level_to_string` of it is one of the six canonical names and is not
"UNKNOWN". -/
theorem C37_string_to_level_valid (str : Option String) :
    0 ≤ logger_string_to_level str ∧ logger_string_to_level str ≤ 5 ∧
    (∃ i : Fin 6, logger_level_to_string (logger_string_to_level str) = level_strings i) ∧
    logger_level_to_string (logger_string_to_level str) ≠ "UNKNOWN" := by
  have hall : ∀ i : Fin 6, (0 : Nat) ≤ i.val ∧ i.val ≤ 5 ∧
      logger_level_to_string i.val = level_strings i ∧
      logger_level_to_string i.val ≠ "UNKNOWN" := by decide
  have hval : ∃ i : Fin 6, logger_string_to_level str = i.val := by
    unfold logger_string_to_level
    cases str with
    | none => exact ⟨2, rfl⟩
    | some s =>
      simp only
      split
      · rename_i i _; exact ⟨i, rfl⟩
      · exact ⟨2, rfl⟩
  obtain ⟨i, hi⟩ := hval
  rw [hi]
  exact ⟨(hall i).1, (hall i).2.1, ⟨i, (hall i).2.2.1⟩, (hall i).2.2.2⟩

end Loggin
